import Mathlib

/-!
# Branch registry: embedding of `CreateBranch .jsx` and `BranchList.jsx`

The two React components keep a Firestore collection `branches`.  This file
embeds their handlers as pure functions over an explicit store and proves
properties of them.

Modelling conventions

* A JavaScript string is its list of UTF-16 code units (`JSString`), so that
  `.length`, `.substring` and `===` mean what they mean in JavaScript.
* A JavaScript object with the keys the registry reads or writes is a
  `Fields` record; a key that is absent (its value reads `undefined`) is `none`.
* The collection is a list of documents; Firestore keys documents by id, which
  is the predicate `KeysUnique`.
* `await` is sequential: every handler runs to completion against the store it
  is given.  A handler returns the store it leaves, the component state it
  leaves and the log of the effects it issued (`alert`, `window.confirm`,
  store calls, `console.error`).
-/

namespace BranchRegistry

/-! ## JavaScript strings -/

/-- A JavaScript string, as its sequence of UTF-16 code units. -/
abbrev JSString := List Nat

/-- UTF-16 encoding of one Unicode scalar value. -/
def utf16Char (c : Char) : List Nat :=
  if c.toNat < 0x10000 then [c.toNat]
  else [0xD800 + (c.toNat - 0x10000) / 0x400, 0xDC00 + (c.toNat - 0x10000) % 0x400]

/-- UTF-16 encoding of a string literal of the source. -/
def utf16 (s : String) : JSString :=
  s.toList.foldr (fun c acc => utf16Char c ++ acc) []

/-- The literal `"Main"`. -/
def sMain : JSString := [77, 97, 105, 110]

/-- The literal `"Sub"`. -/
def sSub : JSString := [83, 117, 98]

/-- The literal `"Active"`. -/
def sActive : JSString := [65, 99, 116, 105, 118, 101]

/-- The literal `"Inactive"`. -/
def sInactive : JSString := [73, 110, 97, 99, 116, 105, 118, 101]

/-- Code units that `String.prototype.trim` strips: ECMAScript WhiteSpace and
LineTerminator. -/
def isJSWhiteSpace (u : Nat) : Bool :=
  u == 0x09 || u == 0x0A || u == 0x0B || u == 0x0C || u == 0x0D || u == 0x20 ||
  u == 0xA0 || u == 0x1680 || (0x2000 ≤ u && u ≤ 0x200A) || u == 0x2028 ||
  u == 0x2029 || u == 0x202F || u == 0x205F || u == 0x3000 || u == 0xFEFF

/-- `String.prototype.trim`. -/
def trim (s : JSString) : JSString :=
  ((s.dropWhile isJSWhiteSpace).reverse.dropWhile isJSWhiteSpace).reverse

/-- `String.prototype.substring(0, n)`. -/
def substring0 (n : Nat) (s : JSString) : JSString := s.take n

/-! ## Unicode case tables

The case mappings and the two properties used by `String.prototype.toUpperCase`
and `String.prototype.toLowerCase`, from the Unicode Character Database,
version 14.0 (`UnicodeData.txt`, the unconditional mappings of
`SpecialCasing.txt`, `DerivedCoreProperties.txt`). -/

/-- A run `(first, last, step, target)`: the code points
`first, first + step, ..., last`, whose simple case mapping is
`target + (cp - first)`. -/
abbrev CaseRun := Nat × Nat × Nat × Nat

/-- Simple upper-case mappings (`Simple_Uppercase_Mapping`). -/
def upperRuns : List CaseRun :=
  [(0x61, 0x7A, 1, 0x41), (0xB5, 0xB5, 1, 0x39C), (0xE0, 0xF6, 1, 0xC0),
   (0xF8, 0xFE, 1, 0xD8), (0xFF, 0xFF, 1, 0x178), (0x101, 0x12F, 2, 0x100),
   (0x131, 0x131, 1, 0x49), (0x133, 0x137, 2, 0x132), (0x13A, 0x148, 2, 0x139),
   (0x14B, 0x177, 2, 0x14A), (0x17A, 0x17E, 2, 0x179), (0x17F, 0x17F, 1, 0x53),
   (0x180, 0x180, 1, 0x243), (0x183, 0x185, 2, 0x182), (0x188, 0x188, 1, 0x187),
   (0x18C, 0x18C, 1, 0x18B), (0x192, 0x192, 1, 0x191), (0x195, 0x195, 1, 0x1F6),
   (0x199, 0x199, 1, 0x198), (0x19A, 0x19A, 1, 0x23D), (0x19E, 0x19E, 1, 0x220),
   (0x1A1, 0x1A5, 2, 0x1A0), (0x1A8, 0x1A8, 1, 0x1A7), (0x1AD, 0x1AD, 1, 0x1AC),
   (0x1B0, 0x1B0, 1, 0x1AF), (0x1B4, 0x1B6, 2, 0x1B3), (0x1B9, 0x1B9, 1, 0x1B8),
   (0x1BD, 0x1BD, 1, 0x1BC), (0x1BF, 0x1BF, 1, 0x1F7), (0x1C5, 0x1C5, 1, 0x1C4),
   (0x1C6, 0x1C6, 1, 0x1C4), (0x1C8, 0x1C8, 1, 0x1C7), (0x1C9, 0x1C9, 1, 0x1C7),
   (0x1CB, 0x1CB, 1, 0x1CA), (0x1CC, 0x1CC, 1, 0x1CA), (0x1CE, 0x1DC, 2, 0x1CD),
   (0x1DD, 0x1DD, 1, 0x18E), (0x1DF, 0x1EF, 2, 0x1DE), (0x1F2, 0x1F2, 1, 0x1F1),
   (0x1F3, 0x1F3, 1, 0x1F1), (0x1F5, 0x1F5, 1, 0x1F4), (0x1F9, 0x21F, 2, 0x1F8),
   (0x223, 0x233, 2, 0x222), (0x23C, 0x23C, 1, 0x23B), (0x23F, 0x240, 1, 0x2C7E),
   (0x242, 0x242, 1, 0x241), (0x247, 0x24F, 2, 0x246), (0x250, 0x250, 1, 0x2C6F),
   (0x251, 0x251, 1, 0x2C6D), (0x252, 0x252, 1, 0x2C70), (0x253, 0x253, 1, 0x181),
   (0x254, 0x254, 1, 0x186), (0x256, 0x257, 1, 0x189), (0x259, 0x259, 1, 0x18F),
   (0x25B, 0x25B, 1, 0x190), (0x25C, 0x25C, 1, 0xA7AB), (0x260, 0x260, 1, 0x193),
   (0x261, 0x261, 1, 0xA7AC), (0x263, 0x263, 1, 0x194), (0x265, 0x265, 1, 0xA78D),
   (0x266, 0x266, 1, 0xA7AA), (0x268, 0x268, 1, 0x197), (0x269, 0x269, 1, 0x196),
   (0x26A, 0x26A, 1, 0xA7AE), (0x26B, 0x26B, 1, 0x2C62), (0x26C, 0x26C, 1, 0xA7AD),
   (0x26F, 0x26F, 1, 0x19C), (0x271, 0x271, 1, 0x2C6E), (0x272, 0x272, 1, 0x19D),
   (0x275, 0x275, 1, 0x19F), (0x27D, 0x27D, 1, 0x2C64), (0x280, 0x280, 1, 0x1A6),
   (0x282, 0x282, 1, 0xA7C5), (0x283, 0x283, 1, 0x1A9), (0x287, 0x287, 1, 0xA7B1),
   (0x288, 0x288, 1, 0x1AE), (0x289, 0x289, 1, 0x244), (0x28A, 0x28B, 1, 0x1B1),
   (0x28C, 0x28C, 1, 0x245), (0x292, 0x292, 1, 0x1B7), (0x29D, 0x29D, 1, 0xA7B2),
   (0x29E, 0x29E, 1, 0xA7B0), (0x345, 0x345, 1, 0x399), (0x371, 0x373, 2, 0x370),
   (0x377, 0x377, 1, 0x376), (0x37B, 0x37D, 1, 0x3FD), (0x3AC, 0x3AC, 1, 0x386),
   (0x3AD, 0x3AF, 1, 0x388), (0x3B1, 0x3C1, 1, 0x391), (0x3C2, 0x3C2, 1, 0x3A3),
   (0x3C3, 0x3CB, 1, 0x3A3), (0x3CC, 0x3CC, 1, 0x38C), (0x3CD, 0x3CE, 1, 0x38E),
   (0x3D0, 0x3D0, 1, 0x392), (0x3D1, 0x3D1, 1, 0x398), (0x3D5, 0x3D5, 1, 0x3A6),
   (0x3D6, 0x3D6, 1, 0x3A0), (0x3D7, 0x3D7, 1, 0x3CF), (0x3D9, 0x3EF, 2, 0x3D8),
   (0x3F0, 0x3F0, 1, 0x39A), (0x3F1, 0x3F1, 1, 0x3A1), (0x3F2, 0x3F2, 1, 0x3F9),
   (0x3F3, 0x3F3, 1, 0x37F), (0x3F5, 0x3F5, 1, 0x395), (0x3F8, 0x3F8, 1, 0x3F7),
   (0x3FB, 0x3FB, 1, 0x3FA), (0x430, 0x44F, 1, 0x410), (0x450, 0x45F, 1, 0x400),
   (0x461, 0x481, 2, 0x460), (0x48B, 0x4BF, 2, 0x48A), (0x4C2, 0x4CE, 2, 0x4C1),
   (0x4CF, 0x4CF, 1, 0x4C0), (0x4D1, 0x52F, 2, 0x4D0), (0x561, 0x586, 1, 0x531),
   (0x10D0, 0x10FA, 1, 0x1C90), (0x10FD, 0x10FF, 1, 0x1CBD), (0x13F8, 0x13FD, 1, 0x13F0),
   (0x1C80, 0x1C80, 1, 0x412), (0x1C81, 0x1C81, 1, 0x414), (0x1C82, 0x1C82, 1, 0x41E),
   (0x1C83, 0x1C84, 1, 0x421), (0x1C85, 0x1C85, 1, 0x422), (0x1C86, 0x1C86, 1, 0x42A),
   (0x1C87, 0x1C87, 1, 0x462), (0x1C88, 0x1C88, 1, 0xA64A), (0x1D79, 0x1D79, 1, 0xA77D),
   (0x1D7D, 0x1D7D, 1, 0x2C63), (0x1D8E, 0x1D8E, 1, 0xA7C6), (0x1E01, 0x1E95, 2, 0x1E00),
   (0x1E9B, 0x1E9B, 1, 0x1E60), (0x1EA1, 0x1EFF, 2, 0x1EA0), (0x1F00, 0x1F07, 1, 0x1F08),
   (0x1F10, 0x1F15, 1, 0x1F18), (0x1F20, 0x1F27, 1, 0x1F28), (0x1F30, 0x1F37, 1, 0x1F38),
   (0x1F40, 0x1F45, 1, 0x1F48), (0x1F51, 0x1F57, 2, 0x1F59), (0x1F60, 0x1F67, 1, 0x1F68),
   (0x1F70, 0x1F71, 1, 0x1FBA), (0x1F72, 0x1F75, 1, 0x1FC8), (0x1F76, 0x1F77, 1, 0x1FDA),
   (0x1F78, 0x1F79, 1, 0x1FF8), (0x1F7A, 0x1F7B, 1, 0x1FEA), (0x1F7C, 0x1F7D, 1, 0x1FFA),
   (0x1FB0, 0x1FB1, 1, 0x1FB8), (0x1FBE, 0x1FBE, 1, 0x399), (0x1FD0, 0x1FD1, 1, 0x1FD8),
   (0x1FE0, 0x1FE1, 1, 0x1FE8), (0x1FE5, 0x1FE5, 1, 0x1FEC), (0x214E, 0x214E, 1, 0x2132),
   (0x2170, 0x217F, 1, 0x2160), (0x2184, 0x2184, 1, 0x2183), (0x24D0, 0x24E9, 1, 0x24B6),
   (0x2C30, 0x2C5F, 1, 0x2C00), (0x2C61, 0x2C61, 1, 0x2C60), (0x2C65, 0x2C65, 1, 0x23A),
   (0x2C66, 0x2C66, 1, 0x23E), (0x2C68, 0x2C6C, 2, 0x2C67), (0x2C73, 0x2C73, 1, 0x2C72),
   (0x2C76, 0x2C76, 1, 0x2C75), (0x2C81, 0x2CE3, 2, 0x2C80), (0x2CEC, 0x2CEE, 2, 0x2CEB),
   (0x2CF3, 0x2CF3, 1, 0x2CF2), (0x2D00, 0x2D25, 1, 0x10A0), (0x2D27, 0x2D27, 1, 0x10C7),
   (0x2D2D, 0x2D2D, 1, 0x10CD), (0xA641, 0xA66D, 2, 0xA640), (0xA681, 0xA69B, 2, 0xA680),
   (0xA723, 0xA72F, 2, 0xA722), (0xA733, 0xA76F, 2, 0xA732), (0xA77A, 0xA77C, 2, 0xA779),
   (0xA77F, 0xA787, 2, 0xA77E), (0xA78C, 0xA78C, 1, 0xA78B), (0xA791, 0xA793, 2, 0xA790),
   (0xA794, 0xA794, 1, 0xA7C4), (0xA797, 0xA7A9, 2, 0xA796), (0xA7B5, 0xA7C3, 2, 0xA7B4),
   (0xA7C8, 0xA7CA, 2, 0xA7C7), (0xA7D1, 0xA7D1, 1, 0xA7D0), (0xA7D7, 0xA7D9, 2, 0xA7D6),
   (0xA7F6, 0xA7F6, 1, 0xA7F5), (0xAB53, 0xAB53, 1, 0xA7B3), (0xAB70, 0xABBF, 1, 0x13A0),
   (0xFF41, 0xFF5A, 1, 0xFF21), (0x10428, 0x1044F, 1, 0x10400), (0x104D8, 0x104FB, 1, 0x104B0),
   (0x10597, 0x105BB, 2, 0x10570), (0x10598, 0x105A0, 2, 0x10571), (0x105A4, 0x105B0, 2, 0x1057D),
   (0x105B4, 0x105B8, 2, 0x1058D), (0x105BC, 0x105BC, 1, 0x10595), (0x10CC0, 0x10CF2, 1, 0x10C80),
   (0x118C0, 0x118DF, 1, 0x118A0), (0x16E60, 0x16E7F, 1, 0x16E40), (0x1E922, 0x1E943, 1, 0x1E900)]

/-- Full upper-case mappings to more than one code point (`SpecialCasing.txt`,
unconditional). -/
def upperSpecial : List (Nat × List Nat) :=
  [(0xDF, [0x53, 0x53]), (0x149, [0x2BC, 0x4E]), (0x1F0, [0x4A, 0x30C]),
   (0x390, [0x399, 0x308, 0x301]), (0x3B0, [0x3A5, 0x308, 0x301]), (0x587, [0x535, 0x552]),
   (0x1E96, [0x48, 0x331]), (0x1E97, [0x54, 0x308]), (0x1E98, [0x57, 0x30A]),
   (0x1E99, [0x59, 0x30A]), (0x1E9A, [0x41, 0x2BE]), (0x1F50, [0x3A5, 0x313]),
   (0x1F52, [0x3A5, 0x313, 0x300]), (0x1F54, [0x3A5, 0x313, 0x301]), (0x1F56, [0x3A5, 0x313, 0x342]),
   (0x1F80, [0x1F08, 0x399]), (0x1F81, [0x1F09, 0x399]), (0x1F82, [0x1F0A, 0x399]),
   (0x1F83, [0x1F0B, 0x399]), (0x1F84, [0x1F0C, 0x399]), (0x1F85, [0x1F0D, 0x399]),
   (0x1F86, [0x1F0E, 0x399]), (0x1F87, [0x1F0F, 0x399]), (0x1F88, [0x1F08, 0x399]),
   (0x1F89, [0x1F09, 0x399]), (0x1F8A, [0x1F0A, 0x399]), (0x1F8B, [0x1F0B, 0x399]),
   (0x1F8C, [0x1F0C, 0x399]), (0x1F8D, [0x1F0D, 0x399]), (0x1F8E, [0x1F0E, 0x399]),
   (0x1F8F, [0x1F0F, 0x399]), (0x1F90, [0x1F28, 0x399]), (0x1F91, [0x1F29, 0x399]),
   (0x1F92, [0x1F2A, 0x399]), (0x1F93, [0x1F2B, 0x399]), (0x1F94, [0x1F2C, 0x399]),
   (0x1F95, [0x1F2D, 0x399]), (0x1F96, [0x1F2E, 0x399]), (0x1F97, [0x1F2F, 0x399]),
   (0x1F98, [0x1F28, 0x399]), (0x1F99, [0x1F29, 0x399]), (0x1F9A, [0x1F2A, 0x399]),
   (0x1F9B, [0x1F2B, 0x399]), (0x1F9C, [0x1F2C, 0x399]), (0x1F9D, [0x1F2D, 0x399]),
   (0x1F9E, [0x1F2E, 0x399]), (0x1F9F, [0x1F2F, 0x399]), (0x1FA0, [0x1F68, 0x399]),
   (0x1FA1, [0x1F69, 0x399]), (0x1FA2, [0x1F6A, 0x399]), (0x1FA3, [0x1F6B, 0x399]),
   (0x1FA4, [0x1F6C, 0x399]), (0x1FA5, [0x1F6D, 0x399]), (0x1FA6, [0x1F6E, 0x399]),
   (0x1FA7, [0x1F6F, 0x399]), (0x1FA8, [0x1F68, 0x399]), (0x1FA9, [0x1F69, 0x399]),
   (0x1FAA, [0x1F6A, 0x399]), (0x1FAB, [0x1F6B, 0x399]), (0x1FAC, [0x1F6C, 0x399]),
   (0x1FAD, [0x1F6D, 0x399]), (0x1FAE, [0x1F6E, 0x399]), (0x1FAF, [0x1F6F, 0x399]),
   (0x1FB2, [0x1FBA, 0x399]), (0x1FB3, [0x391, 0x399]), (0x1FB4, [0x386, 0x399]),
   (0x1FB6, [0x391, 0x342]), (0x1FB7, [0x391, 0x342, 0x399]), (0x1FBC, [0x391, 0x399]),
   (0x1FC2, [0x1FCA, 0x399]), (0x1FC3, [0x397, 0x399]), (0x1FC4, [0x389, 0x399]),
   (0x1FC6, [0x397, 0x342]), (0x1FC7, [0x397, 0x342, 0x399]), (0x1FCC, [0x397, 0x399]),
   (0x1FD2, [0x399, 0x308, 0x300]), (0x1FD3, [0x399, 0x308, 0x301]), (0x1FD6, [0x399, 0x342]),
   (0x1FD7, [0x399, 0x308, 0x342]), (0x1FE2, [0x3A5, 0x308, 0x300]), (0x1FE3, [0x3A5, 0x308, 0x301]),
   (0x1FE4, [0x3A1, 0x313]), (0x1FE6, [0x3A5, 0x342]), (0x1FE7, [0x3A5, 0x308, 0x342]),
   (0x1FF2, [0x1FFA, 0x399]), (0x1FF3, [0x3A9, 0x399]), (0x1FF4, [0x38F, 0x399]),
   (0x1FF6, [0x3A9, 0x342]), (0x1FF7, [0x3A9, 0x342, 0x399]), (0x1FFC, [0x3A9, 0x399]),
   (0xFB00, [0x46, 0x46]), (0xFB01, [0x46, 0x49]), (0xFB02, [0x46, 0x4C]),
   (0xFB03, [0x46, 0x46, 0x49]), (0xFB04, [0x46, 0x46, 0x4C]), (0xFB05, [0x53, 0x54]),
   (0xFB06, [0x53, 0x54]), (0xFB13, [0x544, 0x546]), (0xFB14, [0x544, 0x535]),
   (0xFB15, [0x544, 0x53B]), (0xFB16, [0x54E, 0x546]), (0xFB17, [0x544, 0x53D])]

/-- Simple lower-case mappings (`Simple_Lowercase_Mapping`). -/
def lowerRuns : List CaseRun :=
  [(0x41, 0x5A, 1, 0x61), (0xC0, 0xD6, 1, 0xE0), (0xD8, 0xDE, 1, 0xF8),
   (0x100, 0x12E, 2, 0x101), (0x132, 0x136, 2, 0x133), (0x139, 0x147, 2, 0x13A),
   (0x14A, 0x176, 2, 0x14B), (0x178, 0x178, 1, 0xFF), (0x179, 0x17D, 2, 0x17A),
   (0x181, 0x181, 1, 0x253), (0x182, 0x184, 2, 0x183), (0x186, 0x186, 1, 0x254),
   (0x187, 0x187, 1, 0x188), (0x189, 0x18A, 1, 0x256), (0x18B, 0x18B, 1, 0x18C),
   (0x18E, 0x18E, 1, 0x1DD), (0x18F, 0x18F, 1, 0x259), (0x190, 0x190, 1, 0x25B),
   (0x191, 0x191, 1, 0x192), (0x193, 0x193, 1, 0x260), (0x194, 0x194, 1, 0x263),
   (0x196, 0x196, 1, 0x269), (0x197, 0x197, 1, 0x268), (0x198, 0x198, 1, 0x199),
   (0x19C, 0x19C, 1, 0x26F), (0x19D, 0x19D, 1, 0x272), (0x19F, 0x19F, 1, 0x275),
   (0x1A0, 0x1A4, 2, 0x1A1), (0x1A6, 0x1A6, 1, 0x280), (0x1A7, 0x1A7, 1, 0x1A8),
   (0x1A9, 0x1A9, 1, 0x283), (0x1AC, 0x1AC, 1, 0x1AD), (0x1AE, 0x1AE, 1, 0x288),
   (0x1AF, 0x1AF, 1, 0x1B0), (0x1B1, 0x1B2, 1, 0x28A), (0x1B3, 0x1B5, 2, 0x1B4),
   (0x1B7, 0x1B7, 1, 0x292), (0x1B8, 0x1B8, 1, 0x1B9), (0x1BC, 0x1BC, 1, 0x1BD),
   (0x1C4, 0x1C4, 1, 0x1C6), (0x1C5, 0x1C5, 1, 0x1C6), (0x1C7, 0x1C7, 1, 0x1C9),
   (0x1C8, 0x1C8, 1, 0x1C9), (0x1CA, 0x1CA, 1, 0x1CC), (0x1CB, 0x1DB, 2, 0x1CC),
   (0x1DE, 0x1EE, 2, 0x1DF), (0x1F1, 0x1F1, 1, 0x1F3), (0x1F2, 0x1F4, 2, 0x1F3),
   (0x1F6, 0x1F6, 1, 0x195), (0x1F7, 0x1F7, 1, 0x1BF), (0x1F8, 0x21E, 2, 0x1F9),
   (0x220, 0x220, 1, 0x19E), (0x222, 0x232, 2, 0x223), (0x23A, 0x23A, 1, 0x2C65),
   (0x23B, 0x23B, 1, 0x23C), (0x23D, 0x23D, 1, 0x19A), (0x23E, 0x23E, 1, 0x2C66),
   (0x241, 0x241, 1, 0x242), (0x243, 0x243, 1, 0x180), (0x244, 0x244, 1, 0x289),
   (0x245, 0x245, 1, 0x28C), (0x246, 0x24E, 2, 0x247), (0x370, 0x372, 2, 0x371),
   (0x376, 0x376, 1, 0x377), (0x37F, 0x37F, 1, 0x3F3), (0x386, 0x386, 1, 0x3AC),
   (0x388, 0x38A, 1, 0x3AD), (0x38C, 0x38C, 1, 0x3CC), (0x38E, 0x38F, 1, 0x3CD),
   (0x391, 0x3A1, 1, 0x3B1), (0x3A3, 0x3AB, 1, 0x3C3), (0x3CF, 0x3CF, 1, 0x3D7),
   (0x3D8, 0x3EE, 2, 0x3D9), (0x3F4, 0x3F4, 1, 0x3B8), (0x3F7, 0x3F7, 1, 0x3F8),
   (0x3F9, 0x3F9, 1, 0x3F2), (0x3FA, 0x3FA, 1, 0x3FB), (0x3FD, 0x3FF, 1, 0x37B),
   (0x400, 0x40F, 1, 0x450), (0x410, 0x42F, 1, 0x430), (0x460, 0x480, 2, 0x461),
   (0x48A, 0x4BE, 2, 0x48B), (0x4C0, 0x4C0, 1, 0x4CF), (0x4C1, 0x4CD, 2, 0x4C2),
   (0x4D0, 0x52E, 2, 0x4D1), (0x531, 0x556, 1, 0x561), (0x10A0, 0x10C5, 1, 0x2D00),
   (0x10C7, 0x10C7, 1, 0x2D27), (0x10CD, 0x10CD, 1, 0x2D2D), (0x13A0, 0x13EF, 1, 0xAB70),
   (0x13F0, 0x13F5, 1, 0x13F8), (0x1C90, 0x1CBA, 1, 0x10D0), (0x1CBD, 0x1CBF, 1, 0x10FD),
   (0x1E00, 0x1E94, 2, 0x1E01), (0x1E9E, 0x1E9E, 1, 0xDF), (0x1EA0, 0x1EFE, 2, 0x1EA1),
   (0x1F08, 0x1F0F, 1, 0x1F00), (0x1F18, 0x1F1D, 1, 0x1F10), (0x1F28, 0x1F2F, 1, 0x1F20),
   (0x1F38, 0x1F3F, 1, 0x1F30), (0x1F48, 0x1F4D, 1, 0x1F40), (0x1F59, 0x1F5F, 2, 0x1F51),
   (0x1F68, 0x1F6F, 1, 0x1F60), (0x1F88, 0x1F8F, 1, 0x1F80), (0x1F98, 0x1F9F, 1, 0x1F90),
   (0x1FA8, 0x1FAF, 1, 0x1FA0), (0x1FB8, 0x1FB9, 1, 0x1FB0), (0x1FBA, 0x1FBB, 1, 0x1F70),
   (0x1FBC, 0x1FBC, 1, 0x1FB3), (0x1FC8, 0x1FCB, 1, 0x1F72), (0x1FCC, 0x1FCC, 1, 0x1FC3),
   (0x1FD8, 0x1FD9, 1, 0x1FD0), (0x1FDA, 0x1FDB, 1, 0x1F76), (0x1FE8, 0x1FE9, 1, 0x1FE0),
   (0x1FEA, 0x1FEB, 1, 0x1F7A), (0x1FEC, 0x1FEC, 1, 0x1FE5), (0x1FF8, 0x1FF9, 1, 0x1F78),
   (0x1FFA, 0x1FFB, 1, 0x1F7C), (0x1FFC, 0x1FFC, 1, 0x1FF3), (0x2126, 0x2126, 1, 0x3C9),
   (0x212A, 0x212A, 1, 0x6B), (0x212B, 0x212B, 1, 0xE5), (0x2132, 0x2132, 1, 0x214E),
   (0x2160, 0x216F, 1, 0x2170), (0x2183, 0x2183, 1, 0x2184), (0x24B6, 0x24CF, 1, 0x24D0),
   (0x2C00, 0x2C2F, 1, 0x2C30), (0x2C60, 0x2C60, 1, 0x2C61), (0x2C62, 0x2C62, 1, 0x26B),
   (0x2C63, 0x2C63, 1, 0x1D7D), (0x2C64, 0x2C64, 1, 0x27D), (0x2C67, 0x2C6B, 2, 0x2C68),
   (0x2C6D, 0x2C6D, 1, 0x251), (0x2C6E, 0x2C6E, 1, 0x271), (0x2C6F, 0x2C6F, 1, 0x250),
   (0x2C70, 0x2C70, 1, 0x252), (0x2C72, 0x2C72, 1, 0x2C73), (0x2C75, 0x2C75, 1, 0x2C76),
   (0x2C7E, 0x2C7F, 1, 0x23F), (0x2C80, 0x2CE2, 2, 0x2C81), (0x2CEB, 0x2CED, 2, 0x2CEC),
   (0x2CF2, 0x2CF2, 1, 0x2CF3), (0xA640, 0xA66C, 2, 0xA641), (0xA680, 0xA69A, 2, 0xA681),
   (0xA722, 0xA72E, 2, 0xA723), (0xA732, 0xA76E, 2, 0xA733), (0xA779, 0xA77B, 2, 0xA77A),
   (0xA77D, 0xA77D, 1, 0x1D79), (0xA77E, 0xA786, 2, 0xA77F), (0xA78B, 0xA78B, 1, 0xA78C),
   (0xA78D, 0xA78D, 1, 0x265), (0xA790, 0xA792, 2, 0xA791), (0xA796, 0xA7A8, 2, 0xA797),
   (0xA7AA, 0xA7AA, 1, 0x266), (0xA7AB, 0xA7AB, 1, 0x25C), (0xA7AC, 0xA7AC, 1, 0x261),
   (0xA7AD, 0xA7AD, 1, 0x26C), (0xA7AE, 0xA7AE, 1, 0x26A), (0xA7B0, 0xA7B0, 1, 0x29E),
   (0xA7B1, 0xA7B1, 1, 0x287), (0xA7B2, 0xA7B2, 1, 0x29D), (0xA7B3, 0xA7B3, 1, 0xAB53),
   (0xA7B4, 0xA7C2, 2, 0xA7B5), (0xA7C4, 0xA7C4, 1, 0xA794), (0xA7C5, 0xA7C5, 1, 0x282),
   (0xA7C6, 0xA7C6, 1, 0x1D8E), (0xA7C7, 0xA7C9, 2, 0xA7C8), (0xA7D0, 0xA7D0, 1, 0xA7D1),
   (0xA7D6, 0xA7D8, 2, 0xA7D7), (0xA7F5, 0xA7F5, 1, 0xA7F6), (0xFF21, 0xFF3A, 1, 0xFF41),
   (0x10400, 0x10427, 1, 0x10428), (0x104B0, 0x104D3, 1, 0x104D8), (0x10570, 0x10594, 2, 0x10597),
   (0x10571, 0x10579, 2, 0x10598), (0x1057D, 0x10589, 2, 0x105A4), (0x1058D, 0x10591, 2, 0x105B4),
   (0x10595, 0x10595, 1, 0x105BC), (0x10C80, 0x10CB2, 1, 0x10CC0), (0x118A0, 0x118BF, 1, 0x118C0),
   (0x16E40, 0x16E5F, 1, 0x16E60), (0x1E900, 0x1E921, 1, 0x1E922)]

/-- Full lower-case mappings to more than one code point (`SpecialCasing.txt`,
unconditional). -/
def lowerSpecial : List (Nat × List Nat) :=
  [(0x130, [0x69, 0x307])]

/-- The code points with the property `Case_Ignorable`, as inclusive ranges. -/
def caseIgnorableRanges : List (Nat × Nat) :=
  [(0x27, 0x27), (0x2E, 0x2E), (0x3A, 0x3A), (0x5E, 0x5E), (0x60, 0x60),
   (0xA8, 0xA8), (0xAD, 0xAD), (0xAF, 0xAF), (0xB4, 0xB4), (0xB7, 0xB8),
   (0x2B0, 0x36F), (0x374, 0x375), (0x37A, 0x37A), (0x384, 0x385), (0x387, 0x387),
   (0x483, 0x489), (0x559, 0x559), (0x55F, 0x55F), (0x591, 0x5BD), (0x5BF, 0x5BF),
   (0x5C1, 0x5C2), (0x5C4, 0x5C5), (0x5C7, 0x5C7), (0x5F4, 0x5F4), (0x600, 0x605),
   (0x610, 0x61A), (0x61C, 0x61C), (0x640, 0x640), (0x64B, 0x65F), (0x670, 0x670),
   (0x6D6, 0x6DD), (0x6DF, 0x6E8), (0x6EA, 0x6ED), (0x70F, 0x70F), (0x711, 0x711),
   (0x730, 0x74A), (0x7A6, 0x7B0), (0x7EB, 0x7F5), (0x7FA, 0x7FA), (0x7FD, 0x7FD),
   (0x816, 0x82D), (0x859, 0x85B), (0x888, 0x888), (0x890, 0x891), (0x898, 0x89F),
   (0x8C9, 0x902), (0x93A, 0x93A), (0x93C, 0x93C), (0x941, 0x948), (0x94D, 0x94D),
   (0x951, 0x957), (0x962, 0x963), (0x971, 0x971), (0x981, 0x981), (0x9BC, 0x9BC),
   (0x9C1, 0x9C4), (0x9CD, 0x9CD), (0x9E2, 0x9E3), (0x9FE, 0x9FE), (0xA01, 0xA02),
   (0xA3C, 0xA3C), (0xA41, 0xA42), (0xA47, 0xA48), (0xA4B, 0xA4D), (0xA51, 0xA51),
   (0xA70, 0xA71), (0xA75, 0xA75), (0xA81, 0xA82), (0xABC, 0xABC), (0xAC1, 0xAC5),
   (0xAC7, 0xAC8), (0xACD, 0xACD), (0xAE2, 0xAE3), (0xAFA, 0xAFF), (0xB01, 0xB01),
   (0xB3C, 0xB3C), (0xB3F, 0xB3F), (0xB41, 0xB44), (0xB4D, 0xB4D), (0xB55, 0xB56),
   (0xB62, 0xB63), (0xB82, 0xB82), (0xBC0, 0xBC0), (0xBCD, 0xBCD), (0xC00, 0xC00),
   (0xC04, 0xC04), (0xC3C, 0xC3C), (0xC3E, 0xC40), (0xC46, 0xC48), (0xC4A, 0xC4D),
   (0xC55, 0xC56), (0xC62, 0xC63), (0xC81, 0xC81), (0xCBC, 0xCBC), (0xCBF, 0xCBF),
   (0xCC6, 0xCC6), (0xCCC, 0xCCD), (0xCE2, 0xCE3), (0xD00, 0xD01), (0xD3B, 0xD3C),
   (0xD41, 0xD44), (0xD4D, 0xD4D), (0xD62, 0xD63), (0xD81, 0xD81), (0xDCA, 0xDCA),
   (0xDD2, 0xDD4), (0xDD6, 0xDD6), (0xE31, 0xE31), (0xE34, 0xE3A), (0xE46, 0xE4E),
   (0xEB1, 0xEB1), (0xEB4, 0xEBC), (0xEC6, 0xEC6), (0xEC8, 0xECD), (0xF18, 0xF19),
   (0xF35, 0xF35), (0xF37, 0xF37), (0xF39, 0xF39), (0xF71, 0xF7E), (0xF80, 0xF84),
   (0xF86, 0xF87), (0xF8D, 0xF97), (0xF99, 0xFBC), (0xFC6, 0xFC6), (0x102D, 0x1030),
   (0x1032, 0x1037), (0x1039, 0x103A), (0x103D, 0x103E), (0x1058, 0x1059), (0x105E, 0x1060),
   (0x1071, 0x1074), (0x1082, 0x1082), (0x1085, 0x1086), (0x108D, 0x108D), (0x109D, 0x109D),
   (0x10FC, 0x10FC), (0x135D, 0x135F), (0x1712, 0x1714), (0x1732, 0x1733), (0x1752, 0x1753),
   (0x1772, 0x1773), (0x17B4, 0x17B5), (0x17B7, 0x17BD), (0x17C6, 0x17C6), (0x17C9, 0x17D3),
   (0x17D7, 0x17D7), (0x17DD, 0x17DD), (0x180B, 0x180F), (0x1843, 0x1843), (0x1885, 0x1886),
   (0x18A9, 0x18A9), (0x1920, 0x1922), (0x1927, 0x1928), (0x1932, 0x1932), (0x1939, 0x193B),
   (0x1A17, 0x1A18), (0x1A1B, 0x1A1B), (0x1A56, 0x1A56), (0x1A58, 0x1A5E), (0x1A60, 0x1A60),
   (0x1A62, 0x1A62), (0x1A65, 0x1A6C), (0x1A73, 0x1A7C), (0x1A7F, 0x1A7F), (0x1AA7, 0x1AA7),
   (0x1AB0, 0x1ACE), (0x1B00, 0x1B03), (0x1B34, 0x1B34), (0x1B36, 0x1B3A), (0x1B3C, 0x1B3C),
   (0x1B42, 0x1B42), (0x1B6B, 0x1B73), (0x1B80, 0x1B81), (0x1BA2, 0x1BA5), (0x1BA8, 0x1BA9),
   (0x1BAB, 0x1BAD), (0x1BE6, 0x1BE6), (0x1BE8, 0x1BE9), (0x1BED, 0x1BED), (0x1BEF, 0x1BF1),
   (0x1C2C, 0x1C33), (0x1C36, 0x1C37), (0x1C78, 0x1C7D), (0x1CD0, 0x1CD2), (0x1CD4, 0x1CE0),
   (0x1CE2, 0x1CE8), (0x1CED, 0x1CED), (0x1CF4, 0x1CF4), (0x1CF8, 0x1CF9), (0x1D2C, 0x1D6A),
   (0x1D78, 0x1D78), (0x1D9B, 0x1DFF), (0x1FBD, 0x1FBD), (0x1FBF, 0x1FC1), (0x1FCD, 0x1FCF),
   (0x1FDD, 0x1FDF), (0x1FED, 0x1FEF), (0x1FFD, 0x1FFE), (0x200B, 0x200F), (0x2018, 0x2019),
   (0x2024, 0x2024), (0x2027, 0x2027), (0x202A, 0x202E), (0x2060, 0x2064), (0x2066, 0x206F),
   (0x2071, 0x2071), (0x207F, 0x207F), (0x2090, 0x209C), (0x20D0, 0x20F0), (0x2C7C, 0x2C7D),
   (0x2CEF, 0x2CF1), (0x2D6F, 0x2D6F), (0x2D7F, 0x2D7F), (0x2DE0, 0x2DFF), (0x2E2F, 0x2E2F),
   (0x3005, 0x3005), (0x302A, 0x302D), (0x3031, 0x3035), (0x303B, 0x303B), (0x3099, 0x309E),
   (0x30FC, 0x30FE), (0xA015, 0xA015), (0xA4F8, 0xA4FD), (0xA60C, 0xA60C), (0xA66F, 0xA672),
   (0xA674, 0xA67D), (0xA67F, 0xA67F), (0xA69C, 0xA69F), (0xA6F0, 0xA6F1), (0xA700, 0xA721),
   (0xA770, 0xA770), (0xA788, 0xA78A), (0xA7F2, 0xA7F4), (0xA7F8, 0xA7F9), (0xA802, 0xA802),
   (0xA806, 0xA806), (0xA80B, 0xA80B), (0xA825, 0xA826), (0xA82C, 0xA82C), (0xA8C4, 0xA8C5),
   (0xA8E0, 0xA8F1), (0xA8FF, 0xA8FF), (0xA926, 0xA92D), (0xA947, 0xA951), (0xA980, 0xA982),
   (0xA9B3, 0xA9B3), (0xA9B6, 0xA9B9), (0xA9BC, 0xA9BD), (0xA9CF, 0xA9CF), (0xA9E5, 0xA9E6),
   (0xAA29, 0xAA2E), (0xAA31, 0xAA32), (0xAA35, 0xAA36), (0xAA43, 0xAA43), (0xAA4C, 0xAA4C),
   (0xAA70, 0xAA70), (0xAA7C, 0xAA7C), (0xAAB0, 0xAAB0), (0xAAB2, 0xAAB4), (0xAAB7, 0xAAB8),
   (0xAABE, 0xAABF), (0xAAC1, 0xAAC1), (0xAADD, 0xAADD), (0xAAEC, 0xAAED), (0xAAF3, 0xAAF4),
   (0xAAF6, 0xAAF6), (0xAB5B, 0xAB5F), (0xAB69, 0xAB6B), (0xABE5, 0xABE5), (0xABE8, 0xABE8),
   (0xABED, 0xABED), (0xFB1E, 0xFB1E), (0xFBB2, 0xFBC2), (0xFE00, 0xFE0F), (0xFE13, 0xFE13),
   (0xFE20, 0xFE2F), (0xFE52, 0xFE52), (0xFE55, 0xFE55), (0xFEFF, 0xFEFF), (0xFF07, 0xFF07),
   (0xFF0E, 0xFF0E), (0xFF1A, 0xFF1A), (0xFF3E, 0xFF3E), (0xFF40, 0xFF40), (0xFF70, 0xFF70),
   (0xFF9E, 0xFF9F), (0xFFE3, 0xFFE3), (0xFFF9, 0xFFFB), (0x101FD, 0x101FD), (0x102E0, 0x102E0),
   (0x10376, 0x1037A), (0x10780, 0x10785), (0x10787, 0x107B0), (0x107B2, 0x107BA), (0x10A01, 0x10A03),
   (0x10A05, 0x10A06), (0x10A0C, 0x10A0F), (0x10A38, 0x10A3A), (0x10A3F, 0x10A3F), (0x10AE5, 0x10AE6),
   (0x10D24, 0x10D27), (0x10EAB, 0x10EAC), (0x10F46, 0x10F50), (0x10F82, 0x10F85), (0x11001, 0x11001),
   (0x11038, 0x11046), (0x11070, 0x11070), (0x11073, 0x11074), (0x1107F, 0x11081), (0x110B3, 0x110B6),
   (0x110B9, 0x110BA), (0x110BD, 0x110BD), (0x110C2, 0x110C2), (0x110CD, 0x110CD), (0x11100, 0x11102),
   (0x11127, 0x1112B), (0x1112D, 0x11134), (0x11173, 0x11173), (0x11180, 0x11181), (0x111B6, 0x111BE),
   (0x111C9, 0x111CC), (0x111CF, 0x111CF), (0x1122F, 0x11231), (0x11234, 0x11234), (0x11236, 0x11237),
   (0x1123E, 0x1123E), (0x112DF, 0x112DF), (0x112E3, 0x112EA), (0x11300, 0x11301), (0x1133B, 0x1133C),
   (0x11340, 0x11340), (0x11366, 0x1136C), (0x11370, 0x11374), (0x11438, 0x1143F), (0x11442, 0x11444),
   (0x11446, 0x11446), (0x1145E, 0x1145E), (0x114B3, 0x114B8), (0x114BA, 0x114BA), (0x114BF, 0x114C0),
   (0x114C2, 0x114C3), (0x115B2, 0x115B5), (0x115BC, 0x115BD), (0x115BF, 0x115C0), (0x115DC, 0x115DD),
   (0x11633, 0x1163A), (0x1163D, 0x1163D), (0x1163F, 0x11640), (0x116AB, 0x116AB), (0x116AD, 0x116AD),
   (0x116B0, 0x116B5), (0x116B7, 0x116B7), (0x1171D, 0x1171F), (0x11722, 0x11725), (0x11727, 0x1172B),
   (0x1182F, 0x11837), (0x11839, 0x1183A), (0x1193B, 0x1193C), (0x1193E, 0x1193E), (0x11943, 0x11943),
   (0x119D4, 0x119D7), (0x119DA, 0x119DB), (0x119E0, 0x119E0), (0x11A01, 0x11A0A), (0x11A33, 0x11A38),
   (0x11A3B, 0x11A3E), (0x11A47, 0x11A47), (0x11A51, 0x11A56), (0x11A59, 0x11A5B), (0x11A8A, 0x11A96),
   (0x11A98, 0x11A99), (0x11C30, 0x11C36), (0x11C38, 0x11C3D), (0x11C3F, 0x11C3F), (0x11C92, 0x11CA7),
   (0x11CAA, 0x11CB0), (0x11CB2, 0x11CB3), (0x11CB5, 0x11CB6), (0x11D31, 0x11D36), (0x11D3A, 0x11D3A),
   (0x11D3C, 0x11D3D), (0x11D3F, 0x11D45), (0x11D47, 0x11D47), (0x11D90, 0x11D91), (0x11D95, 0x11D95),
   (0x11D97, 0x11D97), (0x11EF3, 0x11EF4), (0x13430, 0x13438), (0x16AF0, 0x16AF4), (0x16B30, 0x16B36),
   (0x16B40, 0x16B43), (0x16F4F, 0x16F4F), (0x16F8F, 0x16F9F), (0x16FE0, 0x16FE1), (0x16FE3, 0x16FE4),
   (0x1AFF0, 0x1AFF3), (0x1AFF5, 0x1AFFB), (0x1AFFD, 0x1AFFE), (0x1BC9D, 0x1BC9E), (0x1BCA0, 0x1BCA3),
   (0x1CF00, 0x1CF2D), (0x1CF30, 0x1CF46), (0x1D167, 0x1D169), (0x1D173, 0x1D182), (0x1D185, 0x1D18B),
   (0x1D1AA, 0x1D1AD), (0x1D242, 0x1D244), (0x1DA00, 0x1DA36), (0x1DA3B, 0x1DA6C), (0x1DA75, 0x1DA75),
   (0x1DA84, 0x1DA84), (0x1DA9B, 0x1DA9F), (0x1DAA1, 0x1DAAF), (0x1E000, 0x1E006), (0x1E008, 0x1E018),
   (0x1E01B, 0x1E021), (0x1E023, 0x1E024), (0x1E026, 0x1E02A), (0x1E130, 0x1E13D), (0x1E2AE, 0x1E2AE),
   (0x1E2EC, 0x1E2EF), (0x1E8D0, 0x1E8D6), (0x1E944, 0x1E94B), (0x1F3FB, 0x1F3FF), (0xE0001, 0xE0001),
   (0xE0020, 0xE007F), (0xE0100, 0xE01EF)]

/-- The code points with the property `Cased` that are not `Case_Ignorable`, as
inclusive ranges. -/
def casedRanges : List (Nat × Nat) :=
  [(0x41, 0x5A), (0x61, 0x7A), (0xAA, 0xAA), (0xB5, 0xB5), (0xBA, 0xBA),
   (0xC0, 0xD6), (0xD8, 0xF6), (0xF8, 0x1BA), (0x1BC, 0x1BF), (0x1C4, 0x293),
   (0x295, 0x2AF), (0x370, 0x373), (0x376, 0x377), (0x37B, 0x37D), (0x37F, 0x37F),
   (0x386, 0x386), (0x388, 0x38A), (0x38C, 0x38C), (0x38E, 0x3A1), (0x3A3, 0x3F5),
   (0x3F7, 0x481), (0x48A, 0x52F), (0x531, 0x556), (0x560, 0x588), (0x10A0, 0x10C5),
   (0x10C7, 0x10C7), (0x10CD, 0x10CD), (0x10D0, 0x10FA), (0x10FD, 0x10FF), (0x13A0, 0x13F5),
   (0x13F8, 0x13FD), (0x1C80, 0x1C88), (0x1C90, 0x1CBA), (0x1CBD, 0x1CBF), (0x1D00, 0x1D2B),
   (0x1D6B, 0x1D77), (0x1D79, 0x1D9A), (0x1E00, 0x1F15), (0x1F18, 0x1F1D), (0x1F20, 0x1F45),
   (0x1F48, 0x1F4D), (0x1F50, 0x1F57), (0x1F59, 0x1F59), (0x1F5B, 0x1F5B), (0x1F5D, 0x1F5D),
   (0x1F5F, 0x1F7D), (0x1F80, 0x1FB4), (0x1FB6, 0x1FBC), (0x1FBE, 0x1FBE), (0x1FC2, 0x1FC4),
   (0x1FC6, 0x1FCC), (0x1FD0, 0x1FD3), (0x1FD6, 0x1FDB), (0x1FE0, 0x1FEC), (0x1FF2, 0x1FF4),
   (0x1FF6, 0x1FFC), (0x2102, 0x2102), (0x2107, 0x2107), (0x210A, 0x2113), (0x2115, 0x2115),
   (0x2119, 0x211D), (0x2124, 0x2124), (0x2126, 0x2126), (0x2128, 0x2128), (0x212A, 0x212D),
   (0x212F, 0x2134), (0x2139, 0x2139), (0x213C, 0x213F), (0x2145, 0x2149), (0x214E, 0x214E),
   (0x2160, 0x217F), (0x2183, 0x2184), (0x24B6, 0x24E9), (0x2C00, 0x2C7B), (0x2C7E, 0x2CE4),
   (0x2CEB, 0x2CEE), (0x2CF2, 0x2CF3), (0x2D00, 0x2D25), (0x2D27, 0x2D27), (0x2D2D, 0x2D2D),
   (0xA640, 0xA66D), (0xA680, 0xA69B), (0xA722, 0xA76F), (0xA771, 0xA787), (0xA78B, 0xA78E),
   (0xA790, 0xA7CA), (0xA7D0, 0xA7D1), (0xA7D3, 0xA7D3), (0xA7D5, 0xA7D9), (0xA7F5, 0xA7F6),
   (0xA7FA, 0xA7FA), (0xAB30, 0xAB5A), (0xAB60, 0xAB68), (0xAB70, 0xABBF), (0xFB00, 0xFB06),
   (0xFB13, 0xFB17), (0xFF21, 0xFF3A), (0xFF41, 0xFF5A), (0x10400, 0x1044F), (0x104B0, 0x104D3),
   (0x104D8, 0x104FB), (0x10570, 0x1057A), (0x1057C, 0x1058A), (0x1058C, 0x10592), (0x10594, 0x10595),
   (0x10597, 0x105A1), (0x105A3, 0x105B1), (0x105B3, 0x105B9), (0x105BB, 0x105BC), (0x10C80, 0x10CB2),
   (0x10CC0, 0x10CF2), (0x118A0, 0x118DF), (0x16E40, 0x16E7F), (0x1D400, 0x1D454), (0x1D456, 0x1D49C),
   (0x1D49E, 0x1D49F), (0x1D4A2, 0x1D4A2), (0x1D4A5, 0x1D4A6), (0x1D4A9, 0x1D4AC), (0x1D4AE, 0x1D4B9),
   (0x1D4BB, 0x1D4BB), (0x1D4BD, 0x1D4C3), (0x1D4C5, 0x1D505), (0x1D507, 0x1D50A), (0x1D50D, 0x1D514),
   (0x1D516, 0x1D51C), (0x1D51E, 0x1D539), (0x1D53B, 0x1D53E), (0x1D540, 0x1D544), (0x1D546, 0x1D546),
   (0x1D54A, 0x1D550), (0x1D552, 0x1D6A5), (0x1D6A8, 0x1D6C0), (0x1D6C2, 0x1D6DA), (0x1D6DC, 0x1D6FA),
   (0x1D6FC, 0x1D714), (0x1D716, 0x1D734), (0x1D736, 0x1D74E), (0x1D750, 0x1D76E), (0x1D770, 0x1D788),
   (0x1D78A, 0x1D7A8), (0x1D7AA, 0x1D7C2), (0x1D7C4, 0x1D7CB), (0x1DF00, 0x1DF09), (0x1DF0B, 0x1DF1E),
   (0x1E900, 0x1E943), (0x1F130, 0x1F149), (0x1F150, 0x1F169), (0x1F170, 0x1F189)]
/-! ## Case conversion -/

/-- UTF-16 decoding: a high surrogate followed by a low surrogate is one code
point; every other code unit, a lone surrogate included, stands for itself. -/
def codePoints : JSString → List Nat
  | [] => []
  | [u] => [u]
  | hi :: lo :: rest =>
    if 0xD800 ≤ hi ∧ hi ≤ 0xDBFF ∧ 0xDC00 ≤ lo ∧ lo ≤ 0xDFFF then
      (0x10000 + (hi - 0xD800) * 0x400 + (lo - 0xDC00)) :: codePoints rest
    else hi :: codePoints (lo :: rest)

/-- UTF-16 encoding of one code point. -/
def encodeCodePoint (cp : Nat) : List Nat :=
  if cp < 0x10000 then [cp]
  else [0xD800 + (cp - 0x10000) / 0x400, 0xDC00 + (cp - 0x10000) % 0x400]

/-- UTF-16 encoding of a list of code points. -/
def codeUnits (cps : List Nat) : JSString :=
  cps.foldr (fun cp acc => encodeCodePoint cp ++ acc) []

/-- The simple case mapping of a code point by a table of runs. -/
def simpleCase (runs : List CaseRun) (cp : Nat) : Nat :=
  match runs.find? (fun e => e.1 ≤ cp && cp ≤ e.2.1 && (cp - e.1) % e.2.2.1 == 0) with
  | some e => e.2.2.2 + (cp - e.1)
  | none => cp

/-- The full case mapping of a code point: the special mapping when there is
one, the simple mapping otherwise. -/
def fullCase (special : List (Nat × List Nat)) (runs : List CaseRun) (cp : Nat) : List Nat :=
  match special.lookup cp with
  | some mapped => mapped
  | none => [simpleCase runs cp]

/-- `String.prototype.toUpperCase`: every code point is replaced by its full
upper-case mapping. -/
def toUpperCase (s : JSString) : JSString :=
  codeUnits ((codePoints s).foldr (fun cp acc => fullCase upperSpecial upperRuns cp ++ acc) [])

/-- Membership in a list of inclusive ranges. -/
def inRanges (ranges : List (Nat × Nat)) (cp : Nat) : Bool :=
  ranges.any fun e => e.1 ≤ cp && cp ≤ e.2

/-- Whether the nearest code point of `cps` that is not case-ignorable is
cased. -/
def casedAhead (cps : List Nat) : Bool :=
  match cps.dropWhile (inRanges caseIgnorableRanges) with
  | c :: _ => inRanges casedRanges c
  | [] => false

/-- The condition `Final_Sigma` of `SpecialCasing.txt` for a capital sigma with
the code points `before` behind it (nearest first) and `after` in front of it:
preceded by a cased letter and not followed by one, case-ignorable code points
skipped. -/
def finalSigma (before after : List Nat) : Bool :=
  casedAhead before && !casedAhead after

/-- Lower-casing of a list of code points, `before` being the code points
already passed, nearest first. U+03A3 becomes U+03C2 in the `Final_Sigma`
context and U+03C3 otherwise. -/
def lowerCodePoints (before : List Nat) : List Nat → List Nat
  | [] => []
  | c :: rest =>
    (if c = 0x3A3 then [if finalSigma before rest then 0x3C2 else 0x3C3]
      else fullCase lowerSpecial lowerRuns c) ++ lowerCodePoints (c :: before) rest

/-- `String.prototype.toLowerCase`. -/
def toLowerCase (s : JSString) : JSString :=
  codeUnits (lowerCodePoints [] (codePoints s))

/-! ## Double arithmetic -/

/-- Rounding of a rational to the nearest integer, ties to the even one. -/
def roundHalfEven (q : ℚ) : ℤ :=
  if q - ⌊q⌋ < 1 / 2 then ⌊q⌋
  else if 1 / 2 < q - ⌊q⌋ then ⌊q⌋ + 1
  else if ⌊q⌋ % 2 = 0 then ⌊q⌋
  else ⌊q⌋ + 1

/-- The exponent of `x` in the binary64 format: the `e` with
`2 ^ e ≤ |x| < 2 ^ (e + 1)`, and `-1022` throughout the subnormal range. -/
def doubleExponent (x : ℚ) : ℤ := max (Int.log 2 |x|) (-1022)

/-- The spacing of the doubles at `x`: 53 significant bits. -/
def ulp (x : ℚ) : ℚ := 2 ^ (doubleExponent x - 52)

/-- The double an exact result `x` is rounded to (IEEE 754 binary64, round to
nearest, ties to even). Results that round to an infinity, of magnitude
`2 ^ 1024` and more, do not occur in the arithmetic embedded here. -/
def roundDouble (x : ℚ) : ℚ := roundHalfEven (x / ulp x) * ulp x

/-- The rationals that are doubles. -/
def IsDouble (x : ℚ) : Prop := roundDouble x = x

/-- Decimal digits of a natural number, as code units: what a template literal
prints for an integral Number. -/
def decimal (n : Nat) : JSString :=
  ((Nat.digits 10 n).reverse.map fun d => 48 + d)

/-! ## Documents and the store -/

/-- A JavaScript object restricted to the keys the registry reads or writes.
`none` is an absent key. -/
structure Fields where
  id : Option JSString := none
  branchName : Option JSString := none
  branchCode : Option JSString := none
  address : Option JSString := none
  type : Option JSString := none
  status : Option JSString := none
  createdAt : Option Nat := none
deriving DecidableEq, Repr

/-- A Firestore document: its key and its data. -/
structure Doc where
  id : JSString
  data : Fields
deriving DecidableEq, Repr

/-- The collection `branches`. -/
abbrev Store := List Doc

/-- Firestore keys the documents of a collection by id. -/
def KeysUnique (store : Store) : Prop := (store.map Doc.id).Nodup

instance (store : Store) : Decidable (KeysUnique store) := by
  unfold KeysUnique; infer_instance

/-- Spread of one object over another: `{ ...old, ...patch }`. -/
def spread (old patch : Fields) : Fields :=
  { id := patch.id.orElse fun _ => old.id
    branchName := patch.branchName.orElse fun _ => old.branchName
    branchCode := patch.branchCode.orElse fun _ => old.branchCode
    address := patch.address.orElse fun _ => old.address
    type := patch.type.orElse fun _ => old.type
    status := patch.status.orElse fun _ => old.status
    createdAt := patch.createdAt.orElse fun _ => old.createdAt }

/-- `getDocs(query(collection(db, "branches"), where("type", "==", "Main")))`. -/
def getDocsMain (store : Store) : List Doc :=
  store.filter fun d => d.data.type == some sMain

/-- `addDoc`: the store assigns the key `newId`; the write carries the
precondition that no document has that key. -/
def addDoc (store : Store) (newId : JSString) (data : Fields) : Option Store :=
  if newId ∈ store.map Doc.id then none else some (store ++ [⟨newId, data⟩])

/-- `updateDoc`: sets the given fields of the document with key `id`, and is
rejected when there is no such document. -/
def updateDoc (store : Store) (id : JSString) (patch : Fields) : Option Store :=
  if id ∈ store.map Doc.id then
    some (store.map fun d => if d.id = id then { d with data := spread d.data patch } else d)
  else none

/-- `deleteDoc`. -/
def deleteDoc (store : Store) (id : JSString) : Store :=
  store.filter fun d => d.id != id

/-- The `onSnapshot` callback: `{ id: doc.id, ...doc.data() }` for each
document. -/
def toBranch (d : Doc) : Fields := spread { id := some d.id } d.data

/-- The list handed to `setBranches`. -/
def snapshotList (store : Store) : List Fields := store.map toBranch

/-- Number of documents with `type == "Main"`. -/
def mainCount (store : Store) : Nat := (getDocsMain store).length

/-! ## The yup schemas -/

/-- The keys a schema reports an error under (`e.path`). -/
inductive Path
  | branchName | branchCode | address | type | status
deriving DecidableEq, Repr

/-- One element of `err.inner`: the path and the message of a failed test. -/
abbrev FieldError := Path × String

/-- The field schema `yup.string().trim().min(n, minMsg).required(reqMsg)`: the
cast (trimmed) value, and the messages of the tests that fail, in the order
the tests were added. An absent value fails `required` alone. -/
def stringTrimMinRequired (n : Nat) (minMsg reqMsg : String) (v : Option JSString) :
    Option JSString × List String :=
  match v with
  | none => (none, [reqMsg])
  | some s =>
    let t := trim s
    (some t, (if t.length < n then [minMsg] else []) ++ (if t.length = 0 then [reqMsg] else []))

/-- The field schema `yup.string().oneOf(allowed, oneOfMsg).required(reqMsg)`.
The `oneOf` test passes an absent value and runs before the other tests, which
are skipped when it fails. -/
def stringOneOfRequired (allowed : List JSString) (oneOfMsg reqMsg : String)
    (v : Option JSString) : List String :=
  match v with
  | none => [reqMsg]
  | some s =>
    if s ∈ allowed then (if s.length = 0 then [reqMsg] else []) else [oneOfMsg]

/-- The field schema `yup.string().oneOf(allowed)`: an absent value passes. -/
def stringOneOf (allowed : List JSString) (oneOfMsg : String) (v : Option JSString) :
    List String :=
  match v with
  | none => []
  | some s => if s ∈ allowed then [] else [oneOfMsg]

/-- The field schema `yup.string().required()`. -/
def stringRequired (reqMsg : String) (v : Option JSString) : List String :=
  match v with
  | none => [reqMsg]
  | some s => if s.length = 0 then [reqMsg] else []

/-- The errors `editBranchSchema` collects for a form with
`abortEarly: false` (`err.inner`). -/
def editBranchSchemaErrors (o : Fields) : List FieldError :=
  ((stringTrimMinRequired 3 "Branch name must be at least 3 characters"
      "Branch name is required" o.branchName).2.map fun m => (Path.branchName, m)) ++
  ((stringTrimMinRequired 10 "Detailed address is required"
      "Address is required" o.address).2.map fun m => (Path.address, m)) ++
  ((stringOneOfRequired [sMain, sSub] "type must be one of the following values: Main, Sub"
      "Type is required" o.type).map fun m => (Path.type, m)) ++
  ((stringOneOf [sActive, sInactive]
      "status must be one of the following values: Active, Inactive" o.status).map
    fun m => (Path.status, m))

/-- The value `editBranchSchema` casts a form to: `branchName` and `address`
trimmed, every other key as it is. -/
def editBranchSchemaCast (o : Fields) : Fields :=
  { o with
    branchName := (stringTrimMinRequired 3 "" "" o.branchName).1
    address := (stringTrimMinRequired 10 "" "" o.address).1 }

/-- `editBranchSchema.validate(o, { abortEarly: false })`: the cast value, or
the thrown error's `inner`. -/
def editBranchSchema (o : Fields) : Except (List FieldError) Fields :=
  match editBranchSchemaErrors o with
  | [] => .ok (editBranchSchemaCast o)
  | e :: es => .error (e :: es)

/-- The errors `branchSchema` collects for the create form. -/
def branchSchemaErrors (o : Fields) : List FieldError :=
  ((stringTrimMinRequired 3 "Branch name must be at least 3 characters"
      "Branch name is required" o.branchName).2.map fun m => (Path.branchName, m)) ++
  ((stringRequired "branchCode is a required field" o.branchCode).map
    fun m => (Path.branchCode, m)) ++
  ((stringTrimMinRequired 10 "Please provide a more detailed address"
      "Physical address is required" o.address).2.map fun m => (Path.address, m)) ++
  ((stringOneOfRequired [sMain, sSub] "Select a valid branch type"
      "Branch type is required" o.type).map fun m => (Path.type, m))

/-- The value `branchSchema` casts the create form to. -/
def branchSchemaCast (o : Fields) : Fields :=
  { o with
    branchName := (stringTrimMinRequired 3 "" "" o.branchName).1
    address := (stringTrimMinRequired 10 "" "" o.address).1 }

/-- The resolver `yupResolver(branchSchema)`: the cast values, or the errors. -/
def branchSchema (o : Fields) : Except (List FieldError) Fields :=
  match branchSchemaErrors o with
  | [] => .ok (branchSchemaCast o)
  | e :: es => .error (e :: es)

/-! ## Effects and outcomes -/

/-- What a handler does to the outside, in the order it does it. -/
inductive Effect
  | alert (msg : String)
  | confirm (msg : String)
  | getDocs
  | addDoc (data : Fields)
  | updateDoc (id : JSString) (patch : Fields)
  | deleteDoc (id : JSString)
  | resetForm
  | consoleError
deriving DecidableEq, Repr

/-- The effects that are store writes. -/
def Effect.isWrite : Effect → Bool
  | .addDoc _ => true
  | .updateDoc _ _ => true
  | .deleteDoc _ => true
  | _ => false

/-- The effects that ask the user for confirmation. -/
def Effect.isConfirm : Effect → Bool
  | .confirm _ => true
  | _ => false

/-- The store a handler leaves and the effects it issued. -/
structure Outcome where
  store : Store
  log : List Effect
deriving DecidableEq, Repr

/-! ## `CreateBranch .jsx` -/

/-- The alert of the create-time guard. -/
def createConflictAlert : String :=
  "🚫 Access Denied: A 'Main' branch already exists. Only one primary node is permitted in the Nexus."

/-- The alert after a successful create. -/
def createdAlert : String := "🏢 Branch Node Successfully Initialized"

/-- The handler `onSubmit(data)`. `newId` is the key the store assigns to the
new document and `now` the value of `serverTimestamp()`. -/
def onSubmit (data : Fields) (newId : JSString) (now : Nat) (store : Store) : Outcome :=
  let guarded : Bool := data.type == some sMain
  if guarded && !(getDocsMain store).isEmpty then
    ⟨store, [.getDocs, .alert createConflictAlert]⟩
  else
    let branchData := spread data { status := some sActive, createdAt := some now }
    let asked : List Effect := if guarded then [.getDocs] else []
    match addDoc store newId branchData with
    | some store' => ⟨store', asked ++ [.addDoc branchData, .resetForm, .alert createdAlert]⟩
    | none => ⟨store, asked ++ [.addDoc branchData, .consoleError]⟩

/-! ## `BranchList.jsx` -/

/-- The component state the handlers read and set. -/
structure ListState where
  editingBranch : Option JSString := none
  editFormData : Fields := {}
  editErrors : List FieldError := []
deriving DecidableEq, Repr

/-- The assignment `formatted[path] = message`. -/
def assign (formatted : List FieldError) (path : Path) (message : String) : List FieldError :=
  if formatted.any (fun e => e.1 == path) then
    formatted.map fun e => if e.1 = path then (path, message) else e
  else formatted ++ [(path, message)]

/-- The loop `err.inner.forEach(e => formatted[e.path] = e.message)` from `{}`. -/
def formatErrors (inner : List FieldError) : List FieldError :=
  inner.foldl (fun formatted e => assign formatted e.1 e.2) []

/-- Reading a key of the error map, `editErrors[path]`. -/
def errorAt (editErrors : List FieldError) (path : Path) : Option String :=
  editErrors.lookup path

/-- The confirmation text of `toggleStatus`. -/
def deactivateMainWarning : String :=
  "⚠️ Deactivating the Main HQ may restrict system-wide access. Continue?"

/-- The write of `toggleStatus`, inside its `try`: `doc(...)` throws on an
absent id, `updateDoc` rejects on a missing document; both are caught and
logged. -/
def toggleStatusWrite (asked : List Effect) (id : Option JSString) (newStatus : JSString)
    (store : Store) : Outcome :=
  match id with
  | none => ⟨store, asked ++ [.consoleError]⟩
  | some i =>
    match updateDoc store i { status := some newStatus } with
    | some store' => ⟨store', asked ++ [.updateDoc i { status := some newStatus }]⟩
    | none => ⟨store, asked ++ [.updateDoc i { status := some newStatus }, .consoleError]⟩

/-- The handler `toggleStatus(branch)`; `confirm` is the user's answer to
`window.confirm`. -/
def toggleStatus (confirm : String → Bool) (branch : Fields) (store : Store) : Outcome :=
  let newStatus := if branch.status = some sActive then sInactive else sActive
  if branch.type = some sMain ∧ newStatus = sInactive then
    if !confirm deactivateMainWarning then ⟨store, [.confirm deactivateMainWarning]⟩
    else toggleStatusWrite [.confirm deactivateMainWarning] branch.id newStatus store
  else toggleStatusWrite [] branch.id newStatus store

/-- The handler `handleEditClick(branch)`. -/
def handleEditClick (branch : Fields) (st : ListState) : ListState :=
  { st with editingBranch := branch.id, editFormData := branch }

/-- The `onChange` handlers of the edit form: `setEditFormData({ ...editFormData, key: value })`. -/
inductive FormChange
  | branchName (value : JSString)
  | status (value : JSString)
  | type (value : JSString)
  | address (value : JSString)
deriving DecidableEq, Repr

/-- One `onChange` of the edit form. -/
def FormChange.apply (st : ListState) : FormChange → ListState
  | .branchName v => { st with editFormData := { st.editFormData with branchName := some v } }
  | .status v => { st with editFormData := { st.editFormData with status := some v } }
  | .type v => { st with editFormData := { st.editFormData with type := some v } }
  | .address v => { st with editFormData := { st.editFormData with address := some v } }

/-- The alert of the edit-time guard. -/
def updateConflictAlert : String :=
  "🚫 System Conflict: Another 'Main' branch already exists. Demote the current Main branch first."

/-- The store a handler of `BranchList` leaves, the effects it issued and the
component state it leaves. -/
structure UpdateOutcome where
  store : Store
  log : List Effect
  state : ListState
deriving DecidableEq, Repr

/-- The tail of `handleUpdate` after the guard: `updateDoc(doc(db, "branches",
editingBranch), validatedData)` and the two state resets. `doc(...)` throws on
a null id and `updateDoc` rejects on a missing document; the `catch` then finds
no `err.inner` and does nothing. -/
def handleUpdateWrite (asked : List Effect) (validatedData : Fields) (st : ListState)
    (store : Store) : UpdateOutcome :=
  match st.editingBranch with
  | none => ⟨store, asked, st⟩
  | some id =>
    match updateDoc store id validatedData with
    | some store' =>
      ⟨store', asked ++ [.updateDoc id validatedData],
        { st with editingBranch := none, editErrors := [] }⟩
    | none => ⟨store, asked ++ [.updateDoc id validatedData], st⟩

/-- The handler `handleUpdate(e)`. -/
def handleUpdate (st : ListState) (store : Store) : UpdateOutcome :=
  match editBranchSchema st.editFormData with
  | .error inner => ⟨store, [], { st with editErrors := formatErrors inner }⟩
  | .ok validatedData =>
    if validatedData.type = some sMain then
      match (getDocsMain store).find? (fun doc => some doc.id != st.editingBranch) with
      | some _ => ⟨store, [.getDocs, .alert updateConflictAlert], st⟩
      | none => handleUpdateWrite [.getDocs] validatedData st store
    else handleUpdateWrite [] validatedData st store

/-- The confirmation text of `handleDelete` for a Main branch. -/
def deleteMainWarning : String :=
  "Warning: Deleting the Main branch may disrupt the network. Proceed?"

/-- The confirmation text of `handleDelete` for any other branch. -/
def deleteWarning : String := "Confirm removal of this branch node?"

/-- The handler `handleDelete(id, type)`. `doc(...)` throws on an absent id. -/
def handleDelete (confirm : String → Bool) (id : Option JSString) (type : Option JSString)
    (store : Store) : Outcome :=
  let msg := if type = some sMain then deleteMainWarning else deleteWarning
  if confirm msg then
    match id with
    | none => ⟨store, [.confirm msg]⟩
    | some i => ⟨deleteDoc store i, [.confirm msg, .deleteDoc i]⟩
  else ⟨store, [.confirm msg]⟩


/-! ## The operations of the registry -/

/-- One operation of the registry with all its inputs. -/
inductive Op
  | create (data : Fields) (newId : JSString) (now : Nat)
  | edit (st : ListState)
  | toggle (confirm : String → Bool) (branch : Fields)
  | delete (confirm : String → Bool) (id : Option JSString) (type : Option JSString)

/-- The store an operation leaves. -/
def Op.run : Op → Store → Store
  | .create data newId now, store => (onSubmit data newId now store).store
  | .edit st, store => (handleUpdate st store).store
  | .toggle confirm branch, store => (toggleStatus confirm branch store).store
  | .delete confirm id type, store => (handleDelete confirm id type store).store

/-- The edit flow of the table row of `branch`: `handleEditClick(branch)`, any
number of `onChange` events of the form, then the submit `handleUpdate`. -/
def editFlow (branch : Fields) (changes : List FormChange) (st : ListState) (store : Store) :
    UpdateOutcome :=
  handleUpdate (changes.foldl FormChange.apply (handleEditClick branch st)) store

/-- The data-model rules of section 4.1 that both schemas share, in the
spec's words: `branchName` trimmed has length at least 3, `address` trimmed has
length at least 10, and `type` is `Main` or `Sub`. -/
def trimmedAtLeast (n : Nat) (v : Option JSString) : Bool :=
  match v with
  | some s => decide (n ≤ (trim s).length)
  | none => false

/-- The three conditions of the acceptance rule, in the spec's words. -/
def meetsSharedRules (o : Fields) : Bool :=
  trimmedAtLeast 3 o.branchName && trimmedAtLeast 10 o.address &&
    (o.type == some sMain || o.type == some sSub)

/-- Whether a field of an edit form violates its rule, in the spec's words:
the three shared rules, and `status` is `Active` or `Inactive` when present. -/
def editRuleViolated (o : Fields) : Path → Bool
  | .branchName => !trimmedAtLeast 3 o.branchName
  | .address => !trimmedAtLeast 10 o.address
  | .type => !(o.type == some sMain || o.type == some sSub)
  | .status =>
    match o.status with
    | some s => !(s == sActive || s == sInactive)
    | none => false
  | .branchCode => false

/-- A schema accepts a candidate when validation yields a value. -/
def accepts (schema : Fields → Except (List FieldError) Fields) (o : Fields) : Bool :=
  match schema o with
  | .ok _ => true
  | .error _ => false

/-- The invariant the registry keeps on what it persists: a document's data
carries no `id` key, or the document's own key (`handleUpdate` writes the whole
form back, `id` included). -/
def IdConsistent (store : Store) : Prop :=
  ∀ d ∈ store, d.data.id = none ∨ d.data.id = some d.id

instance (store : Store) : Decidable (IdConsistent store) := by
  unfold IdConsistent; infer_instance

/-- The data model's status enumeration, as a property of what is persisted:
every document's `status` is `Active` or `Inactive`. -/
def StatusValid (store : Store) : Prop :=
  ∀ d ∈ store, d.data.status = some sActive ∨ d.data.status = some sInactive

/-- The frame of an operation on the record with key `i`, in the spec's
words: every record keeps its id (the document key and the `id` the snapshot
shows) and its `branchCode`, and no record other than `i` is modified. -/
def KeepsIdAndCode (i : JSString) (store store' : Store) : Prop :=
  store'.map (fun x => (x.id, (toBranch x).id, (toBranch x).branchCode)) =
    store.map (fun x => (x.id, (toBranch x).id, (toBranch x).branchCode)) ∧
  store'.filter (fun x => x.id != i) = store.filter (fun x => x.id != i)

/-! ## The code generator of `CreateBranch .jsx` -/

/-- The fallback `watch("branchName") || "New Branch"`. -/
def watchedBranchName (watched : Option JSString) : JSString :=
  match watched with
  | some s => if s.length = 0 then utf16 "New Branch" else s
  | none => utf16 "New Branch"

/-- `Math.floor(1000 + Math.random() * 9000)` for the draw `r`: the product
and the sum are each rounded to a double, the floor is exact. -/
def randomSuffix (r : ℚ) : Nat := (⌊roundDouble (1000 + roundDouble (r * 9000))⌋).toNat

/-- `branchType === "Main" ? "M" : "S"`. -/
def typeCode (branchType : Option JSString) : JSString :=
  if branchType = some sMain then [77] else [83]

/-- The body of the auto-generator effect: the value it passes to
`setValue("branchCode", ...)`, or `none` when it sets nothing. -/
def generateBranchCode (branchName : JSString) (branchType : Option JSString) (r : ℚ) :
    Option JSString :=
  if branchName.length ≠ 0 ∧ 2 ≤ branchName.length then
    some (utf16 "NX-" ++ toUpperCase (substring0 2 branchName) ++ utf16 "-" ++
      decimal (randomSuffix r) ++ utf16 "-" ++ typeCode branchType)
  else none

/-! ## Sample documents -/

/-- A Main branch as the create flow persists it. -/
def hqDoc : Doc :=
  ⟨utf16 "hq01",
    { branchName := some (utf16 "Head Office")
      branchCode := some (utf16 "NX-HE-1234-M")
      address := some (utf16 "1 Central Square")
      type := some sMain
      status := some sActive
      createdAt := some 1 }⟩

/-- A Sub branch as the create flow persists it. -/
def westDoc : Doc :=
  ⟨utf16 "west",
    { branchName := some (utf16 "Westside Hub")
      branchCode := some (utf16 "NX-WE-5500-S")
      address := some (utf16 "12 Long Avenue, District 4")
      type := some sSub
      status := some sActive
      createdAt := some 2 }⟩

/-- The answer of a user who confirms every prompt. -/
def alwaysYes : String → Bool := fun _ => true

/-- The answer of a user who declines every prompt. -/
def alwaysNo : String → Bool := fun _ => false

/-! ## The create form and its effect -/

/-- The `defaultValues` of `useForm`: `{ type: "Sub", branchCode: "" }`. -/
def defaultValues : Fields := { type := some sSub, branchCode := some [] }

/-- One run of the auto-generator effect on the form values: it reads
`watch("branchName") || "New Branch"` and `watch("type")`, and calls
`setValue("branchCode", ...)` when its condition holds. -/
def autoGenerate (values : Fields) (r : ℚ) : Fields :=
  match generateBranchCode (watchedBranchName values.branchName) values.type r with
  | some code => { values with branchCode := some code }
  | none => values

/-! ## The projections of `BranchList.jsx` -/

/-- `String.prototype.includes`: `t` occurs in `s` at some position. -/
def includes (s t : JSString) : Bool :=
  s.tails.any fun u => t.isPrefixOf u

/-- The optional call `field?.toLowerCase().includes(searchTerm.toLowerCase())`:
`undefined` on an absent field. -/
def includesLowered (field : Option JSString) (searchTerm : JSString) : Option Bool :=
  field.map fun s => includes (toLowerCase s) (toLowerCase searchTerm)

/-- The operator `||` on the two optional results: the left one when it is
`true`, the right one otherwise. -/
def orElseFalsy (a b : Option Bool) : Option Bool :=
  match a with
  | some true => some true
  | _ => b

/-- Truthiness of an optional boolean: only `true` is truthy. -/
def truthy : Option Bool → Bool
  | some true => true
  | _ => false

/-- The callback of `filteredBranches`: `matchesSearch && matchesType`. -/
def matchesFilter (searchTerm selectedType : JSString) (b : Fields) : Bool :=
  let matchesSearch :=
    orElseFalsy (includesLowered b.branchName searchTerm) (includesLowered b.branchCode searchTerm)
  let matchesType : Bool := selectedType == utf16 "All" || b.type == some selectedType
  truthy matchesSearch && matchesType

/-- The derived list `filteredBranches`. -/
def filteredBranches (branches : List Fields) (searchTerm selectedType : JSString) :
    List Fields :=
  branches.filter (matchesFilter searchTerm selectedType)

/-- The object `stats`. -/
structure Stats where
  total : Nat
  main : Nat
  sub : Nat
  active : Nat
  inactive : Nat
deriving DecidableEq, Repr

/-- The derived counts `stats` of the cached list. -/
def stats (branches : List Fields) : Stats :=
  { total := branches.length
    main := (branches.filter fun b => b.type == some sMain).length
    sub := (branches.filter fun b => b.type == some sSub).length
    active := (branches.filter fun b => b.status == some sActive).length
    inactive := (branches.filter fun b => b.status == some sInactive).length }

/-- The filter's condition in the spec's words: `branchName` or `branchCode`
contains the search term as a substring, both lower-cased, and the type equals
the type filter or the filter is `All`. -/
def Qualifies (searchTerm selectedType : JSString) (b : Fields) : Prop :=
  ((∃ name, b.branchName = some name ∧ toLowerCase searchTerm <:+: toLowerCase name) ∨
    (∃ code, b.branchCode = some code ∧ toLowerCase searchTerm <:+: toLowerCase code)) ∧
  (selectedType = utf16 "All" ∨ b.type = some selectedType)

/-- A third sample document, the spec's search example. -/
def downtownDoc : Doc :=
  ⟨utf16 "down",
    { branchName := some (utf16 "Downtown Flagship")
      branchCode := some (utf16 "NX-DO-7321-S")
      address := some (utf16 "5 Market Street, Old Town")
      type := some sSub
      status := some sInactive
      createdAt := some 3 }⟩

/-- The submit handler `handleSubmit(onSubmit)` with the resolver
`yupResolver(branchSchema)`: `onSubmit` is called with the cast values when the
form is valid, and not at all otherwise. -/
def handleSubmit (values : Fields) (newId : JSString) (now : Nat) (store : Store) : Outcome :=
  match branchSchema values with
  | .ok data => onSubmit data newId now store
  | .error _ => ⟨store, []⟩

/-- The delete button of the table row of a document:
`onClick={() => handleDelete(branch.id, branch.type)}` on its snapshot record. -/
def deleteClick (confirm : String → Bool) (d : Doc) (store : Store) : Outcome :=
  handleDelete confirm (toBranch d).id (toBranch d).type store

/-- Two code units that are equal, or the same Basic Latin letter in its two
cases. -/
def sameLetter (a b : Nat) : Prop :=
  a = b ∨ (65 ≤ a ∧ a ≤ 90 ∧ b = a + 32) ∨ (65 ≤ b ∧ b ≤ 90 ∧ a = b + 32)

/-- Containment up to letter case, in the spec's words: some substring of
`field` is the search term letter by letter, the case of a letter set aside. -/
def ContainsIgnoringCase (field term : JSString) : Prop :=
  ∃ w, w <:+: field ∧ List.Forall₂ sameLetter w term

/-- A string of Basic Latin code units. -/
def BasicLatin (s : JSString) : Prop := ∀ u ∈ s, u < 128

instance (s : JSString) : Decidable (BasicLatin s) := by
  unfold BasicLatin; infer_instance

/-- A record whose name and code, when present, are Basic Latin. -/
def BasicLatinRecord (b : Fields) : Prop :=
  (∀ name ∈ b.branchName, BasicLatin name) ∧ (∀ code ∈ b.branchCode, BasicLatin code)

instance (b : Fields) : Decidable (BasicLatinRecord b) := by
  unfold BasicLatinRecord; infer_instance

/-- The filter's condition on Basic Latin text, in the spec's words:
`branchName` or `branchCode` contains the search term up to letter case, and
the type equals the type filter or the filter is `All`. -/
def QualifiesIgnoringCase (searchTerm selectedType : JSString) (b : Fields) : Prop :=
  ((∃ name, b.branchName = some name ∧ ContainsIgnoringCase name searchTerm) ∨
    (∃ code, b.branchCode = some code ∧ ContainsIgnoringCase code searchTerm)) ∧
  (selectedType = utf16 "All" ∨ b.type = some selectedType)

/-- A fourth sample document, with a name outside Basic Latin. -/
def ecoleDoc : Doc :=
  ⟨utf16 "ecol",
    { branchName := some (utf16 "École Nord")
      branchCode := some (utf16 "NX-ÉC-4410-S")
      address := some (utf16 "3 Rue des Lilas, Quartier Nord")
      type := some sSub
      status := some sActive
      createdAt := some 4 }⟩

/-! # Theorems -/

/-! ## Lemmas on the store -/

theorem mainCount_eq_countP (store : Store) :
    mainCount store = store.countP (fun d => d.data.type == some sMain) := by
  simp [mainCount, getDocsMain, List.countP_eq_length_filter]

theorem updateDoc_keys {store store' : Store} {id : JSString} {patch : Fields}
    (h : updateDoc store id patch = some store') : store'.map Doc.id = store.map Doc.id := by
  unfold updateDoc at h
  split at h
  · injection h with h
    subst h
    rw [List.map_map]
    apply List.map_congr_left
    intro d _
    by_cases hd : d.id = id <;> simp [hd]
  · exact absurd h (by simp)

theorem updateDoc_keysUnique {store store' : Store} {id : JSString} {patch : Fields}
    (h : updateDoc store id patch = some store') (hk : KeysUnique store) : KeysUnique store' := by
  unfold KeysUnique at *
  rw [updateDoc_keys h]; exact hk

theorem addDoc_keysUnique {store store' : Store} {id : JSString} {data : Fields}
    (h : addDoc store id data = some store') (hk : KeysUnique store) : KeysUnique store' := by
  unfold addDoc at h
  split at h
  · exact absurd h (by simp)
  · rename_i hn
    injection h with h
    subst h
    unfold KeysUnique at *
    rw [List.map_append, List.nodup_append]
    refine ⟨hk, by simp, ?_⟩
    intro a ha hb
    simp at hb
    subst hb
    exact hn ha

theorem deleteDoc_keysUnique (store : Store) (id : JSString) (hk : KeysUnique store) :
    KeysUnique (deleteDoc store id) := by
  unfold KeysUnique deleteDoc at *
  exact hk.sublist (List.Sublist.map _ (List.filter_sublist _))

/-- An update whose patch does not set `type` to `"Main"` cannot raise the
number of Main documents. -/
theorem updateDoc_mainCount_le {store store' : Store} {id : JSString} {patch : Fields}
    (h : updateDoc store id patch = some store') (hp : patch.type ≠ some sMain) :
    mainCount store' ≤ mainCount store := by
  unfold updateDoc at h
  split at h
  · injection h with h
    subst h
    rw [mainCount_eq_countP, mainCount_eq_countP, List.countP_map]
    apply List.countP_mono_left
    intro d _ hd
    by_cases hid : d.id = id
    · simp only [Function.comp, hid, if_true, spread] at hd
      cases hpt : patch.type with
      | none => simpa [hpt, Option.orElse] using hd
      | some t =>
        simp [hpt, Option.orElse] at hd
        exact absurd (by rw [hpt, hd]) hp
    · simpa [Function.comp, hid] using hd
  · exact absurd h (by simp)

/-- When every Main document has the key `id`, an update of `id` leaves at
most one Main document. -/
theorem updateDoc_mainCount_le_one {store store' : Store} {id : JSString} {patch : Fields}
    (h : updateDoc store id patch = some store') (hk : KeysUnique store)
    (hall : ∀ d ∈ store, d.data.type = some sMain → d.id = id) :
    mainCount store' ≤ 1 := by
  have hkeys := updateDoc_keys h
  have hk' := List.nodup_iff_count_le_one.mp hk id
  rw [← hkeys] at hk'
  unfold List.count at hk'
  rw [List.countP_map] at hk'
  refine le_trans ?_ hk'
  rw [mainCount_eq_countP]
  apply List.countP_mono_left
  intro d hd hm
  unfold updateDoc at h
  split at h
  · injection h with h
    subst h
    obtain ⟨d0, hd0, rfl⟩ := List.mem_map.mp hd
    by_cases hid : d0.id = id
    · simp [hid]
    · simp only [hid, if_false] at hm ⊢
      have := hall d0 hd0 (by simpa using hm)
      exact absurd this hid
  · exact absurd h (by simp)

theorem deleteDoc_mainCount_le (store : Store) (id : JSString) :
    mainCount (deleteDoc store id) ≤ mainCount store := by
  rw [mainCount_eq_countP, mainCount_eq_countP]
  exact List.Sublist.countP_le _ (List.filter_sublist _)

theorem onSubmit_keysUnique (data : Fields) (newId : JSString) (now : Nat) (store : Store)
    (hk : KeysUnique store) : KeysUnique (onSubmit data newId now store).store := by
  unfold onSubmit
  simp only
  split
  · exact hk
  · split
    · rename_i h; exact addDoc_keysUnique h hk
    · exact hk

theorem onSubmit_mainCount (data : Fields) (newId : JSString) (now : Nat) (store : Store)
    (h1 : mainCount store ≤ 1) : mainCount (onSubmit data newId now store).store ≤ 1 := by
  unfold onSubmit
  simp only
  split
  · exact h1
  · rename_i hg
    split
    · rename_i store' h
      unfold addDoc at h
      split at h
      · exact absurd h (by simp)
      · injection h with h
        subst h
        by_cases ht : data.type = some sMain
        · have he : getDocsMain store = [] := by
            simpa [ht] using hg
          simp [mainCount, getDocsMain, List.filter_append] at he ⊢
          rw [List.filter_eq_nil_iff.mpr (by simpa using he)]
          simp [List.filter_cons]
          split <;> simp
        · have : mainCount (store ++ [⟨newId, spread data { status := some sActive, createdAt := some now }⟩])
              = mainCount store := by
            simp [mainCount, getDocsMain, List.filter_append, List.filter_cons, spread, Option.orElse, ht]
          rw [this]; exact h1
    · exact h1

theorem handleUpdateWrite_keysUnique (asked : List Effect) (v : Fields) (st : ListState)
    (store : Store) (hk : KeysUnique store) :
    KeysUnique (handleUpdateWrite asked v st store).store := by
  unfold handleUpdateWrite
  split
  · exact hk
  · split
    · rename_i h; exact updateDoc_keysUnique h hk
    · exact hk

theorem handleUpdate_keysUnique (st : ListState) (store : Store) (hk : KeysUnique store) :
    KeysUnique (handleUpdate st store).store := by
  unfold handleUpdate
  split
  · exact hk
  · split
    · split
      · exact hk
      · exact handleUpdateWrite_keysUnique _ _ _ _ hk
    · exact handleUpdateWrite_keysUnique _ _ _ _ hk

theorem handleUpdate_mainCount (st : ListState) (store : Store) (hk : KeysUnique store)
    (h1 : mainCount store ≤ 1) : mainCount (handleUpdate st store).store ≤ 1 := by
  unfold handleUpdate
  split
  · exact h1
  · rename_i v _
    split
    · split
      · exact h1
      · rename_i hfind
        unfold handleUpdateWrite
        split
        · exact h1
        · rename_i id hid
          split
          · rename_i store' hu
            apply updateDoc_mainCount_le_one hu hk
            intro d hd hm
            have := List.find?_eq_none.mp hfind d
              (by simp [getDocsMain, List.mem_filter, hd, hm])
            simpa [hid] using this
          · exact h1
    · rename_i ht
      unfold handleUpdateWrite
      split
      · exact h1
      · split
        · rename_i store' hu
          exact le_trans (updateDoc_mainCount_le hu ht) h1
        · exact h1

theorem toggleStatusWrite_keysUnique (asked : List Effect) (id : Option JSString)
    (s : JSString) (store : Store) (hk : KeysUnique store) :
    KeysUnique (toggleStatusWrite asked id s store).store := by
  unfold toggleStatusWrite
  split
  · exact hk
  · split
    · rename_i h; exact updateDoc_keysUnique h hk
    · exact hk

theorem toggleStatusWrite_mainCount (asked : List Effect) (id : Option JSString)
    (s : JSString) (store : Store) :
    mainCount (toggleStatusWrite asked id s store).store ≤ mainCount store := by
  unfold toggleStatusWrite
  split
  · exact le_refl _
  · split
    · rename_i h; exact updateDoc_mainCount_le h (by simp)
    · exact le_refl _

theorem toggleStatus_keysUnique (confirm : String → Bool) (branch : Fields) (store : Store)
    (hk : KeysUnique store) : KeysUnique (toggleStatus confirm branch store).store := by
  unfold toggleStatus
  simp only
  repeat' split
  all_goals first | exact hk | exact toggleStatusWrite_keysUnique _ _ _ _ hk

theorem toggleStatus_mainCount (confirm : String → Bool) (branch : Fields) (store : Store) :
    mainCount (toggleStatus confirm branch store).store ≤ mainCount store := by
  unfold toggleStatus
  simp only
  repeat' split
  all_goals first | exact Nat.le_refl _ | exact toggleStatusWrite_mainCount _ _ _ _

theorem handleDelete_keysUnique (confirm : String → Bool) (id type : Option JSString)
    (store : Store) (hk : KeysUnique store) :
    KeysUnique (handleDelete confirm id type store).store := by
  unfold handleDelete
  simp only
  repeat' split
  all_goals first | exact hk | exact deleteDoc_keysUnique _ _ hk

theorem handleDelete_mainCount (confirm : String → Bool) (id type : Option JSString)
    (store : Store) : mainCount (handleDelete confirm id type store).store ≤ mainCount store := by
  unfold handleDelete
  simp only
  repeat' split
  all_goals first | exact Nat.le_refl _ | exact deleteDoc_mainCount_le _ _

/-- C1 (single-Main invariant). In the sequential model, for every collection
with unique keys holding at most one document with `type = "Main"`, every
operation of the registry (create, edit, toggle, delete), whatever its inputs
and confirmation answers, leaves a collection with unique keys that again holds
at most one document with `type = "Main"`. -/
theorem single_main_invariant (op : Op) (store : Store) (hk : KeysUnique store)
    (h1 : mainCount store ≤ 1) :
    KeysUnique (op.run store) ∧ mainCount (op.run store) ≤ 1 := by
  cases op with
  | create data newId now =>
    exact ⟨onSubmit_keysUnique _ _ _ _ hk, onSubmit_mainCount _ _ _ _ h1⟩
  | edit st => exact ⟨handleUpdate_keysUnique _ _ hk, handleUpdate_mainCount _ _ hk h1⟩
  | toggle confirm branch =>
    exact ⟨toggleStatus_keysUnique _ _ _ hk, le_trans (toggleStatus_mainCount _ _ _) h1⟩
  | delete confirm id type =>
    exact ⟨handleDelete_keysUnique _ _ _ _ hk, le_trans (handleDelete_mainCount _ _ _ _) h1⟩

/-- Witness for C1: editing the Sub sample document into Main next to the Main one. -/
theorem single_main_invariant_witness :
    KeysUnique [hqDoc, westDoc] ∧
    mainCount [hqDoc, westDoc] ≤ 1 ∧
    mainCount ((Op.edit { editingBranch := some westDoc.id, editFormData := { toBranch westDoc with type := some sMain } }).run
      [hqDoc, westDoc]) ≤ 1 :=
  ⟨by decide, by decide,
    (single_main_invariant
      (Op.edit { editingBranch := some westDoc.id, editFormData := { toBranch westDoc with type := some sMain } })
      [hqDoc, westDoc] (by decide) (by decide)).2⟩

theorem editBranchSchema_ok {o v : Fields} (h : editBranchSchema o = .ok v) :
    editBranchSchemaErrors o = [] ∧ v = editBranchSchemaCast o := by
  unfold editBranchSchema at h
  split at h
  · rename_i he
    injection h with h
    exact ⟨he, h.symm⟩
  · exact absurd h (by simp)

theorem editBranchSchema_error {o : Fields} {inner : List FieldError}
    (h : editBranchSchema o = .error inner) :
    inner = editBranchSchemaErrors o ∧ editBranchSchemaErrors o ≠ [] := by
  unfold editBranchSchema at h
  split at h
  · exact absurd h (by simp)
  · rename_i e es he
    injection h with h
    rw [he]
    exact ⟨h.symm, by simp⟩

theorem editBranchSchema_of_noErrors {o : Fields} (h : editBranchSchemaErrors o = []) :
    editBranchSchema o = .ok (editBranchSchemaCast o) := by
  unfold editBranchSchema
  rw [h]

theorem getDocsMain_find_some {store : Store} {m : Doc} {e : Option JSString}
    (hm : m ∈ store) (hmt : m.data.type = some sMain) (hne : e ≠ some m.id) :
    ∃ x, (getDocsMain store).find? (fun doc => some doc.id != e) = some x := by
  cases hf : (getDocsMain store).find? (fun doc => some doc.id != e) with
  | some x => exact ⟨x, rfl⟩
  | none =>
    have := List.find?_eq_none.mp hf m (by simp [getDocsMain, List.mem_filter, hm, hmt])
    simp at this
    exact absurd this.symm hne

/-- C2. For every collection that contains a document with `type = "Main"`
(and, by the invariant, at most one): an `onSubmit` with `type = "Main"`, and a
`handleUpdate` of a different id with `type = "Main"` in the form, leave the
collection as it was and issue no store write; the Main count stays 1. A
create, and an edit whose form is valid, end in the guard's alert. -/
theorem main_conflict_rejected (store : Store) (m : Doc) (hm : m ∈ store)
    (hmt : m.data.type = some sMain) (h1 : mainCount store ≤ 1) :
    (∀ (data : Fields) (newId : JSString) (now : Nat), data.type = some sMain →
      onSubmit data newId now store = ⟨store, [.getDocs, .alert createConflictAlert]⟩ ∧
      mainCount (onSubmit data newId now store).store = 1) ∧
    (∀ st : ListState, st.editFormData.type = some sMain → st.editingBranch ≠ some m.id →
      (handleUpdate st store).store = store ∧
      (∀ e ∈ (handleUpdate st store).log, e.isWrite = false) ∧
      (editBranchSchemaErrors st.editFormData = [] →
        (handleUpdate st store).log = [.getDocs, .alert updateConflictAlert]) ∧
      mainCount (handleUpdate st store).store = 1) := by
  have hmem : m ∈ getDocsMain store := by
    simp [getDocsMain, List.mem_filter, hm, hmt]
  have hpos : 0 < mainCount store := List.length_pos_of_mem hmem
  have hone : mainCount store = 1 := le_antisymm h1 hpos
  refine ⟨?_, ?_⟩
  · intro data newId now ht
    have hne : (getDocsMain store).isEmpty = false := by
      cases hg : getDocsMain store with
      | nil => rw [hg] at hmem; exact absurd hmem (by simp)
      | cons a l => rfl
    have : onSubmit data newId now store = ⟨store, [.getDocs, .alert createConflictAlert]⟩ := by
      simp [onSubmit, ht, hne]
    rw [this]
    exact ⟨rfl, hone⟩
  · intro st ht hne
    obtain ⟨x, hx⟩ := getDocsMain_find_some hm hmt hne
    cases hv : editBranchSchema st.editFormData with
    | error inner =>
      have hr : handleUpdate st store = ⟨store, [], { st with editErrors := formatErrors inner }⟩ := by
        simp [handleUpdate, hv]
      rw [hr]
      refine ⟨rfl, by simp, ?_, hone⟩
      intro h0
      exact absurd h0 (editBranchSchema_error hv).2
    | ok v =>
      have hvt : v.type = some sMain := by
        rw [(editBranchSchema_ok hv).2]; exact ht
      have hr : handleUpdate st store = ⟨store, [.getDocs, .alert updateConflictAlert], st⟩ := by
        simp [handleUpdate, hv, hvt, hx]
      rw [hr]
      exact ⟨rfl, by simp [Effect.isWrite], fun _ => rfl, hone⟩

/-- Witness for C2: the collection of the two sample documents; a create of a
second Main and an edit of the Sub document into Main. -/
theorem main_conflict_rejected_witness :
    mainCount (onSubmit { type := some sMain } [9] 0
      [hqDoc, westDoc]).store = 1 ∧
    (handleUpdate { editingBranch := some westDoc.id, editFormData := { toBranch westDoc with type := some sMain } }
      [hqDoc, westDoc]).store =
      [hqDoc, westDoc] :=
  ⟨((main_conflict_rejected [hqDoc, westDoc]
      hqDoc (by decide) (by decide) (by decide)).1
      { type := some sMain } [9] 0 rfl).2,
   ((main_conflict_rejected [hqDoc, westDoc]
      hqDoc (by decide) (by decide) (by decide)).2
      { editingBranch := some westDoc.id, editFormData := { toBranch westDoc with type := some sMain } } rfl (by decide)).1⟩

theorem accepts_branchSchema_iff (o : Fields) :
    accepts branchSchema o = true ↔ branchSchemaErrors o = [] := by
  unfold accepts branchSchema
  cases h : branchSchemaErrors o <;> simp

theorem accepts_editBranchSchema_iff (o : Fields) :
    accepts editBranchSchema o = true ↔ editBranchSchemaErrors o = [] := by
  unfold accepts editBranchSchema
  cases h : editBranchSchemaErrors o <;> simp

theorem stringTrimMinRequired_noErrors (n : Nat) (hn : 0 < n) (minMsg reqMsg : String)
    (v : Option JSString) :
    (stringTrimMinRequired n minMsg reqMsg v).2 = [] ↔ trimmedAtLeast n v = true := by
  cases v with
  | none => simp [stringTrimMinRequired, trimmedAtLeast]
  | some s =>
    simp only [stringTrimMinRequired, trimmedAtLeast, List.append_eq_nil, decide_eq_true_eq]
    constructor
    · rintro ⟨h1, _⟩
      by_contra hc
      rw [if_pos (by omega)] at h1
      exact absurd h1 (by simp)
    · intro h
      exact ⟨by rw [if_neg (by omega)], by rw [if_neg (by omega)]⟩

theorem stringOneOfRequired_type_noErrors (oneOfMsg reqMsg : String) (v : Option JSString) :
    stringOneOfRequired [sMain, sSub] oneOfMsg reqMsg v = [] ↔
      (v == some sMain || v == some sSub) = true := by
  cases v with
  | none => simp [stringOneOfRequired]
  | some s =>
    by_cases h1 : s = sMain
    · subst h1; simp [stringOneOfRequired, sMain]
    · by_cases h2 : s = sSub
      · subst h2; simp [stringOneOfRequired, sSub]
      · simp [stringOneOfRequired, h1, h2]

theorem stringOneOf_status_noErrors (oneOfMsg : String) (v : Option JSString) :
    stringOneOf [sActive, sInactive] oneOfMsg v = [] ↔
      (v = none ∨ v = some sActive ∨ v = some sInactive) := by
  cases v with
  | none => simp [stringOneOf]
  | some s =>
    by_cases h1 : s = sActive
    · subst h1; simp [stringOneOf]
    · by_cases h2 : s = sInactive
      · subst h2; simp [stringOneOf]
      · simp [stringOneOf, h1, h2]

theorem stringRequired_noErrors (reqMsg : String) (v : Option JSString) :
    stringRequired reqMsg v = [] ↔ ∃ c, v = some c ∧ c ≠ [] := by
  cases v with
  | none => simp [stringRequired]
  | some s => cases s <;> simp [stringRequired]

theorem branchSchemaErrors_nil_iff (o : Fields) :
    branchSchemaErrors o = [] ↔
      meetsSharedRules o = true ∧ ∃ c, o.branchCode = some c ∧ c ≠ [] := by
  unfold branchSchemaErrors meetsSharedRules
  simp only [List.append_eq_nil, List.map_eq_nil_iff, Bool.and_eq_true,
    stringTrimMinRequired_noErrors 3 (by decide), stringTrimMinRequired_noErrors 10 (by decide),
    stringOneOfRequired_type_noErrors, stringRequired_noErrors]
  tauto

theorem editBranchSchemaErrors_nil_iff (o : Fields) :
    editBranchSchemaErrors o = [] ↔
      meetsSharedRules o = true ∧
        (o.status = none ∨ o.status = some sActive ∨ o.status = some sInactive) := by
  unfold editBranchSchemaErrors meetsSharedRules
  simp only [List.append_eq_nil, List.map_eq_nil_iff, Bool.and_eq_true,
    stringTrimMinRequired_noErrors 3 (by decide), stringTrimMinRequired_noErrors 10 (by decide),
    stringOneOfRequired_type_noErrors, stringOneOf_status_noErrors, and_assoc]

/-- C3, counterexample. A candidate that meets the three rules (name, address,
type) is rejected by `branchSchema` because it has no `branchCode`, and accepted
once it has one; the same candidate with the status `"Closed"` is rejected by
`editBranchSchema`, and accepted with no status. -/
theorem validator_three_rules_counterexample :
    meetsSharedRules (toBranch westDoc) = true ∧
    accepts branchSchema { toBranch westDoc with branchCode := none } = false ∧
    accepts branchSchema (toBranch westDoc) = true ∧
    accepts editBranchSchema { toBranch westDoc with status := some (utf16 "Closed") } = false ∧
    accepts editBranchSchema { toBranch westDoc with status := none } = true := by
  decide

/-- C3, amended. `branchSchema` accepts a candidate if and only if the three
shared rules hold (name trimmed of length at least 3, address trimmed of length
at least 10, type `Main` or `Sub`) and `branchCode` is a non-empty string;
`editBranchSchema` accepts if and only if the three shared rules hold and
`status` is absent, `Active` or `Inactive`. No other field takes part. -/
theorem validator_accepts_iff (o : Fields) :
    (accepts branchSchema o = true ↔
      meetsSharedRules o = true ∧ ∃ c, o.branchCode = some c ∧ c ≠ []) ∧
    (accepts editBranchSchema o = true ↔
      meetsSharedRules o = true ∧
        (o.status = none ∨ o.status = some sActive ∨ o.status = some sInactive)) :=
  ⟨(accepts_branchSchema_iff o).trans (branchSchemaErrors_nil_iff o),
   (accepts_editBranchSchema_iff o).trans (editBranchSchemaErrors_nil_iff o)⟩

theorem getDocsMain_find_none_iff (store : Store) (e : Option JSString) :
    (getDocsMain store).find? (fun doc => some doc.id != e) = none ↔
      ∀ d ∈ store, d.data.type = some sMain → some d.id = e := by
  rw [List.find?_eq_none]
  constructor
  · intro h d hd hm
    have := h d (by simp [getDocsMain, List.mem_filter, hd, hm])
    simpa using this
  · intro h d hd
    simp only [getDocsMain, List.mem_filter, beq_iff_eq] at hd
    simp [h d hd.1 hd.2]

/-- The outcome of `handleUpdate` on a valid form with `type = "Main"`. -/
theorem handleUpdate_main_valid (st : ListState) (store : Store)
    (hvalid : editBranchSchemaErrors st.editFormData = [])
    (ht : st.editFormData.type = some sMain) :
    handleUpdate st store =
      match (getDocsMain store).find? (fun doc => some doc.id != st.editingBranch) with
      | some _ => ⟨store, [.getDocs, .alert updateConflictAlert], st⟩
      | none => handleUpdateWrite [.getDocs] (editBranchSchemaCast st.editFormData) st store := by
  have hc : (editBranchSchemaCast st.editFormData).type = some sMain := ht
  unfold handleUpdate
  rw [editBranchSchema_of_noErrors hvalid]
  simp only [hc, if_true]

/-- C4. For every collection and every valid edit form with `type = "Main"`
for the record `e`, `handleUpdate` ends in the guard's alert if and only if the
collection holds a Main document whose id differs from `e`. When every Main
document is `e` itself and `e` is in the collection, the validated form is
written to `e` and the edit closes. -/
theorem edit_guard_excludes_self (st : ListState) (store : Store) (e : JSString)
    (he : st.editingBranch = some e)
    (hvalid : editBranchSchemaErrors st.editFormData = [])
    (ht : st.editFormData.type = some sMain) :
    (Effect.alert updateConflictAlert ∈ (handleUpdate st store).log ↔
      ∃ d ∈ store, d.data.type = some sMain ∧ d.id ≠ e) ∧
    ((∀ d ∈ store, d.data.type = some sMain → d.id = e) → e ∈ store.map Doc.id →
      updateDoc store e (editBranchSchemaCast st.editFormData) =
        some (handleUpdate st store).store ∧
      (handleUpdate st store).log =
        [.getDocs, .updateDoc e (editBranchSchemaCast st.editFormData)] ∧
      (handleUpdate st store).state = { st with editingBranch := none, editErrors := [] }) := by
  have hrun := handleUpdate_main_valid st store hvalid ht
  cases hf : (getDocsMain store).find? (fun doc => some doc.id != st.editingBranch) with
  | some x =>
    rw [hf] at hrun
    have hx := List.find?_some hf
    have hxm := List.mem_of_find?_eq_some hf
    simp only [getDocsMain, List.mem_filter, beq_iff_eq] at hxm
    have hxe : x.id ≠ e := by
      intro h; rw [he, h] at hx; simp at hx
    refine ⟨?_, ?_⟩
    · rw [hrun]
      exact ⟨fun _ => ⟨x, hxm.1, hxm.2, hxe⟩, fun _ => by simp⟩
    · intro hall
      exact absurd (hall x hxm.1 hxm.2) hxe
  | none =>
    rw [hf] at hrun
    have hall := (getDocsMain_find_none_iff store st.editingBranch).mp hf
    have hw : handleUpdateWrite [.getDocs] (editBranchSchemaCast st.editFormData) st store =
        match updateDoc store e (editBranchSchemaCast st.editFormData) with
        | some store' =>
          ⟨store', [.getDocs, .updateDoc e (editBranchSchemaCast st.editFormData)],
            { st with editingBranch := none, editErrors := [] }⟩
        | none =>
          ⟨store, [.getDocs, .updateDoc e (editBranchSchemaCast st.editFormData)], st⟩ := by
      unfold handleUpdateWrite
      rw [he]
      rfl
    refine ⟨?_, ?_⟩
    · constructor
      · intro hmem
        rw [hrun, hw] at hmem
        cases hu : updateDoc store e (editBranchSchemaCast st.editFormData) <;>
          rw [hu] at hmem <;> simp at hmem
      · rintro ⟨d, hd, hm, hne⟩
        have := hall d hd hm
        rw [he] at this
        exact absurd (Option.some.inj this) hne
    · intro _ hmem
      have hu : updateDoc store e (editBranchSchemaCast st.editFormData) =
          some (store.map fun d =>
            if d.id = e then
              { d with data := spread d.data (editBranchSchemaCast st.editFormData) }
            else d) := by
        unfold updateDoc
        rw [if_pos hmem]
      rw [hrun, hw, hu]
      exact ⟨rfl, rfl, rfl⟩

/-- Witness for C4: the edit form of the only Main document, its name changed,
its type kept. -/
theorem edit_guard_excludes_self_witness :
    (handleUpdate
      { editingBranch := some hqDoc.id
        editFormData := { toBranch hqDoc with branchName := some (utf16 "Headquarters") } }
      [hqDoc, westDoc]).log =
      [.getDocs, .updateDoc hqDoc.id (editBranchSchemaCast
        { toBranch hqDoc with branchName := some (utf16 "Headquarters") })] :=
  ((edit_guard_excludes_self
      { editingBranch := some hqDoc.id
        editFormData := { toBranch hqDoc with branchName := some (utf16 "Headquarters") } }
      [hqDoc, westDoc] hqDoc.id rfl (by decide) (by decide)).2
    (by decide) (by decide)).2.1

theorem createdAlert_ne_conflict : createdAlert ≠ createConflictAlert := by decide

theorem onSubmit_alert_conflict (data : Fields) (newId : JSString) (now : Nat) (store : Store)
    (h : Effect.alert createConflictAlert ∈ (onSubmit data newId now store).log) :
    onSubmit data newId now store = ⟨store, [.getDocs, .alert createConflictAlert]⟩ ∧
      ∃ d ∈ store, d.data.type = some sMain := by
  unfold onSubmit at h ⊢
  simp only at h ⊢
  split
  · rename_i hg
    refine ⟨rfl, ?_⟩
    simp only [Bool.and_eq_true, Bool.not_eq_true', List.isEmpty_eq_false] at hg
    cases hl : getDocsMain store with
    | nil => simp [hl] at hg
    | cons a l =>
      have ha : a ∈ getDocsMain store := by rw [hl]; simp
      simp only [getDocsMain, List.mem_filter, beq_iff_eq] at ha
      exact ⟨a, ha.1, ha.2⟩
  · rename_i hg
    rw [if_neg hg] at h
    have hne := createdAlert_ne_conflict
    split at h <;> split at h <;> simp at h <;> exact absurd h.symm hne

theorem handleUpdateWrite_no_alert (asked : List Effect) (v : Fields) (st : ListState)
    (store : Store) (msg : String) (h : Effect.alert msg ∉ asked) :
    Effect.alert msg ∉ (handleUpdateWrite asked v st store).log := by
  unfold handleUpdateWrite
  split
  · exact h
  · split <;> simpa using h

theorem handleUpdate_alert_conflict (st : ListState) (store : Store)
    (h : Effect.alert updateConflictAlert ∈ (handleUpdate st store).log) :
    handleUpdate st store = ⟨store, [.getDocs, .alert updateConflictAlert], st⟩ ∧
      ∃ d ∈ store, d.data.type = some sMain ∧ some d.id ≠ st.editingBranch := by
  unfold handleUpdate at h ⊢
  split
  · rename_i hv
    rw [hv] at h
    simp at h
  · rename_i v hv
    rw [hv] at h
    simp only at h
    split
    · rename_i ht
      rw [if_pos ht] at h
      split
      · rename_i x hf
        refine ⟨rfl, ?_⟩
        have hx := List.find?_some hf
        have hxm := List.mem_of_find?_eq_some hf
        simp only [getDocsMain, List.mem_filter, beq_iff_eq] at hxm
        exact ⟨x, hxm.1, hxm.2, by simpa using hx⟩
      · rename_i hf
        rw [hf] at h
        exact absurd h (handleUpdateWrite_no_alert _ _ _ _ _ (by simp))
    · rename_i ht
      rw [if_neg ht] at h
      exact absurd h (handleUpdateWrite_no_alert _ _ _ _ _ (by simp))

/-- C5, counterexample. A create of a second Main is rejected with the same
report whether the existing Main document has the key `hq01` or `hq02`, and so
is an edit of the Sub document into Main: no function of the report yields the
id of an existing Main document. -/
theorem conflict_report_counterexample :
    (onSubmit { type := some sMain } [9] 0 [hqDoc]).log =
      [.getDocs, .alert createConflictAlert] ∧
    (onSubmit { type := some sMain } [9] 0 [⟨utf16 "hq02", hqDoc.data⟩]).log =
      [.getDocs, .alert createConflictAlert] ∧
    (handleUpdate
      { editingBranch := some westDoc.id
        editFormData := { toBranch westDoc with type := some sMain } }
      [hqDoc, westDoc]).log = [.getDocs, .alert updateConflictAlert] ∧
    (handleUpdate
      { editingBranch := some westDoc.id
        editFormData := { toBranch westDoc with type := some sMain } }
      [⟨utf16 "hq02", hqDoc.data⟩, westDoc]).log = [.getDocs, .alert updateConflictAlert] ∧
    ¬ ∃ idOf : List Effect → JSString,
      ∀ (store : Store) (data : Fields) (newId : JSString) (now : Nat),
        Effect.alert createConflictAlert ∈ (onSubmit data newId now store).log →
        ∃ d ∈ store, d.data.type = some sMain ∧ d.id = idOf (onSubmit data newId now store).log := by
  refine ⟨by decide, by decide, by decide, by decide, ?_⟩
  rintro ⟨idOf, h⟩
  have h1 := h [hqDoc] { type := some sMain } [9] 0 (by decide)
  have h2 := h [⟨utf16 "hq02", hqDoc.data⟩] { type := some sMain } [9] 0 (by decide)
  have e1 : (onSubmit { type := some sMain } [9] 0 [hqDoc]).log =
      [.getDocs, .alert createConflictAlert] := by decide
  have e2 : (onSubmit { type := some sMain } [9] 0 [⟨utf16 "hq02", hqDoc.data⟩]).log =
      [.getDocs, .alert createConflictAlert] := by decide
  rw [e1] at h1
  rw [e2] at h2
  obtain ⟨d1, hd1, _, hid1⟩ := h1
  obtain ⟨d2, hd2, _, hid2⟩ := h2
  simp only [List.mem_singleton] at hd1 hd2
  subst hd1
  subst hd2
  rw [← hid2] at hid1
  exact absurd hid1 (by decide)

/-- C5, amended. Whenever a create or an edit ends in the guard's alert, the
collection holds a Main document (for an edit, one whose id is not the edited
one), nothing is written, and the whole report is the handler's fixed alert
text after the query; it names no document. -/
theorem conflict_report_fixed (store : Store) (data : Fields) (newId : JSString) (now : Nat)
    (st : ListState) :
    (Effect.alert createConflictAlert ∈ (onSubmit data newId now store).log →
      onSubmit data newId now store = ⟨store, [.getDocs, .alert createConflictAlert]⟩ ∧
      ∃ d ∈ store, d.data.type = some sMain) ∧
    (Effect.alert updateConflictAlert ∈ (handleUpdate st store).log →
      handleUpdate st store = ⟨store, [.getDocs, .alert updateConflictAlert], st⟩ ∧
      ∃ d ∈ store, d.data.type = some sMain ∧ some d.id ≠ st.editingBranch) :=
  ⟨onSubmit_alert_conflict data newId now store, handleUpdate_alert_conflict st store⟩

theorem errorAt_assign (m : List FieldError) (q : Path) (msg : String) (p : Path) :
    errorAt (assign m q msg) p = if p = q then some msg else errorAt m p := by
  unfold assign errorAt
  induction m with
  | nil =>
    by_cases h : p = q
    · subst h; simp [List.lookup]
    · have h' : (p == q) = false := by simpa using h
      simp [List.lookup, h, h']
  | cons a l ih =>
    obtain ⟨k, v⟩ := a
    by_cases hk : k = q
    · subst hk
      by_cases hp : p = k
      · subst hp; simp [List.lookup]
      · have hp' : (p == k) = false := by simpa using hp
        simp only [List.any_cons, beq_self_eq_true, Bool.true_or, if_true, List.map_cons,
          List.lookup, hp', hp, if_false]
        by_cases hany : l.any (fun e => e.1 == k) = true
        · rw [if_pos hany] at ih
          rw [ih, if_neg hp]
        · have : ∀ e ∈ l, e.1 ≠ k := by
            intro e he hek
            apply hany
            exact List.any_eq_true.mpr ⟨e, he, by simpa using hek⟩
          congr 1
          conv_rhs => rw [← List.map_id l]
          apply List.map_congr_left
          intro e he
          rw [if_neg (this e he)]
          rfl
    · have hk' : (k == q) = false := by simpa using hk
      simp only [List.any_cons, hk', Bool.false_or]
      by_cases hany : l.any (fun e => e.1 == q) = true
      · rw [if_pos hany] at ih ⊢
        simp only [List.map_cons, hk, if_false]
        by_cases hp : p = k
        · subst hp
          simp [List.lookup, hk]
        · have hp' : (p == k) = false := by simpa using hp
          simp only [List.lookup, hp']
          exact ih
      · rw [if_neg hany] at ih ⊢
        by_cases hp : p = k
        · subst hp
          simp [List.lookup, hk]
        · have hp' : (p == k) = false := by simpa using hp
          simp only [List.cons_append, List.lookup, hp']
          exact ih

theorem errorAt_foldl_assign (inner m : List FieldError) (p : Path) :
    (errorAt (inner.foldl (fun formatted e => assign formatted e.1 e.2) m) p).isSome = true ↔
      (errorAt m p).isSome = true ∨ ∃ e ∈ inner, e.1 = p := by
  induction inner generalizing m with
  | nil => simp
  | cons a l ih =>
    rw [List.foldl_cons, ih, errorAt_assign]
    by_cases h : p = a.1
    · subst h; simp
    · have h' : a.1 ≠ p := fun e => h e.symm
      simp [h, h']

theorem errorAt_formatErrors (inner : List FieldError) (p : Path) :
    (errorAt (formatErrors inner) p).isSome = true ↔ ∃ e ∈ inner, e.1 = p := by
  unfold formatErrors
  rw [errorAt_foldl_assign]
  simp [errorAt, List.lookup]

theorem exists_mem_tagged (q p : Path) (l : List String) :
    (∃ e ∈ l.map (fun m => (q, m)), e.1 = p) ↔ q = p ∧ l ≠ [] := by
  constructor
  · rintro ⟨e, he, hp⟩
    obtain ⟨m, hm, rfl⟩ := List.mem_map.mp he
    exact ⟨hp, List.ne_nil_of_mem hm⟩
  · rintro ⟨rfl, hl⟩
    obtain ⟨m, hm⟩ := List.exists_mem_of_ne_nil l hl
    exact ⟨(q, m), List.mem_map.mpr ⟨m, hm, rfl⟩, rfl⟩

theorem editBranchSchemaErrors_path (o : Fields) (p : Path) :
    (∃ e ∈ editBranchSchemaErrors o, e.1 = p) ↔ editRuleViolated o p = true := by
  unfold editBranchSchemaErrors
  simp only [List.mem_append, or_and_right, exists_or, exists_mem_tagged, ne_eq,
    stringTrimMinRequired_noErrors 3 (by decide), stringTrimMinRequired_noErrors 10 (by decide),
    stringOneOfRequired_type_noErrors, stringOneOf_status_noErrors]
  cases p <;> simp [editRuleViolated]
  cases o.status <;> simp

theorem editBranchSchemaErrors_ne_nil_iff (o : Fields) :
    editBranchSchemaErrors o ≠ [] ↔ ∃ p, editRuleViolated o p = true := by
  constructor
  · intro h
    obtain ⟨e, he⟩ := List.exists_mem_of_ne_nil _ h
    exact ⟨e.1, (editBranchSchemaErrors_path o e.1).mp ⟨e, he, rfl⟩⟩
  · rintro ⟨p, hp⟩
    obtain ⟨e, he, _⟩ := (editBranchSchemaErrors_path o p).mpr hp
    exact List.ne_nil_of_mem he

theorem handleUpdate_invalid (st : ListState) (store : Store)
    (h : editBranchSchemaErrors st.editFormData ≠ []) :
    handleUpdate st store =
      ⟨store, [], { st with editErrors := formatErrors (editBranchSchemaErrors st.editFormData) }⟩ := by
  unfold handleUpdate editBranchSchema
  cases he : editBranchSchemaErrors st.editFormData with
  | nil => exact absurd he h
  | cons a l => rfl

/-- C6. For every edit form, the error map built from the collected errors has
an entry for a field exactly when that field violates its rule, whatever the
other fields hold; and when some field violates its rule, `handleUpdate` sets
that map as `editErrors`, leaves the store as it was and issues no effect. -/
theorem edit_errors_all_reported (st : ListState) (store : Store) :
    (∀ p : Path,
      (errorAt (formatErrors (editBranchSchemaErrors st.editFormData)) p).isSome = true ↔
        editRuleViolated st.editFormData p = true) ∧
    ((∃ p, editRuleViolated st.editFormData p = true) →
      handleUpdate st store =
        ⟨store, [],
          { st with editErrors := formatErrors (editBranchSchemaErrors st.editFormData) }⟩) :=
  ⟨fun p => (errorAt_formatErrors _ p).trans (editBranchSchemaErrors_path _ p),
   fun h => handleUpdate_invalid st store ((editBranchSchemaErrors_ne_nil_iff _).mpr h)⟩

theorem updateDoc_some_mem {store store' : Store} {i : JSString} {patch : Fields}
    (h : updateDoc store i patch = some store') : i ∈ store.map Doc.id := by
  unfold updateDoc at h
  by_contra hn
  rw [if_neg hn] at h
  exact absurd h (by simp)

theorem updateDoc_none_not_mem {store : Store} {i : JSString} {patch : Fields}
    (h : updateDoc store i patch = none) : i ∉ store.map Doc.id := by
  unfold updateDoc at h
  intro hn
  rw [if_pos hn] at h
  exact absurd h (by simp)

theorem toggleStatusWrite_some (asked : List Effect) (i : JSString) (s : JSString)
    (store : Store) :
    (toggleStatusWrite asked (some i) s store).log =
        asked ++ .updateDoc i { status := some s } ::
          (if i ∈ store.map Doc.id then [] else [.consoleError]) ∧
    (i ∈ store.map Doc.id →
      updateDoc store i { status := some s } = some (toggleStatusWrite asked (some i) s store).store) ∧
    (i ∉ store.map Doc.id → (toggleStatusWrite asked (some i) s store).store = store) := by
  unfold toggleStatusWrite
  simp only
  split
  · rename_i store' hu
    have hi := updateDoc_some_mem hu
    exact ⟨by rw [if_pos hi], fun _ => hu, fun h => absurd hi h⟩
  · rename_i hu
    have hi := updateDoc_none_not_mem hu
    exact ⟨by rw [if_neg hi], fun h => absurd h hi, fun _ => rfl⟩

theorem toggleStatusWrite_confirm_mem (asked : List Effect) (id : Option JSString)
    (s : JSString) (store : Store) (e : Effect) (he : e.isConfirm = true) :
    e ∈ (toggleStatusWrite asked id s store).log ↔ e ∈ asked := by
  unfold toggleStatusWrite
  split
  · constructor
    · intro h
      rcases List.mem_append.mp h with h | h
      · exact h
      · simp at h; subst h; simp [Effect.isConfirm] at he
    · intro h; exact List.mem_append_left _ h
  · split
    · constructor
      · intro h
        rcases List.mem_append.mp h with h | h
        · exact h
        · simp at h; subst h; simp [Effect.isConfirm] at he
      · intro h; exact List.mem_append_left _ h
    · constructor
      · intro h
        rcases List.mem_append.mp h with h | h
        · exact h
        · simp at h
          rcases h with h | h <;> subst h <;> simp [Effect.isConfirm] at he
      · intro h; exact List.mem_append_left _ h

theorem toggleStatus_gate (confirm : String → Bool) (branch : Fields) (store : Store) :
    toggleStatus confirm branch store =
      if branch.type = some sMain ∧ branch.status = some sActive then
        if confirm deactivateMainWarning = false then ⟨store, [.confirm deactivateMainWarning]⟩
        else toggleStatusWrite [.confirm deactivateMainWarning] branch.id sInactive store
      else
        toggleStatusWrite [] branch.id
          (if branch.status = some sActive then sInactive else sActive) store := by
  unfold toggleStatus
  by_cases hs : branch.status = some sActive
  · by_cases ht : branch.type = some sMain
    · cases hc : confirm deactivateMainWarning <;> simp [hs, ht, hc]
    · simp [hs, ht]
  · have : sActive ≠ sInactive := by decide
    simp [hs, this]

/-- C7. For every record handed to `toggleStatus`: a confirmation is asked if
and only if the record has `type = "Main"` and `status = "Active"`; when it is
asked and declined the store is left as it was and the prompt is the only
effect; in every other case (any record that is not an active Main, so every
Sub record and every reactivation) no confirmation is asked and the first
effect is the write of the flipped status to the record's id. -/
theorem toggle_confirmation_gate (confirm : String → Bool) (branch : Fields) (store : Store) :
    ((∃ e ∈ (toggleStatus confirm branch store).log, e.isConfirm = true) ↔
      (branch.type = some sMain ∧ branch.status = some sActive)) ∧
    (branch.type = some sMain ∧ branch.status = some sActive →
      confirm deactivateMainWarning = false →
      toggleStatus confirm branch store = ⟨store, [.confirm deactivateMainWarning]⟩) ∧
    (¬ (branch.type = some sMain ∧ branch.status = some sActive) →
      ∀ i, branch.id = some i →
        (toggleStatus confirm branch store).log =
          .updateDoc i
              { status := some (if branch.status = some sActive then sInactive else sActive) } ::
            (if i ∈ store.map Doc.id then [] else [.consoleError]) ∧
        (i ∈ store.map Doc.id →
          updateDoc store i
              { status := some (if branch.status = some sActive then sInactive else sActive) } =
            some (toggleStatus confirm branch store).store)) := by
  rw [toggleStatus_gate]
  refine ⟨?_, ?_, ?_⟩
  · constructor
    · rintro ⟨e, he, hc⟩
      by_contra hn
      rw [if_neg hn] at he
      have := (toggleStatusWrite_confirm_mem [] branch.id _ store e hc).mp he
      simp at this
    · intro h
      rw [if_pos h]
      refine ⟨.confirm deactivateMainWarning, ?_, rfl⟩
      split
      · simp
      · exact (toggleStatusWrite_confirm_mem _ branch.id _ store
          (.confirm deactivateMainWarning) rfl).mpr (by simp)
  · intro h hc
    rw [if_pos h, if_pos hc]
  · intro h i hi
    rw [if_neg h, hi]
    have := toggleStatusWrite_some [] i
      (if branch.status = some sActive then sInactive else sActive) store
    exact ⟨by simpa using this.1, this.2.1⟩

theorem spread_status (x : Fields) (s : JSString) :
    spread x { status := some s } = { x with status := some s } := by
  cases x
  simp [spread, Option.orElse]

theorem updateDoc_of_mem {store : Store} {i : JSString} (patch : Fields)
    (hi : i ∈ store.map Doc.id) :
    updateDoc store i patch =
      some (store.map fun d => if d.id = i then { d with data := spread d.data patch } else d) := by
  unfold updateDoc
  rw [if_pos hi]

theorem toBranch_id_of_consistent {store : Store} (hc : IdConsistent store) {d : Doc}
    (hd : d ∈ store) : (toBranch d).id = some d.id := by
  rcases hc d hd with h | h <;> simp [toBranch, spread, h, Option.orElse]

theorem toBranch_status (d : Doc) : (toBranch d).status = d.data.status := by
  cases h : d.data.status <;> simp [toBranch, spread, h, Option.orElse]

theorem toBranch_type (d : Doc) : (toBranch d).type = d.data.type := by
  cases h : d.data.type <;> simp [toBranch, spread, h, Option.orElse]

theorem toBranch_branchCode (d : Doc) : (toBranch d).branchCode = d.data.branchCode := by
  cases h : d.data.branchCode <;> simp [toBranch, spread, h, Option.orElse]

/-- The store a toggle leaves when the prompt, if any, is confirmed and the
record is in the store. -/
theorem toggleStatus_store_of_mem (confirm : String → Bool) (branch : Fields) (store : Store)
    (i : JSString) (hid : branch.id = some i) (hi : i ∈ store.map Doc.id)
    (hyes : confirm deactivateMainWarning = true) :
    (toggleStatus confirm branch store).store =
      store.map fun d =>
        if d.id = i then
          { d with data :=
              { d.data with
                status := some (if branch.status = some sActive then sInactive else sActive) } }
        else d := by
  have hw : ∀ asked s, (toggleStatusWrite asked (some i) s store).store =
      store.map fun d => if d.id = i then { d with data := { d.data with status := some s } }
        else d := by
    intro asked s
    have := (toggleStatusWrite_some asked i s store).2.1 hi
    rw [updateDoc_of_mem _ hi] at this
    rw [← Option.some.inj this]
    apply List.map_congr_left
    intro d _
    rw [spread_status]
  rw [toggleStatus_gate, hid]
  split
  · rename_i h
    rw [if_neg (by simp [hyes]), hw, if_pos h.2]
  · rw [hw]

/-- C8. For every record of a collection with unique keys and consistent ids
whose status is `Active` or `Inactive`, with every prompt confirmed: the first
`toggleStatus` flips the record's status in the store, and a second
`toggleStatus` on the refreshed record returns the whole collection, and so the
record's status, to what it was. -/
theorem toggle_twice_restores (confirm : String → Bool) (store : Store) (d : Doc)
    (hk : KeysUnique store) (hc : IdConsistent store) (hd : d ∈ store)
    (hs : d.data.status = some sActive ∨ d.data.status = some sInactive)
    (hyes : confirm deactivateMainWarning = true) :
    ∃ d1 ∈ (toggleStatus confirm (toBranch d) store).store,
      d1.id = d.id ∧ d1.data.status ≠ d.data.status ∧
      (d1.data.status = some sActive ∨ d1.data.status = some sInactive) ∧
      (toggleStatus confirm (toBranch d1)
        (toggleStatus confirm (toBranch d) store).store).store = store := by
  have hne : sActive ≠ sInactive := by decide
  have hi : d.id ∈ store.map Doc.id := List.mem_map.mpr ⟨d, hd, rfl⟩
  have h1 := toggleStatus_store_of_mem confirm (toBranch d) store d.id
    (toBranch_id_of_consistent hc hd) hi hyes
  rw [toBranch_status] at h1
  -- the refreshed record
  let ns : JSString := if d.data.status = some sActive then sInactive else sActive
  let d1 : Doc := { d with data := { d.data with status := some ns } }
  have hd1 : d1 ∈ (toggleStatus confirm (toBranch d) store).store := by
    rw [h1]
    exact List.mem_map.mpr ⟨d, hd, by simp [d1, ns]⟩
  have hkeys1 : (toggleStatus confirm (toBranch d) store).store.map Doc.id = store.map Doc.id := by
    rw [h1, List.map_map]
    apply List.map_congr_left
    intro x _
    by_cases hx : x.id = d.id <;> simp [hx]
  have hb1id : (toBranch d1).id = some d.id := by
    rcases hc d hd with h | h <;> simp [toBranch, spread, d1, h, Option.orElse]
  have hi1 : d.id ∈ (toggleStatus confirm (toBranch d) store).store.map Doc.id := by
    rw [hkeys1]; exact hi
  have h2 := toggleStatus_store_of_mem confirm (toBranch d1)
    (toggleStatus confirm (toBranch d) store).store d.id hb1id hi1 hyes
  rw [toBranch_status] at h2
  refine ⟨d1, hd1, rfl, ?_, ?_, ?_⟩
  · rcases hs with h | h
    · simp [d1, ns, h]; exact fun e => hne e.symm
    · have : ¬ (sInactive = sActive) := fun e => hne e.symm
      simp [d1, ns, h, this]; exact hne
  · rcases hs with h | h
    · simp [d1, ns, h]
    · have : ¬ (sInactive = sActive) := fun e => hne e.symm
      simp [d1, ns, h, this]
  · rw [h2, h1, List.map_map]
    conv_rhs => rw [← List.map_id store]
    apply List.map_congr_left
    intro x hx
    by_cases hxd : x.id = d.id
    · have hxeq : x = d := by
        have hinj := List.inj_on_of_nodup_map hk
        exact hinj hx hd hxd
      subst hxeq
      rcases hs with h | h
      · have : ¬ (sInactive = sActive) := fun e => hne e.symm
        cases x with
        | mk xid xdata =>
          cases xdata
          simp_all [d1, ns]
      · have : ¬ (sInactive = sActive) := fun e => hne e.symm
        cases x with
        | mk xid xdata =>
          cases xdata
          simp_all [d1, ns]
    · simp [hxd]

/-- Witness for C8: the active Main sample document, every prompt confirmed. -/
theorem toggle_twice_restores_witness :
    ∃ d1 ∈ (toggleStatus alwaysYes (toBranch hqDoc) [hqDoc, westDoc]).store,
      d1.id = hqDoc.id ∧ d1.data.status ≠ hqDoc.data.status ∧
      (d1.data.status = some sActive ∨ d1.data.status = some sInactive) ∧
      (toggleStatus alwaysYes (toBranch d1)
        (toggleStatus alwaysYes (toBranch hqDoc) [hqDoc, westDoc]).store).store =
        [hqDoc, westDoc] :=
  toggle_twice_restores alwaysYes [hqDoc, westDoc] hqDoc (by decide) (by decide) (by decide)
    (by decide) rfl

theorem keepsIdAndCode_refl (i : JSString) (store : Store) : KeepsIdAndCode i store store :=
  ⟨rfl, rfl⟩

/-- An update of `i` that keeps, on every document with that key, the id the
snapshot shows and the branch code, keeps them everywhere and modifies no
other document. -/
theorem updateDoc_keepsIdAndCode {store store' : Store} {i : JSString} {patch : Fields}
    (h : updateDoc store i patch = some store')
    (hp : ∀ x ∈ store, x.id = i →
      (toBranch ⟨x.id, spread x.data patch⟩).id = (toBranch x).id ∧
      (toBranch ⟨x.id, spread x.data patch⟩).branchCode = (toBranch x).branchCode) :
    KeepsIdAndCode i store store' := by
  rw [updateDoc_of_mem patch (updateDoc_some_mem h)] at h
  have h := Option.some.inj h
  subst h
  constructor
  · rw [List.map_map]
    apply List.map_congr_left
    intro x hx
    by_cases hxi : x.id = i
    · simp only [Function.comp, hxi, if_true]
      have := hp x hx hxi
      rw [hxi] at this
      rw [this.1, this.2]
    · simp [Function.comp, hxi]
  · rw [List.filter_map]
    conv_rhs => rw [← List.map_id (List.filter _ store)]
    have hf : ∀ x ∈ store,
        ((fun x : Doc => x.id != i) ∘
          fun d : Doc => if d.id = i then { d with data := spread d.data patch } else d) x =
          (fun x : Doc => x.id != i) x := by
      intro x _
      by_cases hxi : x.id = i <;> simp [Function.comp, hxi]
    rw [List.filter_congr hf]
    apply List.map_congr_left
    intro x hx
    have hxi : x.id ≠ i := by
      have := (List.mem_filter.mp hx).2
      simpa using this
    simp [hxi]

theorem toggleStatus_store_cases (confirm : String → Bool) (branch : Fields) (store : Store) :
    (toggleStatus confirm branch store).store = store ∨
      ∃ j s, branch.id = some j ∧ (s = sActive ∨ s = sInactive) ∧
        updateDoc store j { status := some s } = some (toggleStatus confirm branch store).store := by
  have hw : ∀ asked t, (t = sActive ∨ t = sInactive) →
      (toggleStatusWrite asked branch.id t store).store = store ∨
      ∃ j s, branch.id = some j ∧ (s = sActive ∨ s = sInactive) ∧
        updateDoc store j { status := some s } =
          some (toggleStatusWrite asked branch.id t store).store := by
    intro asked s hs
    cases hb : branch.id with
    | none => left; rfl
    | some j =>
      by_cases hj : j ∈ store.map Doc.id
      · right
        exact ⟨j, s, rfl, hs, (toggleStatusWrite_some asked j s store).2.1 hj⟩
      · left
        exact (toggleStatusWrite_some asked j s store).2.2 hj
  rw [toggleStatus_gate]
  split
  · split
    · left; rfl
    · exact hw _ _ (Or.inr rfl)
  · apply hw
    split
    · exact Or.inr rfl
    · exact Or.inl rfl

theorem foldl_apply_frame (changes : List FormChange) (st : ListState) :
    (changes.foldl FormChange.apply st).editingBranch = st.editingBranch ∧
    (changes.foldl FormChange.apply st).editFormData.id = st.editFormData.id ∧
    (changes.foldl FormChange.apply st).editFormData.branchCode = st.editFormData.branchCode := by
  induction changes generalizing st with
  | nil => exact ⟨rfl, rfl, rfl⟩
  | cons c l ih =>
    rw [List.foldl_cons]
    obtain ⟨h1, h2, h3⟩ := ih (FormChange.apply st c)
    rw [h1, h2, h3]
    cases c <;> exact ⟨rfl, rfl, rfl⟩

theorem handleUpdate_store_cases (st : ListState) (store : Store) :
    (handleUpdate st store).store = store ∨
      ∃ e, st.editingBranch = some e ∧ editBranchSchemaErrors st.editFormData = [] ∧
        updateDoc store e (editBranchSchemaCast st.editFormData) =
          some (handleUpdate st store).store := by
  have hw : ∀ asked, (handleUpdateWrite asked (editBranchSchemaCast st.editFormData) st store).store
        = store ∨
      ∃ e, st.editingBranch = some e ∧
        updateDoc store e (editBranchSchemaCast st.editFormData) =
          some (handleUpdateWrite asked (editBranchSchemaCast st.editFormData) st store).store := by
    intro asked
    unfold handleUpdateWrite
    split
    · left; rfl
    · rename_i e he
      split
      · rename_i store' hu
        right
        exact ⟨e, he, hu⟩
      · left; rfl
  unfold handleUpdate
  split
  · left; rfl
  · rename_i v hv
    have hok := (editBranchSchema_ok hv).1
    rw [(editBranchSchema_ok hv).2]
    split
    · split
      · left; rfl
      · rcases hw [.getDocs] with h | ⟨e, he, hu⟩
        · left; exact h
        · right; exact ⟨e, he, hok, hu⟩
    · rcases hw [] with h | ⟨e, he, hu⟩
      · left; exact h
      · right; exact ⟨e, he, hok, hu⟩

/-- C9. For every record of a collection with unique keys and consistent ids:
after the edit flow on it (`handleEditClick`, any form changes, `handleUpdate`)
and after `toggleStatus` on it, every record's id and `branchCode` are what
they were and no record other than the one operated on is modified. -/
theorem id_and_code_immutable (store : Store) (d : Doc) (hk : KeysUnique store)
    (hc : IdConsistent store) (hd : d ∈ store) :
    (∀ (changes : List FormChange) (st : ListState),
      KeepsIdAndCode d.id store (editFlow (toBranch d) changes st store).store) ∧
    (∀ confirm : String → Bool,
      KeepsIdAndCode d.id store (toggleStatus confirm (toBranch d) store).store) := by
  have hbid := toBranch_id_of_consistent hc hd
  have huniq : ∀ x ∈ store, x.id = d.id → x = d :=
    fun x hx hxd => List.inj_on_of_nodup_map hk hx hd hxd
  refine ⟨?_, ?_⟩
  · intro changes st
    unfold editFlow
    obtain ⟨h1, h2, h3⟩ := foldl_apply_frame changes (handleEditClick (toBranch d) st)
    rcases handleUpdate_store_cases
        (changes.foldl FormChange.apply (handleEditClick (toBranch d) st)) store with h | h
    · rw [h]; exact keepsIdAndCode_refl _ _
    · obtain ⟨e, he, _, hu⟩ := h
      rw [h1] at he
      have hed : e = d.id := by
        have : (handleEditClick (toBranch d) st).editingBranch = some d.id := hbid
        rw [this] at he
        exact (Option.some.inj he).symm
      subst hed
      apply updateDoc_keepsIdAndCode hu
      intro x hx hxd
      have hxe := huniq x hx hxd
      subst hxe
      have hcid : (editBranchSchemaCast
          (changes.foldl FormChange.apply (handleEditClick (toBranch x) st)).editFormData).id =
          some x.id := by
        show (changes.foldl FormChange.apply (handleEditClick (toBranch x) st)).editFormData.id = _
        rw [h2]; exact hbid
      have hcc : (editBranchSchemaCast
          (changes.foldl FormChange.apply (handleEditClick (toBranch x) st)).editFormData).branchCode =
          x.data.branchCode := by
        show (changes.foldl FormChange.apply (handleEditClick (toBranch x) st)).editFormData.branchCode
          = _
        rw [h3]; exact toBranch_branchCode x
      generalize editBranchSchemaCast
        (changes.foldl FormChange.apply (handleEditClick (toBranch x) st)).editFormData = p
        at hcid hcc
      constructor
      · rw [hbid]
        simp [toBranch, spread, hcid, Option.orElse]
      · rw [toBranch_branchCode, toBranch_branchCode]
        simp only [spread, hcc]
        cases x.data.branchCode <;> rfl
  · intro confirm
    rcases toggleStatus_store_cases confirm (toBranch d) store with h | h
    · rw [h]; exact keepsIdAndCode_refl _ _
    · obtain ⟨j, s, hj, _, hu⟩ := h
      rw [hbid] at hj
      have hjd := Option.some.inj hj
      subst hjd
      apply updateDoc_keepsIdAndCode hu
      intro x _ _
      rw [spread_status]
      constructor
      · simp [toBranch, spread]
      · simp [toBranch, spread]

/-- Witness for C9: the Sub sample document next to the Main one. -/
theorem id_and_code_immutable_witness :
    KeepsIdAndCode westDoc.id [hqDoc, westDoc]
      (editFlow (toBranch westDoc)
        [.branchName (utf16 "Westside Depot"), .status sInactive] {} [hqDoc, westDoc]).store ∧
    KeepsIdAndCode westDoc.id [hqDoc, westDoc]
      (toggleStatus alwaysNo (toBranch westDoc) [hqDoc, westDoc]).store :=
  ⟨(id_and_code_immutable [hqDoc, westDoc] westDoc (by decide) (by decide) (by decide)).1
      [.branchName (utf16 "Westside Depot"), .status sInactive] {},
   (id_and_code_immutable [hqDoc, westDoc] westDoc (by decide) (by decide) (by decide)).2
      alwaysNo⟩

/-! ## Rounding to doubles -/

theorem roundHalfEven_le {q : ℚ} {m : ℤ} (h : q ≤ m) : roundHalfEven q ≤ m := by
  have hfl : ⌊q⌋ ≤ m := by
    have := Int.floor_le q
    exact_mod_cast le_trans this h
  unfold roundHalfEven
  by_cases h1 : q - ⌊q⌋ < 1 / 2
  · rw [if_pos h1]; exact hfl
  · have hlt : (⌊q⌋ : ℚ) < m := by
      have : (0 : ℚ) < q - ⌊q⌋ := by linarith
      linarith
    have hsucc : ⌊q⌋ + 1 ≤ m := by exact_mod_cast Int.add_one_le_iff.mpr (by exact_mod_cast hlt)
    rw [if_neg h1]
    split
    · exact hsucc
    · split
      · exact hfl
      · exact hsucc

theorem le_roundHalfEven {q : ℚ} {m : ℤ} (h : (m : ℚ) ≤ q) : m ≤ roundHalfEven q := by
  have hfl : m ≤ ⌊q⌋ := Int.le_floor.mpr h
  unfold roundHalfEven
  split
  · exact hfl
  · split
    · omega
    · split
      · exact hfl
      · omega

theorem roundHalfEven_eq_of_near {q : ℚ} {k : ℤ} (h : |q - k| < 1 / 2) : roundHalfEven q = k := by
  rw [abs_lt] at h
  unfold roundHalfEven
  by_cases hk : (k : ℚ) ≤ q
  · have hfl : ⌊q⌋ = k := Int.floor_eq_iff.mpr ⟨hk, by linarith⟩
    rw [hfl, if_pos (by linarith)]
  · have hfl : ⌊q⌋ = k - 1 := Int.floor_eq_iff.mpr ⟨by push_cast; linarith, by push_cast; linarith⟩
    rw [hfl]
    push_cast
    rw [if_neg (by linarith), if_pos (by linarith)]
    ring

theorem ulp_pos (x : ℚ) : 0 < ulp x := by
  unfold ulp
  positivity

theorem doubleExponent_eq {x : ℚ} {e : ℤ} (hlo : (2 : ℚ) ^ e ≤ |x|) (hhi : |x| < (2 : ℚ) ^ (e + 1))
    (he : -1022 ≤ e) : doubleExponent x = e := by
  have hpos : 0 < |x| := lt_of_lt_of_le (by positivity) hlo
  have h1 : e ≤ Int.log 2 |x| :=
    (Int.zpow_le_iff_le_log (by norm_num) hpos).mp (by exact_mod_cast hlo)
  have h2 : Int.log 2 |x| < e + 1 :=
    (Int.lt_zpow_iff_log_lt (by norm_num) hpos).mp (by exact_mod_cast hhi)
  unfold doubleExponent
  omega

theorem doubleExponent_le {x : ℚ} {e : ℤ} (hhi : |x| < (2 : ℚ) ^ (e + 1)) (he : 0 ≤ e) :
    doubleExponent x ≤ e := by
  unfold doubleExponent
  rcases (abs_nonneg x).eq_or_lt with h0 | hpos
  · rw [← h0, Int.log_zero_right]
    omega
  · have h2 : Int.log 2 |x| < e + 1 :=
      (Int.lt_zpow_iff_log_lt (by norm_num) hpos).mp (by exact_mod_cast hhi)
    omega

/-- Rounding does not cross a value on the grid of the doubles at `x`. -/
theorem roundDouble_le_of_grid {x y : ℚ} {k : ℤ} (hy : y = k * ulp x) (h : x ≤ y) :
    roundDouble x ≤ y := by
  have hu := ulp_pos x
  unfold roundDouble
  rw [hy]
  have hq : x / ulp x ≤ k := by
    rw [div_le_iff₀ hu, ← hy]; exact h
  have := roundHalfEven_le hq
  have hc : ((roundHalfEven (x / ulp x) : ℤ) : ℚ) ≤ (k : ℚ) := by exact_mod_cast this
  exact mul_le_mul_of_nonneg_right hc hu.le

theorem le_roundDouble_of_grid {x y : ℚ} {k : ℤ} (hy : y = k * ulp x) (h : y ≤ x) :
    y ≤ roundDouble x := by
  have hu := ulp_pos x
  unfold roundDouble
  rw [hy]
  have hq : (k : ℚ) ≤ x / ulp x := by
    rw [le_div_iff₀ hu, ← hy]; exact h
  have := le_roundHalfEven hq
  have hc : (k : ℚ) ≤ ((roundHalfEven (x / ulp x) : ℤ) : ℚ) := by exact_mod_cast this
  exact mul_le_mul_of_nonneg_right hc hu.le

/-- Below `2 ^ 14` every multiple of `2 ^ (-39)` is on the grid of the doubles. -/
theorem grid_of_lt {x : ℚ} (hx : |x| < (2 : ℚ) ^ (14 : ℤ)) (c : ℤ) :
    ∃ k : ℤ, (c : ℚ) * (2 : ℚ) ^ (-39 : ℤ) = k * ulp x := by
  have hle : doubleExponent x ≤ 13 := doubleExponent_le (by simpa using hx) (by norm_num)
  obtain ⟨n, hn⟩ : ∃ n : ℕ, (13 : ℤ) - doubleExponent x = n :=
    ⟨(13 - doubleExponent x).toNat, (Int.toNat_of_nonneg (by omega)).symm⟩
  refine ⟨c * 2 ^ n, ?_⟩
  unfold ulp
  have he : (-39 : ℤ) = (n : ℤ) + (doubleExponent x - 52) := by omega
  rw [he, zpow_add₀ (by norm_num : (2 : ℚ) ≠ 0), zpow_natCast]
  push_cast
  ring

theorem roundDouble_eq_of_near {x : ℚ} {e k : ℤ} (hlo : (2 : ℚ) ^ e ≤ |x|)
    (hhi : |x| < (2 : ℚ) ^ (e + 1)) (he : -1022 ≤ e)
    (hk : |x / (2 : ℚ) ^ (e - 52) - k| < 1 / 2) :
    roundDouble x = k * (2 : ℚ) ^ (e - 52) := by
  unfold roundDouble ulp
  rw [doubleExponent_eq hlo hhi he, roundHalfEven_eq_of_near hk]

theorem roundDouble_zero : roundDouble 0 = 0 := by
  unfold roundDouble roundHalfEven
  simp

/-- A double below 1 is at most `1 - 2 ^ (-53)`. -/
theorem double_lt_one_le {r : ℚ} (hd : IsDouble r) (h0 : 0 ≤ r) (h1 : r < 1) :
    r ≤ 1 - 1 / 2 ^ 53 := by
  by_cases hhalf : r < 1 / 2
  · have : (1 : ℚ) / 2 ^ 53 ≤ 1 / 2 := by norm_num
    linarith
  · have habs : |r| = r := abs_of_nonneg h0
    have hexp : doubleExponent r = -1 :=
      doubleExponent_eq (by rw [habs]; norm_num; linarith) (by rw [habs]; norm_num; linarith)
        (by norm_num)
    have hu : ulp r = 1 / 2 ^ 53 := by
      unfold ulp; rw [hexp]; norm_num
    unfold IsDouble roundDouble at hd
    rw [hu] at hd
    generalize roundHalfEven (r / (1 / 2 ^ 53)) = k at hd
    have hp : (0 : ℚ) < 2 ^ 53 := by positivity
    have hklt : (k : ℚ) < 2 ^ 53 := by
      have : (k : ℚ) * (1 / 2 ^ 53) < 1 := by rw [hd]; exact h1
      rw [mul_one_div, div_lt_one hp] at this
      exact this
    have hkle : k ≤ 2 ^ 53 - 1 := by
      have : k < 2 ^ 53 := by exact_mod_cast hklt
      omega
    have hkq : (k : ℚ) ≤ 2 ^ 53 - 1 := by exact_mod_cast hkle
    rw [← hd, mul_one_div, div_le_iff₀ hp]
    have : (1 - 1 / 2 ^ 53 : ℚ) * 2 ^ 53 = 2 ^ 53 - 1 := by field_simp
    rw [this]
    exact hkq

/-- The rounded product `r * 9000` of a draw `r` in `[0, 1 - 2 ^ (-53)]` lies
between 0 and the last double below 9000. -/
theorem roundDouble_product_bounds (r : ℚ) (h0 : 0 ≤ r) (h1 : r ≤ 1 - 1 / 2 ^ 53) :
    0 ≤ roundDouble (r * 9000) ∧ roundDouble (r * 9000) ≤ 9000 - 1 / 2 ^ 39 := by
  have hx0 : 0 ≤ r * 9000 := by positivity
  have hxhi : r * 9000 ≤ 9000 - 9000 / 2 ^ 53 := by linarith
  have habs : |r * 9000| = r * 9000 := abs_of_nonneg hx0
  have hlt14 : |r * 9000| < (2 : ℚ) ^ (14 : ℤ) := by
    rw [habs]
    have : (9000 : ℚ) - 9000 / 2 ^ 53 < (2 : ℚ) ^ (14 : ℤ) := by norm_num
    linarith
  constructor
  · obtain ⟨k, hk⟩ := grid_of_lt hlt14 0
    exact le_roundDouble_of_grid (k := k) (by rw [← hk]; simp) hx0
  · by_cases hA : r * 9000 ≤ 9000 - 1 / 2 ^ 39
    · obtain ⟨k, hk⟩ := grid_of_lt hlt14 (9000 * 2 ^ 39 - 1)
      refine roundDouble_le_of_grid (k := k) ?_ hA
      rw [← hk]
      norm_num
    · have hA' : 9000 - 1 / 2 ^ 39 < r * 9000 := not_le.mp hA
      have hlo : (2 : ℚ) ^ (13 : ℤ) ≤ |r * 9000| := by
        rw [habs]
        have : (2 : ℚ) ^ (13 : ℤ) ≤ 9000 - 1 / 2 ^ 39 := by norm_num
        linarith
      have hnear : |r * 9000 / (2 : ℚ) ^ ((13 : ℤ) - 52) - ((9000 * 2 ^ 39 - 1 : ℤ) : ℚ)| < 1 / 2 := by
        have hz : (2 : ℚ) ^ ((13 : ℤ) - 52) = 1 / 2 ^ 39 := by norm_num
        rw [hz, abs_lt]
        push_cast
        have e1 : r * 9000 / (1 / 2 ^ 39) = r * 9000 * 2 ^ 39 := by field_simp
        rw [e1]
        constructor
        · nlinarith
        · nlinarith
      have := roundDouble_eq_of_near hlo (by simpa using hlt14) (by norm_num) hnear
      rw [this]
      norm_num

/-- `Math.floor(1000 + Math.random() * 9000)` is between 1000 and 9999 for
every double draw in `[0, 1)`. -/
theorem randomSuffix_bounds (r : ℚ) (hd : IsDouble r) (h0 : 0 ≤ r) (h1 : r < 1) :
    1000 ≤ randomSuffix r ∧ randomSuffix r ≤ 9999 := by
  unfold randomSuffix
  obtain ⟨hp0, hp1⟩ := roundDouble_product_bounds r h0 (double_lt_one_le hd h0 h1)
  generalize roundDouble (r * 9000) = p at hp0 hp1
  have hs0 : (0 : ℚ) ≤ 1000 + p := by linarith
  have habs : |1000 + p| = 1000 + p := abs_of_nonneg hs0
  have hlt14 : |1000 + p| < (2 : ℚ) ^ (14 : ℤ) := by
    rw [habs]
    have : (10000 : ℚ) < (2 : ℚ) ^ (14 : ℤ) := by norm_num
    have : (0 : ℚ) < 1 / 2 ^ 39 := by positivity
    linarith
  have hlo : (1000 : ℚ) ≤ roundDouble (1000 + p) := by
    obtain ⟨k, hk⟩ := grid_of_lt hlt14 (1000 * 2 ^ 39)
    refine le_roundDouble_of_grid (k := k) ?_ (by linarith)
    rw [← hk]
    norm_num
  have hhi : roundDouble (1000 + p) ≤ 10000 - 1 / 2 ^ 39 := by
    obtain ⟨k, hk⟩ := grid_of_lt hlt14 (10000 * 2 ^ 39 - 1)
    refine roundDouble_le_of_grid (k := k) ?_ (by linarith)
    rw [← hk]
    norm_num
  generalize roundDouble (1000 + p) = s at hlo hhi
  have hfl0 : (1000 : ℤ) ≤ ⌊s⌋ := Int.le_floor.mpr (by exact_mod_cast hlo)
  have hfl1 : ⌊s⌋ < (10000 : ℤ) := by
    apply Int.floor_lt.mpr
    have : (0 : ℚ) < 1 / 2 ^ 39 := by positivity
    push_cast
    linarith
  omega

theorem roundDouble_eq_of_near_nonneg {x : ℚ} {e k : ℤ} (hlo : (2 : ℚ) ^ e ≤ x)
    (hhi : x < (2 : ℚ) ^ (e + 1)) (he : -1022 ≤ e)
    (hk : |x / (2 : ℚ) ^ (e - 52) - k| < 1 / 2) :
    roundDouble x = k * (2 : ℚ) ^ (e - 52) := by
  have hpos : 0 ≤ x := le_trans (by positivity) hlo
  have habs : |x| = x := abs_of_nonneg hpos
  exact roundDouble_eq_of_near (by rw [habs]; exact hlo) (by rw [habs]; exact hhi) he hk

theorem roundDouble_1000 : roundDouble 1000 = 1000 := by
  have h := @roundDouble_eq_of_near_nonneg 1000 9 (1000 * 2 ^ 43) (by norm_num) (by norm_num)
    (by norm_num) (by norm_num)
  rw [h]
  norm_num

theorem randomSuffix_zero : randomSuffix 0 = 1000 := by
  unfold randomSuffix
  rw [zero_mul, roundDouble_zero, add_zero, roundDouble_1000]
  norm_num
  rfl

theorem randomSuffix_half : randomSuffix (1 / 2) = 5500 := by
  have hp : roundDouble (1 / 2 * 9000) = 4500 := by
    have h := @roundDouble_eq_of_near_nonneg (1 / 2 * 9000) 12 (4500 * 2 ^ 40) (by norm_num)
      (by norm_num) (by norm_num) (by norm_num)
    rw [h]
    norm_num
  have hs : roundDouble (1000 + 4500) = 5500 := by
    have h := @roundDouble_eq_of_near_nonneg (1000 + 4500) 12 (5500 * 2 ^ 40) (by norm_num)
      (by norm_num) (by norm_num) (by norm_num)
    rw [h]
    norm_num
  unfold randomSuffix
  rw [hp, hs]
  norm_num
  rfl

theorem isDouble_half : IsDouble (1 / 2) := by
  unfold IsDouble
  have h := @roundDouble_eq_of_near_nonneg (1 / 2) (-1) (2 ^ 52) (by norm_num) (by norm_num)
    (by norm_num) (by norm_num)
  rw [h]
  norm_num

theorem isDouble_zero : IsDouble 0 := roundDouble_zero

/-- The draw `25019997929836 / 2 ^ 53`: its product with 9000 is exact, the sum
with 1000 rounds up to 1025. -/
theorem randomSuffix_rounds_up :
    IsDouble (25019997929836 / 2 ^ 53) ∧
    randomSuffix (25019997929836 / 2 ^ 53) = 1025 ∧
    (⌊(1000 : ℚ) + 9000 * (25019997929836 / 2 ^ 53)⌋).toNat = 1024 := by
  refine ⟨?_, ?_, ?_⟩
  · unfold IsDouble
    have h := @roundDouble_eq_of_near_nonneg (25019997929836 / 2 ^ 53) (-9) (25019997929836 * 2 ^ 8)
      (by norm_num) (by norm_num) (by norm_num) (by norm_num)
    rw [h]
    norm_num
  · have hp : roundDouble (25019997929836 / 2 ^ 53 * 9000) = 7036874417766375 / 2 ^ 48 := by
      have h := @roundDouble_eq_of_near_nonneg (25019997929836 / 2 ^ 53 * 9000) 4 7036874417766375
        (by norm_num) (by norm_num) (by norm_num) (by norm_num)
      rw [h]
      norm_num
    have hs : roundDouble (1000 + 7036874417766375 / 2 ^ 48) = 1025 := by
      have h := @roundDouble_eq_of_near_nonneg (1000 + 7036874417766375 / 2 ^ 48) 10 (1025 * 2 ^ 42)
        (by norm_num) (by norm_num) (by norm_num) (by norm_num [abs_lt])
      rw [h]
      norm_num
    unfold randomSuffix
    rw [hp, hs]
    norm_num
    rfl
  · have : ⌊(1000 : ℚ) + 9000 * (25019997929836 / 2 ^ 53)⌋ = 1024 := by
      rw [Int.floor_eq_iff]
      constructor <;> norm_num
    rw [this]
    rfl

/-! ## Upper-casing the head of a name -/

theorem lookup_some_mem {β : Type} (l : List (Nat × β)) (k : Nat) (v : β)
    (h : l.lookup k = some v) : (k, v) ∈ l := by
  induction l with
  | nil => simp [List.lookup] at h
  | cons a t ih =>
    obtain ⟨a1, a2⟩ := a
    by_cases hk : k = a1
    · subst hk
      simp [List.lookup] at h
      subst h
      simp
    · have hk' : (k == a1) = false := by simpa using hk
      simp only [List.lookup, hk'] at h
      exact List.mem_cons_of_mem _ (ih h)

set_option maxRecDepth 100000 in
theorem upperSpecial_entries :
    ∀ e ∈ upperSpecial, 2 ≤ e.2.length ∧ e.1 < 0xD800 ∨ 0xDFFF < e.1 ∧ e.1 < 0x10000 ∧ 2 ≤ e.2.length := by
  decide

set_option maxRecDepth 100000 in
theorem upperSpecial_values : ∀ e ∈ upperSpecial, ∀ c ∈ e.2, c < 0x10000 := by
  decide

set_option maxRecDepth 100000 in
theorem upperRuns_planes :
    ∀ e ∈ upperRuns,
      (e.2.1 < 0x10000 → e.2.2.2 + (e.2.1 - e.1) < 0x10000) ∧
      (0x10000 ≤ e.2.1 → 0x10000 ≤ e.1 ∧ 0x10000 ≤ e.2.2.2) := by
  decide

theorem simpleCase_upper_plane (cp : Nat) :
    (cp < 0x10000 → simpleCase upperRuns cp < 0x10000) ∧
    (0x10000 ≤ cp → 0x10000 ≤ simpleCase upperRuns cp) := by
  unfold simpleCase
  split
  · rename_i e hf
    have hmem := List.mem_of_find?_eq_some hf
    have hp := List.find?_some hf
    simp only [Bool.and_eq_true, decide_eq_true_eq] at hp
    obtain ⟨⟨h1, h2⟩, _⟩ := hp
    obtain ⟨ha, hb⟩ := upperRuns_planes e hmem
    constructor
    · intro hcp
      by_cases hl : e.2.1 < 0x10000
      · have := ha hl
        omega
      · have := (hb (by omega)).1
        omega
    · intro hcp
      have := hb (by omega)
      omega
  · exact ⟨fun h => h, fun h => h⟩

theorem codeUnits_append (l1 l2 : List Nat) :
    codeUnits (l1 ++ l2) = codeUnits l1 ++ codeUnits l2 := by
  unfold codeUnits
  induction l1 with
  | nil => rfl
  | cons a t ih => simp [List.foldr, ih]

theorem codeUnits_length_bmp (l : List Nat) (h : ∀ c ∈ l, c < 0x10000) :
    (codeUnits l).length = l.length := by
  unfold codeUnits
  induction l with
  | nil => rfl
  | cons a t ih =>
    have ha : a < 0x10000 := h a (by simp)
    have := ih (fun c hc => h c (List.mem_cons_of_mem _ hc))
    have he : encodeCodePoint a = [a] := by simp [encodeCodePoint, ha]
    simp only [List.foldr, he, List.length_append, List.length_cons, List.length_nil, this]
    omega

/-- The number of code units the upper case of a code point takes. -/
theorem upper_units (cp : Nat) :
    (cp < 0x10000 → upperSpecial.lookup cp = none →
      (codeUnits (fullCase upperSpecial upperRuns cp)).length = 1) ∧
    (cp < 0x10000 → upperSpecial.lookup cp ≠ none →
      2 ≤ (codeUnits (fullCase upperSpecial upperRuns cp)).length) ∧
    (0x10000 ≤ cp → upperSpecial.lookup cp = none ∧
      (codeUnits (fullCase upperSpecial upperRuns cp)).length = 2) := by
  refine ⟨?_, ?_, ?_⟩
  · intro hcp hn
    unfold fullCase
    rw [hn]
    have := (simpleCase_upper_plane cp).1 hcp
    simp [codeUnits, encodeCodePoint, this]
  · intro _ hs
    obtain ⟨m, hm⟩ := Option.ne_none_iff_exists'.mp hs
    unfold fullCase
    rw [hm]
    have hmem := lookup_some_mem _ _ _ hm
    rw [codeUnits_length_bmp m (upperSpecial_values _ hmem)]
    rcases upperSpecial_entries _ hmem with h | h
    · exact h.1
    · exact h.2.2
  · intro hcp
    have hn : upperSpecial.lookup cp = none := by
      cases hl : upperSpecial.lookup cp with
      | none => rfl
      | some m =>
        have hmem := lookup_some_mem _ _ _ hl
        rcases upperSpecial_entries _ hmem with h | h
        · have := h.2; simp only at this; omega
        · have := h.2.1; simp only at this; omega
    refine ⟨hn, ?_⟩
    unfold fullCase
    rw [hn]
    have := (simpleCase_upper_plane cp).2 hcp
    have hnot : ¬ simpleCase upperRuns cp < 0x10000 := by omega
    simp [codeUnits, encodeCodePoint, hnot]

theorem surrogate_not_special (u : Nat) (h1 : 0xD800 ≤ u) (h2 : u ≤ 0xDFFF) :
    upperSpecial.lookup u = none := by
  cases hl : upperSpecial.lookup u with
  | none => rfl
  | some m =>
    have hmem := lookup_some_mem _ _ _ hl
    rcases upperSpecial_entries _ hmem with h | h
    · have := h.2; simp only at this; omega
    · have := h.1; simp only at this; omega

theorem foldr_two (f : Nat → List Nat) (a b : Nat) :
    List.foldr (fun cp acc => f cp ++ acc) [] [a, b] = f a ++ f b := by
  simp [List.foldr]

theorem foldr_one (f : Nat → List Nat) (a : Nat) :
    List.foldr (fun cp acc => f cp ++ acc) [] [a] = f a := by
  simp [List.foldr]

theorem codePoints_pair (a b : Nat) :
    codePoints [a, b] =
      if 0xD800 ≤ a ∧ a ≤ 0xDBFF ∧ 0xDC00 ≤ b ∧ b ≤ 0xDFFF then
        [0x10000 + (a - 0xD800) * 0x400 + (b - 0xDC00)]
      else [a, b] := by
  unfold codePoints
  split
  · rfl
  · unfold codePoints; rfl

theorem toUpperCase_eq (s : JSString) :
    toUpperCase s =
      codeUnits ((codePoints s).foldr (fun cp acc => fullCase upperSpecial upperRuns cp ++ acc) []) := by
  unfold toUpperCase
  exact Eq.refl _

theorem toUpperCase_pair (a b : Nat) :
    (toUpperCase [a, b]).length =
      if 0xD800 ≤ a ∧ a ≤ 0xDBFF ∧ 0xDC00 ≤ b ∧ b ≤ 0xDFFF then
        (codeUnits (fullCase upperSpecial upperRuns
          (0x10000 + (a - 0xD800) * 0x400 + (b - 0xDC00)))).length
      else
        (codeUnits (fullCase upperSpecial upperRuns a)).length +
          (codeUnits (fullCase upperSpecial upperRuns b)).length := by
  rw [toUpperCase_eq, codePoints_pair]
  by_cases hc : 0xD800 ≤ a ∧ a ≤ 0xDBFF ∧ 0xDC00 ≤ b ∧ b ≤ 0xDFFF
  · rw [if_pos hc, if_pos hc, foldr_one]
  · rw [if_neg hc, if_neg hc, foldr_two, codeUnits_append, List.length_append]

/-- The length of the upper-cased first two code units of a name. -/
theorem toUpperCase_head_length (s : JSString) (hunits : ∀ u ∈ s, u < 0x10000)
    (hlen : 2 ≤ s.length) :
    2 ≤ (toUpperCase (substring0 2 s)).length ∧
    ((toUpperCase (substring0 2 s)).length = 2 ↔
      ∀ u ∈ s.take 2, upperSpecial.lookup u = none) := by
  match s, hlen with
  | a :: b :: t, _ =>
    have ha : a < 0x10000 := hunits a (by simp)
    have hb : b < 0x10000 := hunits b (by simp)
    have htake : substring0 2 (a :: b :: t) = [a, b] := rfl
    have hall : (∀ u ∈ (a :: b :: t).take 2, upperSpecial.lookup u = none) ↔
        (upperSpecial.lookup a = none ∧ upperSpecial.lookup b = none) := by
      simp
    rw [htake, hall, toUpperCase_pair]
    by_cases hpair : 0xD800 ≤ a ∧ a ≤ 0xDBFF ∧ 0xDC00 ≤ b ∧ b ≤ 0xDFFF
    · rw [if_pos hpair]
      have hu := (upper_units (0x10000 + (a - 0xD800) * 0x400 + (b - 0xDC00))).2.2 (by omega)
      have hsa := surrogate_not_special a hpair.1 (by omega)
      have hsb := surrogate_not_special b (by omega) hpair.2.2.2
      generalize (codeUnits (fullCase upperSpecial upperRuns
        (0x10000 + (a - 0xD800) * 0x400 + (b - 0xDC00)))).length = n at hu
      generalize upperSpecial.lookup a = la at hsa
      generalize upperSpecial.lookup b = lb at hsb
      subst hsa hsb
      have := hu.2
      subst this
      exact ⟨le_refl _, ⟨fun _ => ⟨rfl, rfl⟩, fun _ => rfl⟩⟩
    · rw [if_neg hpair]
      have hua := upper_units a
      have hub := upper_units b
      generalize (codeUnits (fullCase upperSpecial upperRuns a)).length = na at hua
      generalize (codeUnits (fullCase upperSpecial upperRuns b)).length = nb at hub
      generalize upperSpecial.lookup a = la at hua
      generalize upperSpecial.lookup b = lb at hub
      have h1a := hua.1 ha
      have h2a := hua.2.1 ha
      have h1b := hub.1 hb
      have h2b := hub.2.1 hb
      cases la with
      | none =>
        have ea := h1a rfl
        cases lb with
        | none =>
          have eb := h1b rfl
          exact ⟨by omega, ⟨fun _ => ⟨rfl, rfl⟩, fun _ => by omega⟩⟩
        | some vb =>
          have eb := h2b (by simp)
          exact ⟨by omega, ⟨fun h => by omega, fun h => absurd h.2 (by simp)⟩⟩
      | some va =>
        have ea := h2a (by simp)
        have eb : 1 ≤ nb := by
          cases lb with
          | none => have := h1b rfl; omega
          | some vb => have := h2b (by simp); omega
        exact ⟨by omega, ⟨fun h => by omega, fun h => absurd h.1 (by simp)⟩⟩

set_option maxRecDepth 100000 in
theorem fullCase_upper_basicLatin :
    ∀ cp < 128, fullCase upperSpecial upperRuns cp =
      [if 97 ≤ cp ∧ cp ≤ 122 then cp - 32 else cp] := by
  decide

/-- On Basic Latin the upper-cased head is the two code units with the letters
`a` to `z` raised. -/
theorem toUpperCase_ascii_pair (s : JSString) (hlen : 2 ≤ s.length)
    (hascii : ∀ u ∈ s.take 2, u < 128) :
    toUpperCase (substring0 2 s) =
      (s.take 2).map (fun u => if 97 ≤ u ∧ u ≤ 122 then u - 32 else u) := by
  match s, hlen with
  | a :: b :: t, _ =>
    have ha : a < 128 := hascii a (by simp)
    have hb : b < 128 := hascii b (by simp)
    have hcp : codePoints [a, b] = [a, b] := by
      have : ¬ (0xD800 ≤ a ∧ a ≤ 0xDBFF ∧ 0xDC00 ≤ b ∧ b ≤ 0xDFFF) := by omega
      simp [codePoints, this]
    simp only [substring0, List.take_succ_cons, List.take_zero, toUpperCase, hcp, List.foldr,
      fullCase_upper_basicLatin a ha, fullCase_upper_basicLatin b hb, List.map]
    have h1 : (if 97 ≤ a ∧ a ≤ 122 then a - 32 else a) < 0x10000 := by split <;> omega
    have h2 : (if 97 ≤ b ∧ b ≤ 122 then b - 32 else b) < 0x10000 := by split <;> omega
    simp [codeUnits, encodeCodePoint, h1, h2]

/-! ## The shape of a generated code -/

theorem decimal_four_digits (n : Nat) (hlo : 1000 ≤ n) (hhi : n ≤ 9999) :
    (decimal n).length = 4 ∧ ∀ c ∈ decimal n, 48 ≤ c ∧ c ≤ 57 := by
  unfold decimal
  constructor
  · rw [List.length_map, List.length_reverse, Nat.digits_len 10 n (by norm_num) (by omega)]
    have : Nat.log 10 n = 3 :=
      Nat.log_eq_of_pow_le_of_lt_pow (by norm_num; exact hlo) (by norm_num; omega)
    rw [this]
  · intro c hc
    obtain ⟨d, hd, rfl⟩ := List.mem_map.mp hc
    have := Nat.digits_lt_base (by norm_num : 1 < 10) (List.mem_reverse.mp hd)
    omega

/-- C10, counterexample. The two-unit name `ßa` yields the code `NX-SSA-1000-S`
(draw 0, type Sub): the upper-cased head of the name is three characters long.
For the double draw `25019997929836 / 2 ^ 53` the number in the code is 1025,
while `floor(1000 + 9000 r)` is 1024: the sum is rounded to a double before the
floor is taken. -/
theorem code_shape_counterexample :
    (utf16 "ßa").length = 2 ∧
    (toUpperCase (substring0 2 (utf16 "ßa"))).length = 3 ∧
    generateBranchCode (utf16 "ßa") (some sSub) 0 = some (utf16 "NX-SSA-1000-S") ∧
    IsDouble (25019997929836 / 2 ^ 53) ∧
    randomSuffix (25019997929836 / 2 ^ 53) = 1025 ∧
    (⌊(1000 : ℚ) + 9000 * (25019997929836 / 2 ^ 53)⌋).toNat = 1024 := by
  have hd : decimal 1000 = [49, 48, 48, 48] := by simp [decimal]
  refine ⟨by decide, by decide, ?_, randomSuffix_rounds_up⟩
  unfold generateBranchCode
  rw [randomSuffix_zero, hd]
  decide

/-- C10, amended. For every `branchName` of at least two code units, every
type and every double draw `r` in `[0, 1)`: a code is generated and it is
`NX-`, the first two code units upper-cased, `-`, a number printed in decimal,
`-`, and `M` when the type is `Main`, `S` when it is `Sub`. The upper-cased
head is at least two code units long, and exactly two if and only if neither of
the two code units has a special (longer) upper case; on Basic Latin it is the
two code units with `a` to `z` raised. The number is the floor of the double
sum of 1000 and the double product of `r` and 9000; it is between 1000 and 9999
and has four digits. -/
theorem generated_code_shape (branchName : JSString) (branchType : Option JSString) (r : ℚ)
    (hunits : ∀ u ∈ branchName, u < 0x10000) (hlen : 2 ≤ branchName.length)
    (hd : IsDouble r) (h0 : 0 ≤ r) (h1 : r < 1) :
    generateBranchCode branchName branchType r =
      some (utf16 "NX-" ++ toUpperCase (substring0 2 branchName) ++ utf16 "-" ++
        decimal (randomSuffix r) ++ utf16 "-" ++ typeCode branchType) ∧
    2 ≤ (toUpperCase (substring0 2 branchName)).length ∧
    ((toUpperCase (substring0 2 branchName)).length = 2 ↔
      ∀ u ∈ branchName.take 2, upperSpecial.lookup u = none) ∧
    ((∀ u ∈ branchName.take 2, u < 128) →
      toUpperCase (substring0 2 branchName) =
        (branchName.take 2).map (fun u => if 97 ≤ u ∧ u ≤ 122 then u - 32 else u)) ∧
    randomSuffix r = (⌊roundDouble (1000 + roundDouble (r * 9000))⌋).toNat ∧
    1000 ≤ randomSuffix r ∧ randomSuffix r ≤ 9999 ∧
    (decimal (randomSuffix r)).length = 4 ∧
    (∀ c ∈ decimal (randomSuffix r), 48 ≤ c ∧ c ≤ 57) ∧
    (branchType = some sMain → typeCode branchType = utf16 "M") ∧
    (branchType = some sSub → typeCode branchType = utf16 "S") := by
  have hb := randomSuffix_bounds r hd h0 h1
  have hdig := decimal_four_digits (randomSuffix r) hb.1 hb.2
  have hu := toUpperCase_head_length branchName hunits hlen
  refine ⟨?_, hu.1, hu.2, toUpperCase_ascii_pair branchName hlen, rfl, hb.1, hb.2, hdig.1,
    hdig.2, ?_, ?_⟩
  · unfold generateBranchCode
    rw [if_pos ⟨by omega, hlen⟩]
  · intro h
    rw [h]
    decide
  · intro h
    rw [h]
    decide

/-- Witness for C10: the spec's scenario, name `Westside Hub`, type Sub, with
the draw one half. -/
theorem generated_code_shape_witness :
    generateBranchCode (utf16 "Westside Hub") (some sSub) (1 / 2) =
      some (utf16 "NX-WE-5500-S") := by
  have hd : decimal 5500 = [53, 53, 48, 48] := by simp [decimal]
  have hw := (generated_code_shape (utf16 "Westside Hub") (some sSub) (1 / 2) (by decide)
    (by decide) isDouble_half (by norm_num) (by norm_num)).1
  rw [randomSuffix_half, hd] at hw
  rw [hw]
  decide

/-! ## The registry keeps what the theorems above assume of the store -/

theorem updateDoc_pointwise {P : Doc → Prop} {store store' : Store} {i : JSString}
    {patch : Fields} (h : updateDoc store i patch = some store') (hP : ∀ d ∈ store, P d)
    (hnew : ∀ d ∈ store, d.id = i → P { d with data := spread d.data patch }) :
    ∀ d ∈ store', P d := by
  rw [updateDoc_of_mem patch (updateDoc_some_mem h)] at h
  have h := Option.some.inj h
  subst h
  intro d hd
  obtain ⟨x, hx, rfl⟩ := List.mem_map.mp hd
  by_cases hxi : x.id = i
  · simp only [hxi, if_true]
    have := hnew x hx hxi
    rw [hxi] at this
    exact this
  · simp only [hxi, if_false]
    exact hP x hx

theorem onSubmit_store_cases (data : Fields) (newId : JSString) (now : Nat) (store : Store) :
    (onSubmit data newId now store).store = store ∨
      (onSubmit data newId now store).store =
        store ++ [⟨newId, spread data { status := some sActive, createdAt := some now }⟩] := by
  unfold onSubmit
  simp only
  split
  · left; rfl
  · split
    · rename_i store' h
      unfold addDoc at h
      split at h
      · exact absurd h (by simp)
      · right
        exact (Option.some.inj h).symm
    · left; rfl

theorem handleDelete_store_cases (confirm : String → Bool) (id type : Option JSString)
    (store : Store) :
    (handleDelete confirm id type store).store = store ∨
      ∃ i, id = some i ∧ (handleDelete confirm id type store).store = deleteDoc store i := by
  unfold handleDelete
  cases id with
  | none =>
    left
    simp only
    repeat' split
    all_goals rfl
  | some i =>
    simp only
    by_cases hc : confirm (if type = some sMain then deleteMainWarning else deleteWarning) = true
    · right
      exact ⟨i, rfl, by rw [if_pos hc]⟩
    · left
      rw [if_neg hc]

/-- Every handler, whatever its inputs, keeps every persisted status inside
the enumeration `Active`, `Inactive`. -/
theorem statusValid_preserved (op : Op) (store : Store) (hs : StatusValid store) :
    StatusValid (op.run store) := by
  cases op with
  | create data newId now =>
    show StatusValid (onSubmit data newId now store).store
    rcases onSubmit_store_cases data newId now store with h | h
    · rw [h]; exact hs
    · rw [h]
      intro d hd
      rcases List.mem_append.mp hd with hd | hd
      · exact hs d hd
      · simp only [List.mem_singleton] at hd
        subst hd
        left
        simp [spread, Option.orElse]
  | edit st =>
    show StatusValid (handleUpdate st store).store
    rcases handleUpdate_store_cases st store with h | ⟨e, _, hok, hu⟩
    · rw [h]; exact hs
    · have hst := ((editBranchSchemaErrors_nil_iff _).mp hok).2
      apply updateDoc_pointwise hu hs
      intro d hd _
      have hcs : (editBranchSchemaCast st.editFormData).status = st.editFormData.status := rfl
      simp only [spread, hcs]
      rcases hst with h | h | h
      · rw [h]; exact hs d hd
      · rw [h]; left; rfl
      · rw [h]; right; rfl
  | toggle confirm branch =>
    show StatusValid (toggleStatus confirm branch store).store
    rcases toggleStatus_store_cases confirm branch store with h | ⟨j, s, _, hs', hu⟩
    · rw [h]; exact hs
    · apply updateDoc_pointwise hu hs
      intro d _ _
      rw [spread_status]
      rcases hs' with h | h
      · left; rw [h]
      · right; rw [h]
  | delete confirm id type =>
    show StatusValid (handleDelete confirm id type store).store
    rcases handleDelete_store_cases confirm id type store with h | ⟨i, _, h⟩
    · rw [h]; exact hs
    · rw [h]
      exact fun d hd => hs d (List.mem_of_mem_filter hd)

/-- The handlers as the page calls them keep the ids consistent: a create
whose form has no `id` key, the edit flow and the toggle of a record of the
snapshot, and any delete. -/
theorem idConsistent_preserved (store : Store) (hc : IdConsistent store) :
    (∀ data newId now, data.id = none → IdConsistent (onSubmit data newId now store).store) ∧
    (∀ d ∈ store, ∀ changes st, IdConsistent (editFlow (toBranch d) changes st store).store) ∧
    (∀ confirm branch, IdConsistent (toggleStatus confirm branch store).store) ∧
    (∀ confirm id type, IdConsistent (handleDelete confirm id type store).store) := by
  refine ⟨?_, ?_, ?_, ?_⟩
  · intro data newId now hid
    rcases onSubmit_store_cases data newId now store with h | h
    · rw [h]; exact hc
    · rw [h]
      intro d hd
      rcases List.mem_append.mp hd with hd | hd
      · exact hc d hd
      · simp only [List.mem_singleton] at hd
        subst hd
        left
        simp [spread, Option.orElse, hid]
  · intro d hd changes st
    unfold editFlow
    obtain ⟨h1, h2, _⟩ := foldl_apply_frame changes (handleEditClick (toBranch d) st)
    rcases handleUpdate_store_cases
        (changes.foldl FormChange.apply (handleEditClick (toBranch d) st)) store
      with h | ⟨e, he, _, hu⟩
    · rw [h]; exact hc
    · have hbid := toBranch_id_of_consistent hc hd
      rw [h1] at he
      have hed : e = d.id := by
        have : (handleEditClick (toBranch d) st).editingBranch = some d.id := hbid
        rw [this] at he
        exact (Option.some.inj he).symm
      subst hed
      have hcid : (editBranchSchemaCast
          (changes.foldl FormChange.apply (handleEditClick (toBranch d) st)).editFormData).id =
          some d.id := by
        show (changes.foldl FormChange.apply (handleEditClick (toBranch d) st)).editFormData.id = _
        rw [h2]; exact hbid
      generalize editBranchSchemaCast
        (changes.foldl FormChange.apply (handleEditClick (toBranch d) st)).editFormData = p
        at hcid hu
      apply updateDoc_pointwise hu hc
      intro x _ hx
      right
      simp [spread, hcid, Option.orElse, hx]
  · intro confirm branch
    rcases toggleStatus_store_cases confirm branch store with h | ⟨j, s, _, _, hu⟩
    · rw [h]; exact hc
    · apply updateDoc_pointwise hu hc
      intro x hx _
      rw [spread_status]
      exact hc x hx
  · intro confirm id type
    rcases handleDelete_store_cases confirm id type store with h | ⟨i, _, h⟩
    · rw [h]; exact hc
    · rw [h]
      exact fun d hd => hc d (List.mem_of_mem_filter hd)

/-! ## The code generator on short names -/

theorem generateBranchCode_fallback (branchType : Option JSString) (r : ℚ) :
    generateBranchCode (utf16 "New Branch") branchType r =
      some (utf16 "NX-NE-" ++ decimal (randomSuffix r) ++ utf16 "-" ++ typeCode branchType) := by
  unfold generateBranchCode
  rw [if_pos (by decide)]
  have : toUpperCase (substring0 2 (utf16 "New Branch")) = utf16 "NE" := by decide
  rw [this]
  have h2 : utf16 "NX-" ++ utf16 "NE" ++ utf16 "-" = utf16 "NX-NE-" := by decide
  rw [h2]

/-- C11, counterexample. On the fresh form (no name entered, type Sub, empty
code) one run of the effect with the draw 0 sets `branchCode` to
`NX-NE-1000-S`, and the same with the empty string as name; on a form whose
one-unit name `W` follows an earlier longer name the code generated before
stays in the field. -/
theorem short_name_code_counterexample :
    (autoGenerate defaultValues 0).branchCode = some (utf16 "NX-NE-1000-S") ∧
    (autoGenerate { defaultValues with branchName := some [] } 0).branchCode =
      some (utf16 "NX-NE-1000-S") ∧
    (autoGenerate
      { defaultValues with
        branchName := some (utf16 "W"), branchCode := some (utf16 "NX-WE-5500-S") } 0).branchCode =
      some (utf16 "NX-WE-5500-S") := by
  have h : randomSuffix 0 = 1000 := randomSuffix_zero
  have hd : decimal 1000 = [49, 48, 48, 48] := by simp [decimal]
  refine ⟨?_, ?_, by decide⟩
  · unfold autoGenerate
    have hw : watchedBranchName defaultValues.branchName = utf16 "New Branch" := by decide
    rw [hw, generateBranchCode_fallback, h, hd]
    decide
  · unfold autoGenerate
    have hw : watchedBranchName ({ defaultValues with branchName := some [] } : Fields).branchName
        = utf16 "New Branch" := by decide
    rw [hw, generateBranchCode_fallback, h, hd]
    decide

/-- C11, amended. For every name of exactly one code unit entered in the create
form, whatever the other values and the draw, the generator produces no code
and the effect leaves the form values, `branchCode` included, as they were. -/
theorem one_unit_name_no_code (u : Nat) (values : Fields) (r : ℚ) :
    generateBranchCode (watchedBranchName (some [u])) values.type r = none ∧
    autoGenerate { values with branchName := some [u] } r =
      { values with branchName := some [u] } := by
  have hg : ∀ t, generateBranchCode (watchedBranchName (some [u])) t r = none := by
    intro t
    simp [generateBranchCode, watchedBranchName]
  refine ⟨hg _, ?_⟩
  unfold autoGenerate
  simp only [hg]

/-! ## Create -/

/-- C12. For every candidate that passes the guard (type `Sub`, or type `Main`
with no Main document in the collection) and every key the store assigns that
is not yet in the collection, `onSubmit` appends exactly one document: its
`branchName`, `branchCode`, `address` and `type` are the candidate's, its status
is `Active`, its `createdAt` the server time; the existing documents are as
they were. A valid form reaches `onSubmit` with its cast values. -/
theorem create_postcondition (data : Fields) (newId : JSString) (now : Nat) (store : Store)
    (hfresh : newId ∉ store.map Doc.id)
    (hguard : data.type = some sSub ∨ (data.type = some sMain ∧ mainCount store = 0)) :
    (∃ created : Fields,
      (onSubmit data newId now store).store = store ++ [⟨newId, created⟩] ∧
      Effect.addDoc created ∈ (onSubmit data newId now store).log ∧
      created.branchName = data.branchName ∧ created.branchCode = data.branchCode ∧
      created.address = data.address ∧ created.type = data.type ∧
      created.status = some sActive ∧ created.createdAt = some now) ∧
    (∀ values : Fields, branchSchema values = .ok data →
      handleSubmit values newId now store = onSubmit data newId now store) := by
  have hnot : ¬ ((data.type == some sMain && !(getDocsMain store).isEmpty) = true) := by
    rcases hguard with h | ⟨_, h0⟩
    · have : sSub ≠ sMain := by decide
      simp [h, this]
    · have : getDocsMain store = [] := List.length_eq_zero.mp h0
      simp [this]
  have hadd : addDoc store newId (spread data { status := some sActive, createdAt := some now }) =
      some (store ++ [⟨newId, spread data { status := some sActive, createdAt := some now }⟩]) := by
    unfold addDoc
    rw [if_neg hfresh]
  refine ⟨⟨spread data { status := some sActive, createdAt := some now }, ?_, ?_, ?_⟩, ?_⟩
  · unfold onSubmit
    simp only [if_neg hnot, hadd]
  · unfold onSubmit
    simp only [if_neg hnot, hadd]
    simp
  · cases hn : data.branchName <;> cases hc : data.branchCode <;> cases ha : data.address <;>
      cases ht : data.type <;> simp [spread, Option.orElse, hn, hc, ha, ht]
  · intro values hv
    unfold handleSubmit
    rw [hv]

/-- Witness for C12: the spec's scenario, the Westside Hub form submitted next
to the Main sample document. -/
theorem create_postcondition_witness :
    ∃ created : Fields,
      (onSubmit
        { branchName := some (utf16 "Westside Hub")
          branchCode := some (utf16 "NX-WE-5500-S")
          address := some (utf16 "12 Long Avenue, District 4")
          type := some sSub } (utf16 "west") 2 [hqDoc]).store = [hqDoc] ++ [⟨utf16 "west", created⟩] ∧
      Effect.addDoc created ∈
        (onSubmit
          { branchName := some (utf16 "Westside Hub")
            branchCode := some (utf16 "NX-WE-5500-S")
            address := some (utf16 "12 Long Avenue, District 4")
            type := some sSub } (utf16 "west") 2 [hqDoc]).log ∧
      created.branchName = some (utf16 "Westside Hub") ∧
      created.branchCode = some (utf16 "NX-WE-5500-S") ∧
      created.address = some (utf16 "12 Long Avenue, District 4") ∧
      created.type = some sSub ∧
      created.status = some sActive ∧ created.createdAt = some 2 :=
  (create_postcondition
    { branchName := some (utf16 "Westside Hub")
      branchCode := some (utf16 "NX-WE-5500-S")
      address := some (utf16 "12 Long Avenue, District 4")
      type := some sSub } (utf16 "west") 2 [hqDoc] (by decide) (Or.inl rfl)).1

/-! ## Lower-casing Basic Latin -/

theorem codePoints_basicLatin (s : JSString) (h : BasicLatin s) : codePoints s = s := by
  induction s with
  | nil => rfl
  | cons a t ih =>
    have ha : a < 128 := h a (by simp)
    have ht : BasicLatin t := fun u hu => h u (List.mem_cons_of_mem _ hu)
    cases t with
    | nil => rfl
    | cons b t' =>
      have hne : ¬ (0xD800 ≤ a ∧ a ≤ 0xDBFF ∧ 0xDC00 ≤ b ∧ b ≤ 0xDFFF) := by omega
      unfold codePoints
      rw [if_neg hne, ih ht]

set_option maxRecDepth 100000 in
theorem fullCase_lower_basicLatin :
    ∀ cp < 128, fullCase lowerSpecial lowerRuns cp =
      [if 65 ≤ cp ∧ cp ≤ 90 then cp + 32 else cp] := by
  decide

theorem lowerCodePoints_basicLatin (before s : List Nat) (h : BasicLatin s) :
    lowerCodePoints before s = s.map (fun u => if 65 ≤ u ∧ u ≤ 90 then u + 32 else u) := by
  induction s generalizing before with
  | nil => rfl
  | cons a t ih =>
    have ha : a < 128 := h a (by simp)
    have ht : BasicLatin t := fun u hu => h u (List.mem_cons_of_mem _ hu)
    unfold lowerCodePoints
    rw [if_neg (by omega), fullCase_lower_basicLatin a ha, ih (a :: before) ht]
    rfl

theorem codeUnits_bmp (l : List Nat) (h : ∀ c ∈ l, c < 0x10000) : codeUnits l = l := by
  unfold codeUnits
  induction l with
  | nil => rfl
  | cons a t ih =>
    have ha : a < 0x10000 := h a (by simp)
    have he : encodeCodePoint a = [a] := by simp [encodeCodePoint, ha]
    simp only [List.foldr, he, ih (fun c hc => h c (List.mem_cons_of_mem _ hc))]
    rfl

/-- On Basic Latin `toLowerCase` lowers the letters `A` to `Z` one by one. -/
theorem toLowerCase_basicLatin (s : JSString) (h : BasicLatin s) :
    toLowerCase s = s.map (fun u => if 65 ≤ u ∧ u ≤ 90 then u + 32 else u) := by
  unfold toLowerCase
  rw [codePoints_basicLatin s h, lowerCodePoints_basicLatin [] s h]
  apply codeUnits_bmp
  intro c hc
  obtain ⟨u, hu, rfl⟩ := List.mem_map.mp hc
  have := h u hu
  split <;> omega

theorem toLowerCase_nil : toLowerCase [] = [] := rfl

theorem sameLetter_iff (a b : Nat) :
    (if 65 ≤ a ∧ a ≤ 90 then a + 32 else a) = (if 65 ≤ b ∧ b ≤ 90 then b + 32 else b) ↔
      sameLetter a b := by
  unfold sameLetter
  split <;> split <;> omega

theorem map_eq_map_iff_forall₂ (f : Nat → Nat) (w t : List Nat) :
    w.map f = t.map f ↔ List.Forall₂ (fun a b => f a = f b) w t := by
  induction w generalizing t with
  | nil => cases t <;> simp
  | cons a w ih =>
    cases t with
    | nil => simp
    | cons b t => simp [ih]

theorem infix_map_iff (f : Nat → Nat) (t s : List Nat) :
    t <:+: s.map f ↔ ∃ w, w <:+: s ∧ w.map f = t := by
  constructor
  · rintro ⟨l1, l2, h⟩
    obtain ⟨s1, s2, hs, h1, h2⟩ := List.map_eq_append_iff.mp h.symm
    obtain ⟨s3, s4, hs', h3, h4⟩ := List.map_eq_append_iff.mp h1
    exact ⟨s4, ⟨s3, s2, by rw [hs, hs']⟩, h4⟩
  · rintro ⟨w, hw, rfl⟩
    exact List.IsInfix.map f hw

/-- On Basic Latin the comparison of the two lower-cased strings is containment
up to letter case. -/
theorem lowered_infix_iff (field term : JSString) (hf : BasicLatin field) (ht : BasicLatin term) :
    toLowerCase term <:+: toLowerCase field ↔ ContainsIgnoringCase field term := by
  rw [toLowerCase_basicLatin field hf, toLowerCase_basicLatin term ht, infix_map_iff]
  unfold ContainsIgnoringCase
  constructor
  · rintro ⟨w, hw, hmap⟩
    refine ⟨w, hw, ?_⟩
    exact ((map_eq_map_iff_forall₂ _ w term).mp hmap).imp fun a b h => (sameLetter_iff a b).mp h
  · rintro ⟨w, hw, hall⟩
    refine ⟨w, hw, ?_⟩
    exact (map_eq_map_iff_forall₂ _ w term).mpr
      (hall.imp fun a b h => (sameLetter_iff a b).mpr h)

/-! ## The filtered view -/

theorem includes_iff_infix (s t : JSString) : includes s t = true ↔ t <:+: s := by
  unfold includes
  rw [List.any_eq_true]
  constructor
  · rintro ⟨u, hu, hp⟩
    have hsuf : u <:+ s := (List.mem_tails u s).mp hu
    have hpre : t <+: u := List.isPrefixOf_iff_prefix.mp hp
    exact List.infix_iff_prefix_suffix.mpr ⟨u, hpre, hsuf⟩
  · intro h
    obtain ⟨u, hpre, hsuf⟩ := List.infix_iff_prefix_suffix.mp h
    exact ⟨u, (List.mem_tails u s).mpr hsuf, List.isPrefixOf_iff_prefix.mpr hpre⟩

theorem includesLowered_true_iff (field : Option JSString) (searchTerm : JSString) :
    includesLowered field searchTerm = some true ↔
      ∃ s, field = some s ∧ toLowerCase searchTerm <:+: toLowerCase s := by
  cases field with
  | none => simp [includesLowered]
  | some s => simp [includesLowered, includes_iff_infix]

theorem truthy_orElseFalsy (a b : Option Bool) :
    truthy (orElseFalsy a b) = true ↔ a = some true ∨ b = some true := by
  cases a with
  | none => cases b with
    | none => simp [truthy, orElseFalsy]
    | some y => cases y <;> simp [truthy, orElseFalsy]
  | some x =>
    cases x with
    | true => simp [truthy, orElseFalsy]
    | false => cases b with
      | none => simp [truthy, orElseFalsy]
      | some y => cases y <;> simp [truthy, orElseFalsy]

theorem matchesFilter_iff (searchTerm selectedType : JSString) (b : Fields) :
    matchesFilter searchTerm selectedType b = true ↔ Qualifies searchTerm selectedType b := by
  unfold matchesFilter Qualifies
  simp only [Bool.and_eq_true, Bool.or_eq_true, truthy_orElseFalsy, includesLowered_true_iff,
    beq_iff_eq]

theorem matchesFilter_empty_all (b : Fields)
    (h : b.branchName ≠ none ∨ b.branchCode ≠ none) :
    matchesFilter [] (utf16 "All") b = true := by
  rw [matchesFilter_iff]
  refine ⟨?_, Or.inl rfl⟩
  have hnil : ∀ s : JSString, toLowerCase [] <:+: toLowerCase s := by
    intro s
    rw [toLowerCase_nil]
    exact List.nil_infix
  rcases h with h | h
  · obtain ⟨name, hn⟩ := Option.ne_none_iff_exists'.mp h
    exact Or.inl ⟨name, hn, hnil name⟩
  · obtain ⟨code, hc⟩ := Option.ne_none_iff_exists'.mp h
    exact Or.inr ⟨code, hc, hnil code⟩

theorem qualifies_basicLatin_iff (searchTerm selectedType : JSString) (b : Fields)
    (hb : BasicLatinRecord b) (ht : BasicLatin searchTerm) :
    Qualifies searchTerm selectedType b ↔ QualifiesIgnoringCase searchTerm selectedType b := by
  unfold Qualifies QualifiesIgnoringCase
  have hn : ∀ name, b.branchName = some name →
      (toLowerCase searchTerm <:+: toLowerCase name ↔ ContainsIgnoringCase name searchTerm) :=
    fun name h => lowered_infix_iff name searchTerm (hb.1 name h) ht
  have hc : ∀ code, b.branchCode = some code →
      (toLowerCase searchTerm <:+: toLowerCase code ↔ ContainsIgnoringCase code searchTerm) :=
    fun code h => lowered_infix_iff code searchTerm (hb.2 code h) ht
  constructor
  · rintro ⟨h, htype⟩
    refine ⟨?_, htype⟩
    rcases h with ⟨name, h1, h2⟩ | ⟨code, h1, h2⟩
    · exact Or.inl ⟨name, h1, (hn name h1).mp h2⟩
    · exact Or.inr ⟨code, h1, (hc code h1).mp h2⟩
  · rintro ⟨h, htype⟩
    refine ⟨?_, htype⟩
    rcases h with ⟨name, h1, h2⟩ | ⟨code, h1, h2⟩
    · exact Or.inl ⟨name, h1, (hn name h1).mpr h2⟩
    · exact Or.inr ⟨code, h1, (hc code h1).mpr h2⟩

/-- C13. For every record set, search term and type filter, `filteredBranches`
is the record set filtered, in its order, by a test that a record passes
exactly when its `branchName` or `branchCode` contains the search term as a
substring with both lower-cased, and its type equals the type filter or the
filter is `All`. With the empty search term and the filter `All` every record
that has a name or a code is kept, so a record set of such records is returned
whole. On Basic Latin names, codes and search terms the comparison of the
lower-cased strings is containment of the term letter by letter, the case of
each letter set aside. -/
theorem filtered_view (branches : List Fields) (searchTerm selectedType : JSString) :
    (∃ keep : Fields → Bool,
      (∀ b, keep b = true ↔ Qualifies searchTerm selectedType b) ∧
      filteredBranches branches searchTerm selectedType = branches.filter keep) ∧
    (filteredBranches branches searchTerm selectedType).Sublist branches ∧
    (∀ b, b ∈ filteredBranches branches searchTerm selectedType ↔
      b ∈ branches ∧ Qualifies searchTerm selectedType b) ∧
    ((∀ b ∈ branches, b.branchName ≠ none ∨ b.branchCode ≠ none) →
      filteredBranches branches [] (utf16 "All") = branches) ∧
    ((∀ b ∈ branches, BasicLatinRecord b) → BasicLatin searchTerm →
      ∀ b, b ∈ filteredBranches branches searchTerm selectedType ↔
        b ∈ branches ∧ QualifiesIgnoringCase searchTerm selectedType b) := by
  have hmem : ∀ b, b ∈ filteredBranches branches searchTerm selectedType ↔
      b ∈ branches ∧ Qualifies searchTerm selectedType b := by
    intro b
    unfold filteredBranches
    rw [List.mem_filter, matchesFilter_iff]
  refine ⟨⟨matchesFilter searchTerm selectedType, matchesFilter_iff _ _, rfl⟩,
    List.filter_sublist _, hmem, ?_, ?_⟩
  · intro h
    unfold filteredBranches
    exact List.filter_eq_self.mpr fun b hb => matchesFilter_empty_all b (h b hb)
  · intro hl ht b
    rw [hmem]
    constructor
    · rintro ⟨hb, hq⟩
      exact ⟨hb, (qualifies_basicLatin_iff _ _ b (hl b hb) ht).mp hq⟩
    · rintro ⟨hb, hq⟩
      exact ⟨hb, (qualifies_basicLatin_iff _ _ b (hl b hb) ht).mpr hq⟩

set_option maxRecDepth 100000 in
/-- Witness for C13: searching `do` in the snapshot of the three Basic Latin
sample documents keeps `Downtown Flagship` alone, which contains `do` up to
letter case; the empty search with the filter `All` returns the whole snapshot;
searching `école` finds `École Nord`. -/
theorem filtered_view_witness :
    filteredBranches (snapshotList [hqDoc, downtownDoc, westDoc]) (utf16 "do") (utf16 "All") =
      [toBranch downtownDoc] ∧
    Qualifies (utf16 "do") (utf16 "All") (toBranch downtownDoc) ∧
    QualifiesIgnoringCase (utf16 "do") (utf16 "All") (toBranch downtownDoc) ∧
    filteredBranches (snapshotList [hqDoc, downtownDoc, westDoc]) [] (utf16 "All") =
      snapshotList [hqDoc, downtownDoc, westDoc] ∧
    filteredBranches (snapshotList [hqDoc, ecoleDoc]) (utf16 "école") (utf16 "All") =
      [toBranch ecoleDoc] :=
  ⟨by decide,
   (((filtered_view (snapshotList [hqDoc, downtownDoc, westDoc]) (utf16 "do") (utf16 "All")).2.2.1
      (toBranch downtownDoc)).mp (by decide)).2,
   (((filtered_view (snapshotList [hqDoc, downtownDoc, westDoc]) (utf16 "do")
      (utf16 "All")).2.2.2.2 (by decide) (by decide) (toBranch downtownDoc)).mp (by decide)).2,
   (filtered_view (snapshotList [hqDoc, downtownDoc, westDoc]) (utf16 "do")
      (utf16 "All")).2.2.2.1 (by decide),
   by decide⟩

/-! ## Delete -/

theorem filter_key_ne_of_not_mem {store : Store} {i : JSString} (h : i ∉ store.map Doc.id) :
    store.filter (fun x => x.id != i) = store := by
  apply List.filter_eq_self.mpr
  intro x hx
  have : x.id ≠ i := fun e => h (e ▸ List.mem_map.mpr ⟨x, hx, rfl⟩)
  simpa using this

/-- Removing the document `d` of a keyed store lowers every count by one when
`d` is counted and by nothing otherwise. -/
theorem countP_filter_key (p : Doc → Bool) {store : Store} {d : Doc} (hk : KeysUnique store)
    (hd : d ∈ store) :
    store.countP p = (store.filter fun x => x.id != d.id).countP p + (if p d then 1 else 0) := by
  induction store with
  | nil => exact absurd hd (by simp)
  | cons x xs ih =>
    have hk' : x.id ∉ xs.map Doc.id ∧ KeysUnique xs := by
      unfold KeysUnique at hk ⊢
      rw [List.map_cons, List.nodup_cons] at hk
      exact hk
    rcases List.mem_cons.mp hd with hdx | hdxs
    · subst hdx
      have hself : (d.id != d.id) = false := by simp
      rw [List.filter_cons, hself, if_neg (by simp), filter_key_ne_of_not_mem hk'.1,
        List.countP_cons]
    · have hne : x.id ≠ d.id := by
        intro e
        exact hk'.1 (e ▸ List.mem_map.mpr ⟨d, hdxs, rfl⟩)
      have hkeep : (x.id != d.id) = true := by simpa using hne
      rw [List.filter_cons, hkeep, if_pos rfl, List.countP_cons, List.countP_cons,
        ih hk'.2 hdxs]
      omega

theorem length_filter_snapshot (q : Fields → Bool) (store : Store) :
    ((snapshotList store).filter q).length = store.countP (q ∘ toBranch) := by
  unfold snapshotList
  rw [← List.countP_eq_length_filter, List.countP_map]

theorem deleteClick_eq (confirm : String → Bool) (d : Doc) (store : Store)
    (hc : IdConsistent store) (hd : d ∈ store) :
    deleteClick confirm d store =
      if confirm (if d.data.type = some sMain then deleteMainWarning else deleteWarning) = true
      then
        ⟨deleteDoc store d.id,
          [.confirm (if d.data.type = some sMain then deleteMainWarning else deleteWarning),
            .deleteDoc d.id]⟩
      else
        ⟨store, [.confirm (if d.data.type = some sMain then deleteMainWarning else deleteWarning)]⟩ := by
  unfold deleteClick handleDelete
  rw [toBranch_id_of_consistent hc hd, toBranch_type]

/-- C14. For every document of a collection with unique keys and consistent
ids: after a confirmed delete from its row the collection is the old one without
that document, the next snapshot has no record with its id, every other
document is as it was, and the derived counts are lower by one in total and
for the deleted record's type and status, and otherwise the same; after a
declined confirmation the collection is as it was and nothing is written. -/
theorem delete_postcondition (confirm : String → Bool) (store : Store) (d : Doc)
    (hk : KeysUnique store) (hc : IdConsistent store) (hd : d ∈ store) :
    (confirm (if d.data.type = some sMain then deleteMainWarning else deleteWarning) = true →
      (deleteClick confirm d store).store = store.filter (fun x => x.id != d.id) ∧
      Effect.deleteDoc d.id ∈ (deleteClick confirm d store).log ∧
      (∀ b ∈ snapshotList (deleteClick confirm d store).store, b.id ≠ some d.id) ∧
      (∀ x ∈ store, x.id ≠ d.id → x ∈ (deleteClick confirm d store).store) ∧
      (stats (snapshotList store)).total =
        (stats (snapshotList (deleteClick confirm d store).store)).total + 1 ∧
      (stats (snapshotList store)).main =
        (stats (snapshotList (deleteClick confirm d store).store)).main +
          (if d.data.type = some sMain then 1 else 0) ∧
      (stats (snapshotList store)).sub =
        (stats (snapshotList (deleteClick confirm d store).store)).sub +
          (if d.data.type = some sSub then 1 else 0) ∧
      (stats (snapshotList store)).active =
        (stats (snapshotList (deleteClick confirm d store).store)).active +
          (if d.data.status = some sActive then 1 else 0) ∧
      (stats (snapshotList store)).inactive =
        (stats (snapshotList (deleteClick confirm d store).store)).inactive +
          (if d.data.status = some sInactive then 1 else 0)) ∧
    (confirm (if d.data.type = some sMain then deleteMainWarning else deleteWarning) = false →
      deleteClick confirm d store =
        ⟨store, [.confirm (if d.data.type = some sMain then deleteMainWarning else deleteWarning)]⟩) := by
  have hrun := deleteClick_eq confirm d store hc hd
  refine ⟨?_, ?_⟩
  · intro hyes
    rw [if_pos hyes] at hrun
    rw [hrun]
    have hcount : ∀ q : Fields → Bool,
        ((snapshotList store).filter q).length =
          ((snapshotList (deleteDoc store d.id)).filter q).length +
            (if q (toBranch d) then 1 else 0) := by
      intro q
      rw [length_filter_snapshot, length_filter_snapshot]
      exact countP_filter_key (q ∘ toBranch) hk hd
    refine ⟨rfl, by simp, ?_, ?_, ?_, ?_, ?_, ?_, ?_⟩
    · intro b hb
      obtain ⟨x, hx, rfl⟩ := List.mem_map.mp hb
      have hxm := List.mem_filter.mp hx
      have hcx : IdConsistent (deleteDoc store d.id) :=
        fun y hy => hc y (List.mem_of_mem_filter hy)
      rw [toBranch_id_of_consistent hcx hx]
      intro e
      have : x.id ≠ d.id := by simpa using hxm.2
      exact this (Option.some.inj e)
    · intro x hx hne
      exact List.mem_filter.mpr ⟨hx, by simpa using hne⟩
    · have h := hcount (fun _ => true)
      simpa [stats] using h
    · have h := hcount (fun b => b.type == some sMain)
      simp only [toBranch_type, beq_iff_eq] at h
      exact h
    · have h := hcount (fun b => b.type == some sSub)
      simp only [toBranch_type, beq_iff_eq] at h
      exact h
    · have h := hcount (fun b => b.status == some sActive)
      simp only [toBranch_status, beq_iff_eq] at h
      exact h
    · have h := hcount (fun b => b.status == some sInactive)
      simp only [toBranch_status, beq_iff_eq] at h
      exact h
  · intro hno
    rw [hrun, if_neg (by simp [hno])]

/-- Witness for C14: deleting the inactive Sub document `Downtown Flagship`
from the three sample documents, the prompt confirmed. -/
theorem delete_postcondition_witness :
    (deleteClick alwaysYes downtownDoc [hqDoc, downtownDoc, westDoc]).store = [hqDoc, westDoc] ∧
    stats (snapshotList [hqDoc, downtownDoc, westDoc]) = ⟨3, 1, 2, 2, 1⟩ ∧
    stats (snapshotList (deleteClick alwaysYes downtownDoc [hqDoc, downtownDoc, westDoc]).store) =
      ⟨2, 1, 1, 2, 0⟩ ∧
    deleteClick alwaysNo downtownDoc [hqDoc, downtownDoc, westDoc] =
      ⟨[hqDoc, downtownDoc, westDoc], [.confirm deleteWarning]⟩ :=
  ⟨((delete_postcondition alwaysYes [hqDoc, downtownDoc, westDoc] downtownDoc (by decide)
      (by decide) (by decide)).1 rfl).1.trans (by decide),
   by decide, by decide,
   ((delete_postcondition alwaysNo [hqDoc, downtownDoc, westDoc] downtownDoc (by decide)
      (by decide) (by decide)).2 rfl).trans (by decide)⟩

end BranchRegistry
